import Mathlib

/-!
# i80: an Intel 8080 emulator with a minimal CP/M shim

A shallow embedding of `i80.c` (Brian Callahan's 8080 emulator) and a
verification of its specification against it.

Conventions of the embedding.

* `byte` (`uint8_t`) and `word` (`uint16_t`) values are natural numbers; every
  store into a `byte` object reduces modulo 256 and every store into a `word`
  object modulo 65536, written out at the place where C converts.
* C evaluates arithmetic on promoted `int`s.  Where an intermediate value can be
  negative (`~x`, `1 - fcy`) the expression is computed in `Int` and converted
  with `toByte` / `toWord`, which is the conversion C applies on assignment.
* `struct cpu` and the file-scope objects `ram`, `inout` and `port` are gathered
  in one record `Cpu` (the Z80 build keeps them in `struct cpu` as well).
* `ram` is a function on all natural numbers: the C array is the part below
  `0x10000`, and an access through an index that C does not reduce modulo 65536
  shows up as an access to a cell at or above `0x10000`.
-/

namespace I80

/-! ## Machine integers -/

/-- Conversion of a C `int` to `uint8_t`. -/
def toByte (x : Int) : Nat := (x % 256).toNat

/-- Conversion of a C `int` to `uint16_t`. -/
def toWord (x : Int) : Nat := (x % 65536).toNat

/-- The C operator `~` applied to a promoted (non-negative) `int`. -/
def cnot (x : Nat) : Int := -(x : Int) - 1

/-- The C operator `!`. -/
def lnot (x : Nat) : Nat := if x = 0 then 1 else 0

/-- The effect of `x++` on a `byte`. -/
def incb (x : Nat) : Nat := (x + 1) % 256

/-- The effect of `x--` on a `byte`. -/
def decb (x : Nat) : Nat := toByte ((x : Int) - 1)

/-- The effect of `x++` on a `word`. -/
def incw (x : Nat) : Nat := (x + 1) % 65536

/-- The effect of `x--` on a `word`. -/
def decw (x : Nat) : Nat := toWord ((x : Int) - 1)

def AC_ADD : Nat := 0
def AC_SUB : Nat := 1

/-! ## State -/

/-- The record `struct cpu` together with the file-scope `ram`, `inout`, `port`. -/
structure Cpu where
  a : Nat
  b : Nat
  c : Nat
  d : Nat
  e : Nat
  h : Nat
  l : Nat
  f : Nat
  fs : Nat
  fz : Nat
  fzero : Nat
  fac : Nat
  fzerox : Nat
  fp : Nat
  fone : Nat
  fcy : Nat
  sp : Nat
  pc : Nat
  inte : Nat
  ram : Nat → Nat
  inout : Nat → Nat
  port : Int

/-- The size of the file-scope array `ram`: `static byte ram[0x10000]`.  The function
`ram` of a state stands for the array below `ramSize`. -/
def ramSize : Nat := 0x10000

/-- The assignment `ram[i] = v` for a `byte` value `v`. -/
def wr (s : Cpu) (i v : Nat) : Cpu :=
  { s with ram := fun j => if j = i then v else s.ram j }

/-- The assignment `ram[i] |= v`. -/
def wrOr (s : Cpu) (i v : Nat) : Cpu :=
  wr s i ((s.ram i ||| v) % 256)

/-- The expression `ram[i80->pc++]`: the byte at `pc`, and the state with `pc` advanced. -/
def fetch (s : Cpu) : Nat × Cpu :=
  (s.ram s.pc, { s with pc := incw s.pc })

/-- The pair `sb1 = ram[i80->pc++]; sb1 |= ram[i80->pc++] << 8;` (`sb1` is a `word`). -/
def fetch16 (s : Cpu) : Nat × Cpu :=
  let (lo, s) := fetch s
  let (hi, s) := fetch s
  ((lo ||| (hi <<< 8)) % 65536, s)

/-- The `word` `sb1 = ((i80->h) << 8) | i80->l`. -/
def hl (s : Cpu) : Nat := ((s.h <<< 8) ||| s.l) % 65536

/-! ## Helpers of `i80.c` -/

def ret (s : Cpu) : Cpu :=
  let s := { s with pc := s.ram s.sp, sp := incw s.sp }
  { s with pc := (s.pc ||| (s.ram s.sp <<< 8)) % 65536, sp := incw s.sp }

def call (s : Cpu) : Cpu :=
  let s := { s with sp := decw s.sp }
  let s := wr s s.sp ((s.pc >>> 8) % 256)
  let s := { s with sp := decw s.sp }
  wr s s.sp ((s.pc &&& 0xff) % 256)

/-- The loop `while (a) { p = !p; a = a & (a - 1); }` of `parity`, run for at most
`fuel` iterations: the values of `a` and `p` when it stops. -/
def parityLoop : Nat → Nat → Nat → Nat × Nat
  | 0, a, p => (a, p)
  | fuel + 1, a, p => if a = 0 then (a, p) else parityLoop fuel (a &&& (a - 1)) (lnot p)

/-- The function `parity`.  Every iteration of its loop makes `a` smaller, so `a`
iterations are enough for the loop to end (`parityLoop_exits`). -/
def parity (a : Nat) : Nat := lnot (parityLoop a a 0).2

def flags (s : Cpu) (reg : Nat) : Cpu :=
  let s := if reg > 0x7f then { s with fs := 1 } else { s with fs := 0 }
  let s := if reg = 0 then { s with fz := 1 } else { s with fz := 0 }
  let s := { s with fp := parity reg }
  { s with fzero := 0, fzerox := 0, fone := 1 }

def carryflag (s : Cpu) (rega regb sum addsub : Nat) : Cpu :=
  let halfcarry : Nat :=
    if addsub = AC_ADD then
      toWord (((rega &&& 0xf : Nat) : Int) + ((regb &&& 0xf : Nat) : Int) + (s.fcy : Int))
    else
      toWord (((rega &&& 0xf : Nat) : Int) + ((regb &&& 0xf : Nat) : Int) + 1 - (s.fcy : Int))
  let s := if halfcarry > 0xf then { s with fac := 1 } else { s with fac := 0 }
  let s := if addsub = AC_SUB then { s with fac := lnot s.fac } else s
  if sum > 0xff then { s with fcy := 1 } else { s with fcy := 0 }

def daa (s : Cpu) : Cpu :=
  let s :=
    if (s.a &&& 0xf) > 9 ∨ s.fac = 1 then
      let s := if (s.a &&& 0xf) + 0x6 > 0xf then { s with fac := 1 } else { s with fac := 0 }
      { s with a := (s.a + 0x6) % 256 }
    else s
  let s :=
    if (s.a >>> 4) > 9 ∨ s.fcy = 1 then
      let carry := (s.a + 0x60) % 65536
      let s := if carry > 0xff then { s with fcy := 1 } else s
      { s with a := (s.a + 0x60) % 256 }
    else s
  flags s s.a

/-! ## Bodies shared by several cases of `execute`

The switch of `execute` repeats one body per register.  Each definition below is
such a body with the operand (already read from the register, from `ram[sb1]`
or from `ram[i80->pc++]`) as parameter `x`. -/

/-- The `int` expression `((hi) << 8) | lo`. -/
def pair (hi lo : Nat) : Nat := (hi <<< 8) ||| lo

/-- Tail of the `inr` cases after the increment: `fac` from the new value `v`, then `flags`. -/
def inrTail (s : Cpu) (v : Nat) : Cpu :=
  let s := if (v &&& 0xf) = 0 then { s with fac := 1 } else { s with fac := 0 }
  flags s v

/-- Tail of the `dcr` cases after the decrement. -/
def dcrTail (s : Cpu) (v : Nat) : Cpu :=
  let s := if (v &&& 0xf) = 0xf then { s with fac := 0 } else { s with fac := 1 }
  flags s v

/-- Body of the `dad` cases: `doublecarry = sb1 + sb2` (a `uint32_t`), carry, then `h`, `l`. -/
def dad (s : Cpu) (sb1 sb2 : Nat) : Cpu :=
  let doublecarry := (sb1 + sb2) % 4294967296
  let s := if doublecarry > 0xffff then { s with fcy := 1 } else { s with fcy := 0 }
  let s := { s with h := (doublecarry >>> 8) &&& 0xff }
  { s with l := doublecarry &&& 0xff }

/-- Body of `add r`, `add m`, `adi`. -/
def add (s : Cpu) (x : Nat) : Cpu :=
  let carry := (s.a + x) % 65536
  let s := carryflag s s.a x carry AC_ADD
  let s := { s with a := carry &&& 0xff }
  flags s s.a

/-- Body of `adc r`, `adc m`, `aci`. -/
def adc (s : Cpu) (x : Nat) : Cpu :=
  let carry := (s.a + x + s.fcy) % 65536
  let s := carryflag s s.a x carry AC_ADD
  let s := { s with a := carry &&& 0xff }
  flags s s.a

/-- Body of `sub r`, `sub m`, `sui`: `carry = a + ~x + 1`. -/
def sub (s : Cpu) (x : Nat) : Cpu :=
  let carry := toWord ((s.a : Int) + cnot x + 1)
  let s := carryflag s s.a (toByte (cnot x)) carry AC_SUB
  let s := { s with a := carry &&& 0xff }
  flags s s.a

/-- Body of `sbb r`, `sbb m`, `sbi`: `carry = a + ~x + 1 - fcy`. -/
def sbb (s : Cpu) (x : Nat) : Cpu :=
  let carry := toWord ((s.a : Int) + cnot x + 1 - (s.fcy : Int))
  let s := carryflag s s.a (toByte (cnot x)) carry AC_SUB
  let s := { s with a := carry &&& 0xff }
  flags s s.a

/-- Body of `ana r`, `ana m`, `ani`. -/
def ana (s : Cpu) (x : Nat) : Cpu :=
  let s := { s with a := s.a &&& x }
  let s := flags s s.a
  { s with fac := 0, fcy := 0 }

/-- Body of `xra r`, `xra m`, `xri`. -/
def xra (s : Cpu) (x : Nat) : Cpu :=
  let s := { s with a := s.a ^^^ x }
  let s := flags s s.a
  { s with fac := 0, fcy := 0 }

/-- Body of `ora r`, `ora m`, `ori`. -/
def ora (s : Cpu) (x : Nat) : Cpu :=
  let s := { s with a := s.a ||| x }
  let s := flags s s.a
  { s with fac := 0, fcy := 0 }

/-- Body of `cmp r`, `cmp m`, `cpi`; `flags` receives the `word` `carry` as a `byte`. -/
def cmp (s : Cpu) (x : Nat) : Cpu :=
  let carry := toWord ((s.a : Int) + cnot x + 1)
  let s := carryflag s s.a (toByte (cnot x)) carry AC_SUB
  flags s (carry % 256)

/-- Body of the conditional jumps: read `sb1`, then `pc = sb1` when the condition holds. -/
def jumpIf (s : Cpu) (cond : Cpu → Bool) : Cpu :=
  let (sb1, s) := fetch16 s
  if cond s then { s with pc := sb1 } else s

/-- Body of the conditional calls: read `sb1`, then `call` and `pc = sb1` when the condition holds. -/
def callIf (s : Cpu) (cond : Cpu → Bool) : Cpu :=
  let (sb1, s) := fetch16 s
  if cond s then { call s with pc := sb1 } else s

/-- Body of the conditional returns. -/
def retIf (s : Cpu) (cond : Cpu → Bool) : Cpu :=
  if cond s then ret s else s

/-- Body of `rst n`: `call`, then `pc = 8 * n`. -/
def rst (s : Cpu) (target : Nat) : Cpu :=
  { call s with pc := target }

/-! ## The instruction engine -/

set_option maxRecDepth 100000 in
/-- The function `execute`: the state after the opcode, and the returned `int`
(`0` for `hlt`, `1` otherwise).  The switch is the chain of tests
`opcode = …`, one per `case`, in the order of the source. -/
def execute (s : Cpu) (opcode : Nat) : Cpu × Nat :=
  if opcode = 0x00 ∨ opcode = 0x08 ∨ opcode = 0x10 ∨ opcode = 0x18 ∨ opcode = 0x20 ∨ opcode = 0x28 ∨ opcode = 0x30 ∨ opcode = 0x38 then (s, 1)
  else if opcode = 0x01 then
    let (v, s) := fetch s
    let s := { s with c := v }
    let (v, s) := fetch s
    ({ s with b := v }, 1)
  else if opcode = 0x02 then (wr s (pair s.b s.c) s.a, 1)
  else if opcode = 0x03 then
    let s := { s with c := incb s.c }
    (if s.c = 0 then { s with b := incb s.b } else s, 1)
  else if opcode = 0x04 then
    let s := { s with b := incb s.b }
    (inrTail s s.b, 1)
  else if opcode = 0x05 then
    let s := { s with b := decb s.b }
    (dcrTail s s.b, 1)
  else if opcode = 0x06 then
    let (v, s) := fetch s
    ({ s with b := v }, 1)
  else if opcode = 0x07 then
    let carry := (s.a <<< 1) % 65536
    let s := if carry > 0xff then { s with fcy := 1 } else { s with fcy := 0 }
    let s := { s with a := carry &&& 0xff }
    (if s.fcy = 1 then { s with a := incb s.a } else s, 1)
  else if opcode = 0x09 then (dad s (pair s.b s.c % 65536) (hl s), 1)
  else if opcode = 0x0a then ({ s with a := s.ram (pair s.b s.c) }, 1)
  else if opcode = 0x0b then
    let s := { s with c := decb s.c }
    (if s.c = 0xff then { s with b := decb s.b } else s, 1)
  else if opcode = 0x0c then
    let s := { s with c := incb s.c }
    (inrTail s s.c, 1)
  else if opcode = 0x0d then
    let s := { s with c := decb s.c }
    (dcrTail s s.c, 1)
  else if opcode = 0x0e then
    let (v, s) := fetch s
    ({ s with c := v }, 1)
  else if opcode = 0x0f then
    let carry := s.a &&& 0x1
    let s := { s with a := s.a >>> 1 }
    (if carry ≠ 0 then { s with a := (s.a + 0x80) % 256, fcy := 1 } else { s with fcy := 0 }, 1)
  else if opcode = 0x11 then
    let (v, s) := fetch s
    let s := { s with e := v }
    let (v, s) := fetch s
    ({ s with d := v }, 1)
  else if opcode = 0x12 then (wr s (pair s.d s.e) s.a, 1)
  else if opcode = 0x13 then
    let s := { s with e := incb s.e }
    (if s.e = 0 then { s with d := incb s.d } else s, 1)
  else if opcode = 0x14 then
    let s := { s with d := incb s.d }
    (inrTail s s.d, 1)
  else if opcode = 0x15 then
    let s := { s with d := decb s.d }
    (dcrTail s s.d, 1)
  else if opcode = 0x16 then
    let (v, s) := fetch s
    ({ s with d := v }, 1)
  else if opcode = 0x17 then
    let carry := (s.a <<< 1) % 65536
    let s := { s with a := carry &&& 0xff }
    let s := if s.fcy = 1 then { s with a := incb s.a } else s
    (if carry > 0xff then { s with fcy := 1 } else { s with fcy := 0 }, 1)
  else if opcode = 0x19 then (dad s (pair s.d s.e % 65536) (hl s), 1)
  else if opcode = 0x1a then ({ s with a := s.ram (pair s.d s.e) }, 1)
  else if opcode = 0x1b then
    let s := { s with e := decb s.e }
    (if s.e = 0xff then { s with d := decb s.d } else s, 1)
  else if opcode = 0x1c then
    let s := { s with e := incb s.e }
    (inrTail s s.e, 1)
  else if opcode = 0x1d then
    let s := { s with e := decb s.e }
    (dcrTail s s.e, 1)
  else if opcode = 0x1e then
    let (v, s) := fetch s
    ({ s with e := v }, 1)
  else if opcode = 0x1f then
    let carry := s.a &&& 0x1
    let s := { s with a := s.a >>> 1 }
    let s := if s.fcy = 1 then { s with a := (s.a + 0x80) % 256 } else s
    (if carry ≠ 0 then { s with fcy := 1 } else { s with fcy := 0 }, 1)
  else if opcode = 0x21 then
    let (v, s) := fetch s
    let s := { s with l := v }
    let (v, s) := fetch s
    ({ s with h := v }, 1)
  else if opcode = 0x22 then
    let (sb1, s) := fetch16 s
    let s := wr s sb1 s.l
    (wr s (incw sb1) s.h, 1)
  else if opcode = 0x23 then
    let s := { s with l := incb s.l }
    (if s.l = 0 then { s with h := incb s.h } else s, 1)
  else if opcode = 0x24 then
    let s := { s with h := incb s.h }
    (inrTail s s.h, 1)
  else if opcode = 0x25 then
    let s := { s with h := decb s.h }
    (dcrTail s s.h, 1)
  else if opcode = 0x26 then
    let (v, s) := fetch s
    ({ s with h := v }, 1)
  else if opcode = 0x27 then (daa s, 1)
  else if opcode = 0x29 then (dad s (hl s) (hl s), 1)
  else if opcode = 0x2a then
    let (sb1, s) := fetch16 s
    let s := { s with l := s.ram sb1 }
    ({ s with h := s.ram (incw sb1) }, 1)
  else if opcode = 0x2b then
    let s := { s with l := decb s.l }
    (if s.l = 0xff then { s with h := decb s.h } else s, 1)
  else if opcode = 0x2c then
    let s := { s with l := incb s.l }
    (inrTail s s.l, 1)
  else if opcode = 0x2d then
    let s := { s with l := decb s.l }
    (dcrTail s s.l, 1)
  else if opcode = 0x2e then
    let (v, s) := fetch s
    ({ s with l := v }, 1)
  else if opcode = 0x2f then ({ s with a := toByte (cnot s.a) }, 1)
  else if opcode = 0x31 then
    let (v, s) := fetch s
    let s := { s with sp := v }
    let (v, s) := fetch s
    ({ s with sp := (s.sp ||| (v <<< 8)) % 65536 }, 1)
  else if opcode = 0x32 then
    let (sb1, s) := fetch16 s
    (wr s sb1 s.a, 1)
  else if opcode = 0x33 then ({ s with sp := incw s.sp }, 1)
  else if opcode = 0x34 then
    let sb1 := hl s
    let s := wr s sb1 (incb (s.ram sb1))
    (inrTail s (s.ram sb1), 1)
  else if opcode = 0x35 then
    let sb1 := hl s
    let s := wr s sb1 (decb (s.ram sb1))
    (dcrTail s (s.ram sb1), 1)
  else if opcode = 0x36 then
    let sb1 := hl s
    let (v, s) := fetch s
    (wr s sb1 v, 1)
  else if opcode = 0x37 then ({ s with fcy := 1 }, 1)
  else if opcode = 0x39 then (dad s s.sp (hl s), 1)
  else if opcode = 0x3a then
    let (sb1, s) := fetch16 s
    ({ s with a := s.ram sb1 }, 1)
  else if opcode = 0x3b then ({ s with sp := decw s.sp }, 1)
  else if opcode = 0x3c then
    let s := { s with a := incb s.a }
    (inrTail s s.a, 1)
  else if opcode = 0x3d then
    let s := { s with a := decb s.a }
    (dcrTail s s.a, 1)
  else if opcode = 0x3e then
    let (v, s) := fetch s
    ({ s with a := v }, 1)
  else if opcode = 0x3f then (if s.fcy = 1 then { s with fcy := 0 } else { s with fcy := 1 }, 1)
  else if opcode = 0x40 then (s, 1)
  else if opcode = 0x41 then ({ s with b := s.c }, 1)
  else if opcode = 0x42 then ({ s with b := s.d }, 1)
  else if opcode = 0x43 then ({ s with b := s.e }, 1)
  else if opcode = 0x44 then ({ s with b := s.h }, 1)
  else if opcode = 0x45 then ({ s with b := s.l }, 1)
  else if opcode = 0x46 then ({ s with b := s.ram (hl s) }, 1)
  else if opcode = 0x47 then ({ s with b := s.a }, 1)
  else if opcode = 0x48 then ({ s with c := s.b }, 1)
  else if opcode = 0x49 then (s, 1)
  else if opcode = 0x4a then ({ s with c := s.d }, 1)
  else if opcode = 0x4b then ({ s with c := s.e }, 1)
  else if opcode = 0x4c then ({ s with c := s.h }, 1)
  else if opcode = 0x4d then ({ s with c := s.l }, 1)
  else if opcode = 0x4e then ({ s with c := s.ram (hl s) }, 1)
  else if opcode = 0x4f then ({ s with c := s.a }, 1)
  else if opcode = 0x50 then ({ s with d := s.b }, 1)
  else if opcode = 0x51 then ({ s with d := s.c }, 1)
  else if opcode = 0x52 then (s, 1)
  else if opcode = 0x53 then ({ s with d := s.e }, 1)
  else if opcode = 0x54 then ({ s with d := s.h }, 1)
  else if opcode = 0x55 then ({ s with d := s.l }, 1)
  else if opcode = 0x56 then ({ s with d := s.ram (hl s) }, 1)
  else if opcode = 0x57 then ({ s with d := s.a }, 1)
  else if opcode = 0x58 then ({ s with e := s.b }, 1)
  else if opcode = 0x59 then ({ s with e := s.c }, 1)
  else if opcode = 0x5a then ({ s with e := s.d }, 1)
  else if opcode = 0x5b then (s, 1)
  else if opcode = 0x5c then ({ s with e := s.h }, 1)
  else if opcode = 0x5d then ({ s with e := s.l }, 1)
  else if opcode = 0x5e then ({ s with e := s.ram (hl s) }, 1)
  else if opcode = 0x5f then ({ s with e := s.a }, 1)
  else if opcode = 0x60 then ({ s with h := s.b }, 1)
  else if opcode = 0x61 then ({ s with h := s.c }, 1)
  else if opcode = 0x62 then ({ s with h := s.d }, 1)
  else if opcode = 0x63 then ({ s with h := s.e }, 1)
  else if opcode = 0x64 then (s, 1)
  else if opcode = 0x65 then ({ s with h := s.l }, 1)
  else if opcode = 0x66 then ({ s with h := s.ram (hl s) }, 1)
  else if opcode = 0x67 then ({ s with h := s.a }, 1)
  else if opcode = 0x68 then ({ s with l := s.b }, 1)
  else if opcode = 0x69 then ({ s with l := s.c }, 1)
  else if opcode = 0x6a then ({ s with l := s.d }, 1)
  else if opcode = 0x6b then ({ s with l := s.e }, 1)
  else if opcode = 0x6c then ({ s with l := s.h }, 1)
  else if opcode = 0x6d then (s, 1)
  else if opcode = 0x6e then ({ s with l := s.ram (hl s) }, 1)
  else if opcode = 0x6f then ({ s with l := s.a }, 1)
  else if opcode = 0x70 then (wr s (hl s) s.b, 1)
  else if opcode = 0x71 then (wr s (hl s) s.c, 1)
  else if opcode = 0x72 then (wr s (hl s) s.d, 1)
  else if opcode = 0x73 then (wr s (hl s) s.e, 1)
  else if opcode = 0x74 then (wr s (hl s) s.h, 1)
  else if opcode = 0x75 then (wr s (hl s) s.l, 1)
  else if opcode = 0x76 then (s, 0)
  else if opcode = 0x77 then (wr s (hl s) s.a, 1)
  else if opcode = 0x78 then ({ s with a := s.b }, 1)
  else if opcode = 0x79 then ({ s with a := s.c }, 1)
  else if opcode = 0x7a then ({ s with a := s.d }, 1)
  else if opcode = 0x7b then ({ s with a := s.e }, 1)
  else if opcode = 0x7c then ({ s with a := s.h }, 1)
  else if opcode = 0x7d then ({ s with a := s.l }, 1)
  else if opcode = 0x7e then ({ s with a := s.ram (hl s) }, 1)
  else if opcode = 0x7f then (s, 1)
  else if opcode = 0x80 then (add s s.b, 1)
  else if opcode = 0x81 then (add s s.c, 1)
  else if opcode = 0x82 then (add s s.d, 1)
  else if opcode = 0x83 then (add s s.e, 1)
  else if opcode = 0x84 then (add s s.h, 1)
  else if opcode = 0x85 then (add s s.l, 1)
  else if opcode = 0x86 then (add s (s.ram (hl s)), 1)
  else if opcode = 0x87 then (add s s.a, 1)
  else if opcode = 0x88 then (adc s s.b, 1)
  else if opcode = 0x89 then (adc s s.c, 1)
  else if opcode = 0x8a then (adc s s.d, 1)
  else if opcode = 0x8b then (adc s s.e, 1)
  else if opcode = 0x8c then (adc s s.h, 1)
  else if opcode = 0x8d then (adc s s.l, 1)
  else if opcode = 0x8e then (adc s (s.ram (hl s)), 1)
  else if opcode = 0x8f then (adc s s.a, 1)
  else if opcode = 0x90 then (sub s s.b, 1)
  else if opcode = 0x91 then (sub s s.c, 1)
  else if opcode = 0x92 then (sub s s.d, 1)
  else if opcode = 0x93 then (sub s s.e, 1)
  else if opcode = 0x94 then (sub s s.h, 1)
  else if opcode = 0x95 then (sub s s.l, 1)
  else if opcode = 0x96 then (sub s (s.ram (hl s)), 1)
  else if opcode = 0x97 then (sub s s.a, 1)
  else if opcode = 0x98 then (sbb s s.b, 1)
  else if opcode = 0x99 then (sbb s s.c, 1)
  else if opcode = 0x9a then (sbb s s.d, 1)
  else if opcode = 0x9b then (sbb s s.e, 1)
  else if opcode = 0x9c then (sbb s s.h, 1)
  else if opcode = 0x9d then (sbb s s.l, 1)
  else if opcode = 0x9e then (sbb s (s.ram (hl s)), 1)
  else if opcode = 0x9f then (sbb s s.a, 1)
  else if opcode = 0xa0 then (ana s s.b, 1)
  else if opcode = 0xa1 then (ana s s.c, 1)
  else if opcode = 0xa2 then (ana s s.d, 1)
  else if opcode = 0xa3 then (ana s s.e, 1)
  else if opcode = 0xa4 then (ana s s.h, 1)
  else if opcode = 0xa5 then (ana s s.l, 1)
  else if opcode = 0xa6 then (ana s (s.ram (hl s)), 1)
  else if opcode = 0xa7 then (ana s s.a, 1)
  else if opcode = 0xa8 then (xra s s.b, 1)
  else if opcode = 0xa9 then (xra s s.c, 1)
  else if opcode = 0xaa then (xra s s.d, 1)
  else if opcode = 0xab then (xra s s.e, 1)
  else if opcode = 0xac then (xra s s.h, 1)
  else if opcode = 0xad then (xra s s.l, 1)
  else if opcode = 0xae then (xra s (s.ram (hl s)), 1)
  else if opcode = 0xaf then (xra s s.a, 1)
  else if opcode = 0xb0 then (ora s s.b, 1)
  else if opcode = 0xb1 then (ora s s.c, 1)
  else if opcode = 0xb2 then (ora s s.d, 1)
  else if opcode = 0xb3 then (ora s s.e, 1)
  else if opcode = 0xb4 then (ora s s.h, 1)
  else if opcode = 0xb5 then (ora s s.l, 1)
  else if opcode = 0xb6 then (ora s (s.ram (hl s)), 1)
  else if opcode = 0xb7 then (ora s s.a, 1)
  else if opcode = 0xb8 then (cmp s s.b, 1)
  else if opcode = 0xb9 then (cmp s s.c, 1)
  else if opcode = 0xba then (cmp s s.d, 1)
  else if opcode = 0xbb then (cmp s s.e, 1)
  else if opcode = 0xbc then (cmp s s.h, 1)
  else if opcode = 0xbd then (cmp s s.l, 1)
  else if opcode = 0xbe then (cmp s (s.ram (hl s)), 1)
  else if opcode = 0xbf then (cmp s s.a, 1)
  else if opcode = 0xc0 then (retIf s (fun s => decide (s.fz = 0)), 1)
  else if opcode = 0xc1 then
    let s := { s with c := s.ram s.sp, sp := incw s.sp }
    ({ s with b := s.ram s.sp, sp := incw s.sp }, 1)
  else if opcode = 0xc2 then (jumpIf s (fun s => decide (s.fz = 0)), 1)
  else if opcode = 0xc3 ∨ opcode = 0xcb then
    let (sb1, s) := fetch16 s
    ({ s with pc := sb1 }, 1)
  else if opcode = 0xc4 then (callIf s (fun s => decide (s.fz = 0)), 1)
  else if opcode = 0xc5 then
    let s := { s with sp := decw s.sp }
    let s := wr s s.sp s.b
    let s := { s with sp := decw s.sp }
    (wr s s.sp s.c, 1)
  else if opcode = 0xc6 then
    let (halfcarry, s) := fetch s
    (add s halfcarry, 1)
  else if opcode = 0xc7 then (rst s 0x00, 1)
  else if opcode = 0xc8 then (retIf s (fun s => decide (s.fz = 1)), 1)
  else if opcode = 0xc9 ∨ opcode = 0xd9 then (ret s, 1)
  else if opcode = 0xca then (jumpIf s (fun s => decide (s.fz = 1)), 1)
  else if opcode = 0xcc then (callIf s (fun s => decide (s.fz = 1)), 1)
  else if opcode = 0xcd ∨ opcode = 0xdd ∨ opcode = 0xed ∨ opcode = 0xfd then
    let (sb1, s) := fetch16 s
    ({ call s with pc := sb1 }, 1)
  else if opcode = 0xce then
    let (halfcarry, s) := fetch s
    (adc s halfcarry, 1)
  else if opcode = 0xcf then (rst s 0x08, 1)
  else if opcode = 0xd0 then (retIf s (fun s => decide (s.fcy = 0)), 1)
  else if opcode = 0xd1 then
    let s := { s with e := s.ram s.sp, sp := incw s.sp }
    ({ s with d := s.ram s.sp, sp := incw s.sp }, 1)
  else if opcode = 0xd2 then (jumpIf s (fun s => decide (s.fcy = 0)), 1)
  else if opcode = 0xd3 then
    let (v, s) := fetch s
    let s := { s with port := (v : Int) }
    ({ s with inout := fun j => if j = v then s.a else s.inout j }, 1)
  else if opcode = 0xd4 then (callIf s (fun s => decide (s.fcy = 0)), 1)
  else if opcode = 0xd5 then
    let s := { s with sp := decw s.sp }
    let s := wr s s.sp s.d
    let s := { s with sp := decw s.sp }
    (wr s s.sp s.e, 1)
  else if opcode = 0xd6 then
    let (halfcarry, s) := fetch s
    (sub s halfcarry, 1)
  else if opcode = 0xd7 then (rst s 0x10, 1)
  else if opcode = 0xd8 then (retIf s (fun s => decide (s.fcy = 1)), 1)
  else if opcode = 0xda then (jumpIf s (fun s => decide (s.fcy = 1)), 1)
  else if opcode = 0xdb then
    let (v, s) := fetch s
    ({ s with port := (v : Int) }, 1)
  else if opcode = 0xdc then (callIf s (fun s => decide (s.fcy = 1)), 1)
  else if opcode = 0xde then
    let (halfcarry, s) := fetch s
    (sbb s halfcarry, 1)
  else if opcode = 0xdf then (rst s 0x18, 1)
  else if opcode = 0xe0 then (retIf s (fun s => decide (s.fp = 0)), 1)
  else if opcode = 0xe1 then
    let s := { s with l := s.ram s.sp, sp := incw s.sp }
    ({ s with h := s.ram s.sp, sp := incw s.sp }, 1)
  else if opcode = 0xe2 then (jumpIf s (fun s => decide (s.fp = 0)), 1)
  else if opcode = 0xe3 then
    let sb1 := hl s
    let s := { s with l := s.ram s.sp }
    let s := { s with h := s.ram (s.sp + 1) }
    let s := wr s s.sp (sb1 &&& 0xff)
    (wr s (s.sp + 1) ((sb1 >>> 8) &&& 0xff), 1)
  else if opcode = 0xe4 then (callIf s (fun s => decide (s.fp = 0)), 1)
  else if opcode = 0xe5 then
    let s := { s with sp := decw s.sp }
    let s := wr s s.sp s.h
    let s := { s with sp := decw s.sp }
    (wr s s.sp s.l, 1)
  else if opcode = 0xe6 then
    let (v, s) := fetch s
    (ana s v, 1)
  else if opcode = 0xe7 then (rst s 0x20, 1)
  else if opcode = 0xe8 then (retIf s (fun s => decide (s.fp = 1)), 1)
  else if opcode = 0xe9 then ({ s with pc := pair s.h s.l % 65536 }, 1)
  else if opcode = 0xea then (jumpIf s (fun s => decide (s.fp = 1)), 1)
  else if opcode = 0xeb then
    let sb1 := pair s.d s.e % 65536
    let s := { s with d := s.h }
    let s := { s with e := s.l }
    let s := { s with h := (sb1 >>> 8) &&& 0xff }
    ({ s with l := sb1 &&& 0xff }, 1)
  else if opcode = 0xec then (callIf s (fun s => decide (s.fp = 1)), 1)
  else if opcode = 0xee then
    let (halfcarry, s) := fetch s
    (xra s halfcarry, 1)
  else if opcode = 0xef then (rst s 0x28, 1)
  else if opcode = 0xf0 then (retIf s (fun s => decide (s.fs = 0)), 1)
  else if opcode = 0xf1 then
    let s := { s with fs := (s.ram s.sp >>> 7) &&& 0x1 }
    let s := { s with fz := (s.ram s.sp >>> 6) &&& 0x1 }
    let s := { s with fzero := 0 }
    let s := { s with fac := (s.ram s.sp >>> 4) &&& 0x1 }
    let s := { s with fzerox := 0 }
    let s := { s with fp := (s.ram s.sp >>> 2) &&& 0x1 }
    let s := { s with fone := 1 }
    let s := { s with fcy := s.ram s.sp &&& 0x1, sp := incw s.sp }
    ({ s with a := s.ram s.sp, sp := incw s.sp }, 1)
  else if opcode = 0xf2 then (jumpIf s (fun s => decide (s.fs = 0)), 1)
  else if opcode = 0xf3 then ({ s with inte := 0 }, 1)
  else if opcode = 0xf4 then (callIf s (fun s => decide (s.fs = 0)), 1)
  else if opcode = 0xf5 then
    let s := { s with sp := decw s.sp }
    let s := wr s s.sp s.a
    let s := { s with sp := decw s.sp }
    let s := wr s s.sp ((s.fs <<< 7) % 256)
    let s := wrOr s s.sp (s.fz <<< 6)
    let s := wrOr s s.sp (s.fzero <<< 5)
    let s := wrOr s s.sp (s.fac <<< 4)
    let s := wrOr s s.sp (s.fzerox <<< 3)
    let s := wrOr s s.sp (s.fp <<< 2)
    let s := wrOr s s.sp (s.fone <<< 1)
    (wrOr s s.sp s.fcy, 1)
  else if opcode = 0xf6 then
    let (halfcarry, s) := fetch s
    (ora s halfcarry, 1)
  else if opcode = 0xf7 then (rst s 0x30, 1)
  else if opcode = 0xf8 then (retIf s (fun s => decide (s.fs = 1)), 1)
  else if opcode = 0xf9 then ({ s with sp := pair s.h s.l % 65536 }, 1)
  else if opcode = 0xfa then (jumpIf s (fun s => decide (s.fs = 1)), 1)
  else if opcode = 0xfb then ({ s with inte := 1 }, 1)
  else if opcode = 0xfc then (callIf s (fun s => decide (s.fs = 1)), 1)
  else if opcode = 0xfe then
    let (halfcarry, s) := fetch s
    (cmp s halfcarry, 1)
  else if opcode = 0xff then (rst s 0x38, 1)
  else (s, 1)

/-! ## Bootstrap -/

def reset (s : Cpu) : Cpu :=
  { s with
    a := 0, b := 0, c := 0, d := 0, e := 0, h := 0, l := 0,
    fs := 0, fz := 1, fzero := 0, fac := 0, fzerox := 0, fp := 1, fone := 1, fcy := 0,
    pc := 0, sp := 0, inte := 0 }

def cpm (s : Cpu) : Cpu :=
  let s := wr s 0 0x76
  let s := wr s 5 0xd3
  let s := wr s 6 0x00
  wr s 7 0xc9

/-- The objects of the process before `main` runs: the static arrays are zero and
`port` is `-1`; the automatic `struct cpu` is indeterminate and is given as `0`
here (every field but the unused `f` is overwritten by `reset`). -/
def start : Cpu :=
  { a := 0, b := 0, c := 0, d := 0, e := 0, h := 0, l := 0, f := 0,
    fs := 0, fz := 0, fzero := 0, fac := 0, fzerox := 0, fp := 0, fone := 0, fcy := 0,
    sp := 0, pc := 0, inte := 0,
    ram := fun _ => 0, inout := fun _ => 0, port := -1 }

/-- The loop `while (i < sizeof(ram) - 1) read(fd, &ram[i++], 1);` over the bytes of
the image file.  Once the file is exhausted `read` stores nothing, so the remaining
iterations leave `ram` as it is. -/
def load : List Nat → Nat → Cpu → Cpu
  | [], _, s => s
  | x :: rest, i, s => if i < 0x10000 - 1 then load rest (i + 1) (wr s i x) else s

/-- The start of `main` up to and including `i80.pc = 0x100`. -/
def boot (image : List Nat) : Cpu :=
  let s := reset start
  let s := cpm s
  let s := load image 0x100 s
  { s with pc := 0x100 }

/-! ## Driver and BDOS services -/

/-- The host side of the process: the bytes still to come on standard input and
the bytes written so far, oldest first, to standard output and standard error. -/
structure Host where
  stdin : List Nat
  stdout : List Nat
  stderr : List Nat

/-- The whole process: machine and host. -/
structure Sys where
  cpu : Cpu
  host : Host

/-- What one turn of the loop of `main` leads to. -/
inductive Outcome where
  /-- The loop goes on from this state. -/
  | running (w : Sys)
  /-- Control reached `out:` and `main` returns 0. -/
  | exited (w : Sys)
  /-- Control never leaves a loop of a BDOS service entered in this state. -/
  | hung (w : Sys)

/-- The loop `while (ram[addr] != '$') write(1, &ram[addr++], 1);` run for at most
`fuel` iterations: the output once the loop has ended, `none` when it has not. -/
def writestr : Nat → (Nat → Nat) → Nat → List Nat → Option (List Nat)
  | 0, _, _, _ => none
  | fuel + 1, ram, addr, out =>
    if ram addr ≠ 0x24 then writestr fuel ram (incw addr) (out ++ [ram addr])
    else some out

/-- The loop `while (1) { … }` of `C_READSTR`.  The `int ch` receives one byte from
`read` and is taken to be that byte.  Returns the unread input, the machine, the
final `addr` and the output. -/
def readstr : List Nat → Cpu → Nat → Nat → Nat → List Nat → List Nat × Cpu × Nat × List Nat
  | [], s, addr, _, _, out => ([], s, addr, out)
  | x :: rest, s, addr, save, size, out =>
    let ch := if x = 0x0a then 0x0d else x
    if ch = 0x0d then (rest, s, addr, out)
    else
      let s := if (addr : Int) - (save : Int) + 2 < (size : Int) then wr s addr (ch % 256) else s
      readstr rest s (incw addr) save size (out ++ [s.ram addr])

/-- The `switch (i80.c)` of `main`, entered when `port == 0`, followed by `port = -1`. -/
def bdos (w : Sys) : Outcome :=
  let s := w.cpu
  let hst := w.host
  let done (s : Cpu) (hst : Host) : Outcome := .running ⟨{ s with port := -1 }, hst⟩
  if s.c = 0 then .exited w
  else if s.c = 1 then
    match hst.stdin with
    | [] => .hung w
    | x :: rest =>
      let s := { s with l := x }
      let s := { s with a := s.l }
      done s { hst with stdin := rest, stdout := hst.stdout ++ [s.a] }
  else if s.c = 2 then done s { hst with stdout := hst.stdout ++ [s.e] }
  else if s.c = 3 then
    let s := { s with l := 0 }
    done { s with a := s.l } hst
  else if s.c = 4 then done s { hst with stderr := hst.stderr ++ [s.e] }
  else if s.c = 5 then done s { hst with stderr := hst.stderr ++ [s.e] }
  else if s.c = 6 then
    match hst.stdin with
    | [] =>
      let s := { s with l := 0 }
      done { s with a := s.l } hst
    | x :: rest =>
      let s := { s with l := x }
      done { s with a := s.l } { hst with stdin := rest }
  else if s.c = 7 then done s hst
  else if s.c = 8 then done s hst
  else if s.c = 9 then
    let addr := pair s.d s.e % 65536
    match writestr 0x10000 s.ram addr hst.stdout with
    | none => .hung w
    | some out => done s { hst with stdout := out }
  else if s.c = 10 then
    let addr := pair s.d s.e % 65536
    let size := s.ram addr % 65536
    let save := addr
    let addr := incw addr
    let addr := incw addr
    let (rest, s, addr, out) := readstr hst.stdin s addr save size hst.stdout
    let addr := toWord ((addr : Int) - (save : Int) + 1)
    let s := wr s (save + 1) (addr &&& 0xff)
    done s { hst with stdin := rest, stdout := out }
  else if s.c = 12 then
    let s := { s with h := 0 }
    let s := { s with b := s.h }
    let s := { s with l := 0x22 }
    done { s with a := s.l } hst
  else if s.c = 25 then done { s with a := 0 } hst
  else done s hst

/-- One turn of `while (execute(&i80, ram[i80.pc++])) { if (port == 0) { … } }`. -/
def step (w : Sys) : Outcome :=
  let (opcode, s) := fetch w.cpu
  let (s, r) := execute s opcode
  if r = 0 then .exited ⟨s, w.host⟩
  else if s.port = 0 then bdos ⟨s, w.host⟩
  else .running ⟨s, w.host⟩

/-- The state an outcome carries. -/
def Outcome.sys : Outcome → Sys
  | .running w => w
  | .exited w => w
  | .hung w => w

def Outcome.isRunning : Outcome → Bool
  | .running _ => true
  | _ => false

def Outcome.isExited : Outcome → Bool
  | .exited _ => true
  | _ => false

/-- At most `n` turns of the loop of `main`. -/
def run : Nat → Sys → Outcome
  | 0, w => .running w
  | n + 1, w =>
    match step w with
    | .running w1 => run n w1
    | o => o

end I80

/-!
# z80: the Z80 build

A shallow embedding of `z80.c`, by the conventions used for `i80.c`.  Here `ram`,
`inout` and `port` are members of `struct cpu`, and `ram` is declared as
`byte ram[0xffff]`: the array is the part of the function `ram` below `ramSize`.
-/

namespace Z80

open I80 (toByte toWord cnot lnot incb decb incw decw AC_ADD AC_SUB pair parity)

/-! ## State -/

/-- The record `struct cpu`. -/
structure Cpu where
  a : Nat
  ap : Nat
  b : Nat
  bp : Nat
  c : Nat
  cp : Nat
  d : Nat
  dp : Nat
  e : Nat
  ep : Nat
  h : Nat
  hp : Nat
  l : Nat
  lp : Nat
  fs : Nat
  fsp : Nat
  fz : Nat
  fzp : Nat
  fzero : Nat
  fzerop : Nat
  fac : Nat
  facp : Nat
  fzerox : Nat
  fzeroxp : Nat
  fp : Nat
  fpp : Nat
  fone : Nat
  fonep : Nat
  fcy : Nat
  fcyp : Nat
  sp : Nat
  pc : Nat
  inte : Nat
  ram : Nat → Nat
  inout : Nat → Nat
  port : Int

/-- The assignment `z80->ram[i] = v` for a `byte` value `v`. -/
def wr (s : Cpu) (i v : Nat) : Cpu :=
  { s with ram := fun j => if j = i then v else s.ram j }

/-- The assignment `z80->ram[i] |= v`. -/
def wrOr (s : Cpu) (i v : Nat) : Cpu :=
  wr s i ((s.ram i ||| v) % 256)

/-- The expression `z80->ram[z80->pc++]`: the byte at `pc`, and the state with `pc` advanced. -/
def fetch (s : Cpu) : Nat × Cpu :=
  (s.ram s.pc, { s with pc := incw s.pc })

/-- The pair `sb1 = ram[z80->pc++]; sb1 |= ram[z80->pc++] << 8;` (`sb1` is a `word`). -/
def fetch16 (s : Cpu) : Nat × Cpu :=
  let (lo, s) := fetch s
  let (hi, s) := fetch s
  ((lo ||| (hi <<< 8)) % 65536, s)

/-- The `word` `sb1 = ((z80->h) << 8) | z80->l`. -/
def hl (s : Cpu) : Nat := ((s.h <<< 8) ||| s.l) % 65536

/-! ## Helpers of `z80.c`

The function `parity` of `z80.c` has the text of the one of `i80.c`. -/

def ret (s : Cpu) : Cpu :=
  let s := { s with pc := s.ram s.sp, sp := incw s.sp }
  { s with pc := (s.pc ||| (s.ram s.sp <<< 8)) % 65536, sp := incw s.sp }

def call (s : Cpu) : Cpu :=
  let s := { s with sp := decw s.sp }
  let s := wr s s.sp ((s.pc >>> 8) % 256)
  let s := { s with sp := decw s.sp }
  wr s s.sp ((s.pc &&& 0xff) % 256)

def flags (s : Cpu) (reg : Nat) : Cpu :=
  let s := if reg > 0x7f then { s with fs := 1 } else { s with fs := 0 }
  let s := if reg = 0 then { s with fz := 1 } else { s with fz := 0 }
  let s := { s with fp := parity reg }
  { s with fzero := 0, fzerox := 0, fone := 1 }

def carryflag (s : Cpu) (rega regb sum addsub : Nat) : Cpu :=
  let halfcarry : Nat :=
    if addsub = AC_ADD then
      toWord (((rega &&& 0xf : Nat) : Int) + ((regb &&& 0xf : Nat) : Int) + (s.fcy : Int))
    else
      toWord (((rega &&& 0xf : Nat) : Int) + ((regb &&& 0xf : Nat) : Int) + 1 - (s.fcy : Int))
  let s := if halfcarry > 0xf then { s with fac := 1 } else { s with fac := 0 }
  let s := if addsub = AC_SUB then { s with fac := lnot s.fac } else s
  if sum > 0xff then { s with fcy := 1 } else { s with fcy := 0 }

def daa (s : Cpu) : Cpu :=
  let s :=
    if (s.a &&& 0xf) > 9 ∨ s.fac = 1 then
      let s := if (s.a &&& 0xf) + 0x6 > 0xf then { s with fac := 1 } else { s with fac := 0 }
      { s with a := (s.a + 0x6) % 256 }
    else s
  let s :=
    if (s.a >>> 4) > 9 ∨ s.fcy = 1 then
      let carry := (s.a + 0x60) % 65536
      let s := if carry > 0xff then { s with fcy := 1 } else s
      { s with a := (s.a + 0x60) % 256 }
    else s
  flags s s.a

/-- The function `exafaf`: A and the flags S, Z, AC, P, CY change places with
their shadows. -/
def exafaf (s : Cpu) : Cpu :=
  let ta := s.a
  let tfs := s.fs
  let tfz := s.fz
  let tfac := s.fac
  let tfp := s.fp
  let tfcy := s.fcy
  let s := { s with a := s.ap, fs := s.fsp, fz := s.fzp, fac := s.facp, fp := s.fpp,
                    fcy := s.fcyp }
  { s with ap := ta, fsp := tfs, fzp := tfz, facp := tfac, fpp := tfp, fcyp := tfcy }

/-- The function `exx`: each of BC, DE, HL goes through the `word` `tmp` into its
shadow, and the shadow into the pair. -/
def exx (s : Cpu) : Cpu :=
  let tmp := pair s.b s.c % 65536
  let s := { s with b := s.bp, c := s.cp }
  let s := { s with bp := (tmp >>> 8) &&& 0xff, cp := tmp &&& 0xff }
  let tmp := pair s.d s.e % 65536
  let s := { s with d := s.dp, e := s.ep }
  let s := { s with dp := (tmp >>> 8) &&& 0xff, ep := tmp &&& 0xff }
  let tmp := pair s.h s.l % 65536
  let s := { s with h := s.hp, l := s.lp }
  { s with hp := (tmp >>> 8) &&& 0xff, lp := tmp &&& 0xff }

/-! ## Bodies shared by several cases of `execute`

The switch of `execute` repeats one body per register.  Each definition below is
such a body with the operand (already read from the register, from `z80->ram[sb1]`
or from `z80->ram[z80->pc++]`) as parameter `x`. -/

/-- Tail of the `inr` cases after the increment: `fac` from the new value `v`, then `flags`. -/
def inrTail (s : Cpu) (v : Nat) : Cpu :=
  let s := if (v &&& 0xf) = 0 then { s with fac := 1 } else { s with fac := 0 }
  flags s v

/-- Tail of the `dcr` cases after the decrement. -/
def dcrTail (s : Cpu) (v : Nat) : Cpu :=
  let s := if (v &&& 0xf) = 0xf then { s with fac := 0 } else { s with fac := 1 }
  flags s v

/-- Body of the `dad` cases: `doublecarry = sb1 + sb2` (a `uint32_t`), carry, then `h`, `l`. -/
def dad (s : Cpu) (sb1 sb2 : Nat) : Cpu :=
  let doublecarry := (sb1 + sb2) % 4294967296
  let s := if doublecarry > 0xffff then { s with fcy := 1 } else { s with fcy := 0 }
  let s := { s with h := (doublecarry >>> 8) &&& 0xff }
  { s with l := doublecarry &&& 0xff }

/-- Body of `add r`, `add m`, `adi`. -/
def add (s : Cpu) (x : Nat) : Cpu :=
  let carry := (s.a + x) % 65536
  let s := carryflag s s.a x carry AC_ADD
  let s := { s with a := carry &&& 0xff }
  flags s s.a

/-- Body of `adc r`, `adc m`, `aci`. -/
def adc (s : Cpu) (x : Nat) : Cpu :=
  let carry := (s.a + x + s.fcy) % 65536
  let s := carryflag s s.a x carry AC_ADD
  let s := { s with a := carry &&& 0xff }
  flags s s.a

/-- Body of `sub r`, `sub m`, `sui`: `carry = a + ~x + 1`. -/
def sub (s : Cpu) (x : Nat) : Cpu :=
  let carry := toWord ((s.a : Int) + cnot x + 1)
  let s := carryflag s s.a (toByte (cnot x)) carry AC_SUB
  let s := { s with a := carry &&& 0xff }
  flags s s.a

/-- Body of `sbb r`, `sbb m`, `sbi`: `carry = a + ~x + 1 - fcy`. -/
def sbb (s : Cpu) (x : Nat) : Cpu :=
  let carry := toWord ((s.a : Int) + cnot x + 1 - (s.fcy : Int))
  let s := carryflag s s.a (toByte (cnot x)) carry AC_SUB
  let s := { s with a := carry &&& 0xff }
  flags s s.a

/-- Body of `ana r`, `ana m`, `ani`. -/
def ana (s : Cpu) (x : Nat) : Cpu :=
  let s := { s with a := s.a &&& x }
  let s := flags s s.a
  { s with fac := 0, fcy := 0 }

/-- Body of `xra r`, `xra m`, `xri`. -/
def xra (s : Cpu) (x : Nat) : Cpu :=
  let s := { s with a := s.a ^^^ x }
  let s := flags s s.a
  { s with fac := 0, fcy := 0 }

/-- Body of `ora r`, `ora m`, `ori`. -/
def ora (s : Cpu) (x : Nat) : Cpu :=
  let s := { s with a := s.a ||| x }
  let s := flags s s.a
  { s with fac := 0, fcy := 0 }

/-- Body of `cmp r`, `cmp m`, `cpi`; `flags` receives the `word` `carry` as a `byte`. -/
def cmp (s : Cpu) (x : Nat) : Cpu :=
  let carry := toWord ((s.a : Int) + cnot x + 1)
  let s := carryflag s s.a (toByte (cnot x)) carry AC_SUB
  flags s (carry % 256)

/-- Body of the conditional jumps: read `sb1`, then `pc = sb1` when the condition holds. -/
def jumpIf (s : Cpu) (cond : Cpu → Bool) : Cpu :=
  let (sb1, s) := fetch16 s
  if cond s then { s with pc := sb1 } else s

/-- Body of the conditional calls: read `sb1`, then `call` and `pc = sb1` when the condition holds. -/
def callIf (s : Cpu) (cond : Cpu → Bool) : Cpu :=
  let (sb1, s) := fetch16 s
  if cond s then { call s with pc := sb1 } else s

/-- Body of the conditional returns. -/
def retIf (s : Cpu) (cond : Cpu → Bool) : Cpu :=
  if cond s then ret s else s

/-- Body of `rst n`: `call`, then `pc = 8 * n`. -/
def rst (s : Cpu) (target : Nat) : Cpu :=
  { call s with pc := target }

/-! ## The instruction engine -/

set_option maxRecDepth 100000 in
/-- The function `execute`: the state after the opcode, and the returned `int`
(`0` for `hlt`, `1` otherwise).  The switch is the chain of tests
`opcode = …`, one per `case`, in the order of the source. -/
def execute (s : Cpu) (opcode : Nat) : Cpu × Nat :=
  if opcode = 0x00 ∨ opcode = 0x10 ∨ opcode = 0x18 ∨ opcode = 0x20 ∨ opcode = 0x28 ∨ opcode = 0x30 ∨ opcode = 0x38 then (s, 1)
  else if opcode = 0x01 then
    let (v, s) := fetch s
    let s := { s with c := v }
    let (v, s) := fetch s
    ({ s with b := v }, 1)
  else if opcode = 0x02 then (wr s (pair s.b s.c) s.a, 1)
  else if opcode = 0x03 then
    let s := { s with c := incb s.c }
    (if s.c = 0 then { s with b := incb s.b } else s, 1)
  else if opcode = 0x04 then
    let s := { s with b := incb s.b }
    (inrTail s s.b, 1)
  else if opcode = 0x05 then
    let s := { s with b := decb s.b }
    (dcrTail s s.b, 1)
  else if opcode = 0x06 then
    let (v, s) := fetch s
    ({ s with b := v }, 1)
  else if opcode = 0x07 then
    let carry := (s.a <<< 1) % 65536
    let s := if carry > 0xff then { s with fcy := 1 } else { s with fcy := 0 }
    let s := { s with a := carry &&& 0xff }
    (if s.fcy = 1 then { s with a := incb s.a } else s, 1)
  else if opcode = 0x08 then (exafaf s, 1)
  else if opcode = 0x09 then (dad s (pair s.b s.c % 65536) (hl s), 1)
  else if opcode = 0x0a then ({ s with a := s.ram (pair s.b s.c) }, 1)
  else if opcode = 0x0b then
    let s := { s with c := decb s.c }
    (if s.c = 0xff then { s with b := decb s.b } else s, 1)
  else if opcode = 0x0c then
    let s := { s with c := incb s.c }
    (inrTail s s.c, 1)
  else if opcode = 0x0d then
    let s := { s with c := decb s.c }
    (dcrTail s s.c, 1)
  else if opcode = 0x0e then
    let (v, s) := fetch s
    ({ s with c := v }, 1)
  else if opcode = 0x0f then
    let carry := s.a &&& 0x1
    let s := { s with a := s.a >>> 1 }
    (if carry ≠ 0 then { s with a := (s.a + 0x80) % 256, fcy := 1 } else { s with fcy := 0 }, 1)
  else if opcode = 0x11 then
    let (v, s) := fetch s
    let s := { s with e := v }
    let (v, s) := fetch s
    ({ s with d := v }, 1)
  else if opcode = 0x12 then (wr s (pair s.d s.e) s.a, 1)
  else if opcode = 0x13 then
    let s := { s with e := incb s.e }
    (if s.e = 0 then { s with d := incb s.d } else s, 1)
  else if opcode = 0x14 then
    let s := { s with d := incb s.d }
    (inrTail s s.d, 1)
  else if opcode = 0x15 then
    let s := { s with d := decb s.d }
    (dcrTail s s.d, 1)
  else if opcode = 0x16 then
    let (v, s) := fetch s
    ({ s with d := v }, 1)
  else if opcode = 0x17 then
    let carry := (s.a <<< 1) % 65536
    let s := { s with a := carry &&& 0xff }
    let s := if s.fcy = 1 then { s with a := incb s.a } else s
    (if carry > 0xff then { s with fcy := 1 } else { s with fcy := 0 }, 1)
  else if opcode = 0x19 then (dad s (pair s.d s.e % 65536) (hl s), 1)
  else if opcode = 0x1a then ({ s with a := s.ram (pair s.d s.e) }, 1)
  else if opcode = 0x1b then
    let s := { s with e := decb s.e }
    (if s.e = 0xff then { s with d := decb s.d } else s, 1)
  else if opcode = 0x1c then
    let s := { s with e := incb s.e }
    (inrTail s s.e, 1)
  else if opcode = 0x1d then
    let s := { s with e := decb s.e }
    (dcrTail s s.e, 1)
  else if opcode = 0x1e then
    let (v, s) := fetch s
    ({ s with e := v }, 1)
  else if opcode = 0x1f then
    let carry := s.a &&& 0x1
    let s := { s with a := s.a >>> 1 }
    let s := if s.fcy = 1 then { s with a := (s.a + 0x80) % 256 } else s
    (if carry ≠ 0 then { s with fcy := 1 } else { s with fcy := 0 }, 1)
  else if opcode = 0x21 then
    let (v, s) := fetch s
    let s := { s with l := v }
    let (v, s) := fetch s
    ({ s with h := v }, 1)
  else if opcode = 0x22 then
    let (sb1, s) := fetch16 s
    let s := wr s sb1 s.l
    (wr s (incw sb1) s.h, 1)
  else if opcode = 0x23 then
    let s := { s with l := incb s.l }
    (if s.l = 0 then { s with h := incb s.h } else s, 1)
  else if opcode = 0x24 then
    let s := { s with h := incb s.h }
    (inrTail s s.h, 1)
  else if opcode = 0x25 then
    let s := { s with h := decb s.h }
    (dcrTail s s.h, 1)
  else if opcode = 0x26 then
    let (v, s) := fetch s
    ({ s with h := v }, 1)
  else if opcode = 0x27 then (daa s, 1)
  else if opcode = 0x29 then (dad s (hl s) (hl s), 1)
  else if opcode = 0x2a then
    let (sb1, s) := fetch16 s
    let s := { s with l := s.ram sb1 }
    ({ s with h := s.ram (incw sb1) }, 1)
  else if opcode = 0x2b then
    let s := { s with l := decb s.l }
    (if s.l = 0xff then { s with h := decb s.h } else s, 1)
  else if opcode = 0x2c then
    let s := { s with l := incb s.l }
    (inrTail s s.l, 1)
  else if opcode = 0x2d then
    let s := { s with l := decb s.l }
    (dcrTail s s.l, 1)
  else if opcode = 0x2e then
    let (v, s) := fetch s
    ({ s with l := v }, 1)
  else if opcode = 0x2f then ({ s with a := toByte (cnot s.a) }, 1)
  else if opcode = 0x31 then
    let (v, s) := fetch s
    let s := { s with sp := v }
    let (v, s) := fetch s
    ({ s with sp := (s.sp ||| (v <<< 8)) % 65536 }, 1)
  else if opcode = 0x32 then
    let (sb1, s) := fetch16 s
    (wr s sb1 s.a, 1)
  else if opcode = 0x33 then ({ s with sp := incw s.sp }, 1)
  else if opcode = 0x34 then
    let sb1 := hl s
    let s := wr s sb1 (incb (s.ram sb1))
    (inrTail s (s.ram sb1), 1)
  else if opcode = 0x35 then
    let sb1 := hl s
    let s := wr s sb1 (decb (s.ram sb1))
    (dcrTail s (s.ram sb1), 1)
  else if opcode = 0x36 then
    let sb1 := hl s
    let (v, s) := fetch s
    (wr s sb1 v, 1)
  else if opcode = 0x37 then ({ s with fcy := 1 }, 1)
  else if opcode = 0x39 then (dad s s.sp (hl s), 1)
  else if opcode = 0x3a then
    let (sb1, s) := fetch16 s
    ({ s with a := s.ram sb1 }, 1)
  else if opcode = 0x3b then ({ s with sp := decw s.sp }, 1)
  else if opcode = 0x3c then
    let s := { s with a := incb s.a }
    (inrTail s s.a, 1)
  else if opcode = 0x3d then
    let s := { s with a := decb s.a }
    (dcrTail s s.a, 1)
  else if opcode = 0x3e then
    let (v, s) := fetch s
    ({ s with a := v }, 1)
  else if opcode = 0x3f then (if s.fcy = 1 then { s with fcy := 0 } else { s with fcy := 1 }, 1)
  else if opcode = 0x40 then (s, 1)
  else if opcode = 0x41 then ({ s with b := s.c }, 1)
  else if opcode = 0x42 then ({ s with b := s.d }, 1)
  else if opcode = 0x43 then ({ s with b := s.e }, 1)
  else if opcode = 0x44 then ({ s with b := s.h }, 1)
  else if opcode = 0x45 then ({ s with b := s.l }, 1)
  else if opcode = 0x46 then ({ s with b := s.ram (hl s) }, 1)
  else if opcode = 0x47 then ({ s with b := s.a }, 1)
  else if opcode = 0x48 then ({ s with c := s.b }, 1)
  else if opcode = 0x49 then (s, 1)
  else if opcode = 0x4a then ({ s with c := s.d }, 1)
  else if opcode = 0x4b then ({ s with c := s.e }, 1)
  else if opcode = 0x4c then ({ s with c := s.h }, 1)
  else if opcode = 0x4d then ({ s with c := s.l }, 1)
  else if opcode = 0x4e then ({ s with c := s.ram (hl s) }, 1)
  else if opcode = 0x4f then ({ s with c := s.a }, 1)
  else if opcode = 0x50 then ({ s with d := s.b }, 1)
  else if opcode = 0x51 then ({ s with d := s.c }, 1)
  else if opcode = 0x52 then (s, 1)
  else if opcode = 0x53 then ({ s with d := s.e }, 1)
  else if opcode = 0x54 then ({ s with d := s.h }, 1)
  else if opcode = 0x55 then ({ s with d := s.l }, 1)
  else if opcode = 0x56 then ({ s with d := s.ram (hl s) }, 1)
  else if opcode = 0x57 then ({ s with d := s.a }, 1)
  else if opcode = 0x58 then ({ s with e := s.b }, 1)
  else if opcode = 0x59 then ({ s with e := s.c }, 1)
  else if opcode = 0x5a then ({ s with e := s.d }, 1)
  else if opcode = 0x5b then (s, 1)
  else if opcode = 0x5c then ({ s with e := s.h }, 1)
  else if opcode = 0x5d then ({ s with e := s.l }, 1)
  else if opcode = 0x5e then ({ s with e := s.ram (hl s) }, 1)
  else if opcode = 0x5f then ({ s with e := s.a }, 1)
  else if opcode = 0x60 then ({ s with h := s.b }, 1)
  else if opcode = 0x61 then ({ s with h := s.c }, 1)
  else if opcode = 0x62 then ({ s with h := s.d }, 1)
  else if opcode = 0x63 then ({ s with h := s.e }, 1)
  else if opcode = 0x64 then (s, 1)
  else if opcode = 0x65 then ({ s with h := s.l }, 1)
  else if opcode = 0x66 then ({ s with h := s.ram (hl s) }, 1)
  else if opcode = 0x67 then ({ s with h := s.a }, 1)
  else if opcode = 0x68 then ({ s with l := s.b }, 1)
  else if opcode = 0x69 then ({ s with l := s.c }, 1)
  else if opcode = 0x6a then ({ s with l := s.d }, 1)
  else if opcode = 0x6b then ({ s with l := s.e }, 1)
  else if opcode = 0x6c then ({ s with l := s.h }, 1)
  else if opcode = 0x6d then (s, 1)
  else if opcode = 0x6e then ({ s with l := s.ram (hl s) }, 1)
  else if opcode = 0x6f then ({ s with l := s.a }, 1)
  else if opcode = 0x70 then (wr s (hl s) s.b, 1)
  else if opcode = 0x71 then (wr s (hl s) s.c, 1)
  else if opcode = 0x72 then (wr s (hl s) s.d, 1)
  else if opcode = 0x73 then (wr s (hl s) s.e, 1)
  else if opcode = 0x74 then (wr s (hl s) s.h, 1)
  else if opcode = 0x75 then (wr s (hl s) s.l, 1)
  else if opcode = 0x76 then (s, 0)
  else if opcode = 0x77 then (wr s (hl s) s.a, 1)
  else if opcode = 0x78 then ({ s with a := s.b }, 1)
  else if opcode = 0x79 then ({ s with a := s.c }, 1)
  else if opcode = 0x7a then ({ s with a := s.d }, 1)
  else if opcode = 0x7b then ({ s with a := s.e }, 1)
  else if opcode = 0x7c then ({ s with a := s.h }, 1)
  else if opcode = 0x7d then ({ s with a := s.l }, 1)
  else if opcode = 0x7e then ({ s with a := s.ram (hl s) }, 1)
  else if opcode = 0x7f then (s, 1)
  else if opcode = 0x80 then (add s s.b, 1)
  else if opcode = 0x81 then (add s s.c, 1)
  else if opcode = 0x82 then (add s s.d, 1)
  else if opcode = 0x83 then (add s s.e, 1)
  else if opcode = 0x84 then (add s s.h, 1)
  else if opcode = 0x85 then (add s s.l, 1)
  else if opcode = 0x86 then (add s (s.ram (hl s)), 1)
  else if opcode = 0x87 then (add s s.a, 1)
  else if opcode = 0x88 then (adc s s.b, 1)
  else if opcode = 0x89 then (adc s s.c, 1)
  else if opcode = 0x8a then (adc s s.d, 1)
  else if opcode = 0x8b then (adc s s.e, 1)
  else if opcode = 0x8c then (adc s s.h, 1)
  else if opcode = 0x8d then (adc s s.l, 1)
  else if opcode = 0x8e then (adc s (s.ram (hl s)), 1)
  else if opcode = 0x8f then (adc s s.a, 1)
  else if opcode = 0x90 then (sub s s.b, 1)
  else if opcode = 0x91 then (sub s s.c, 1)
  else if opcode = 0x92 then (sub s s.d, 1)
  else if opcode = 0x93 then (sub s s.e, 1)
  else if opcode = 0x94 then (sub s s.h, 1)
  else if opcode = 0x95 then (sub s s.l, 1)
  else if opcode = 0x96 then (sub s (s.ram (hl s)), 1)
  else if opcode = 0x97 then (sub s s.a, 1)
  else if opcode = 0x98 then (sbb s s.b, 1)
  else if opcode = 0x99 then (sbb s s.c, 1)
  else if opcode = 0x9a then (sbb s s.d, 1)
  else if opcode = 0x9b then (sbb s s.e, 1)
  else if opcode = 0x9c then (sbb s s.h, 1)
  else if opcode = 0x9d then (sbb s s.l, 1)
  else if opcode = 0x9e then (sbb s (s.ram (hl s)), 1)
  else if opcode = 0x9f then (sbb s s.a, 1)
  else if opcode = 0xa0 then (ana s s.b, 1)
  else if opcode = 0xa1 then (ana s s.c, 1)
  else if opcode = 0xa2 then (ana s s.d, 1)
  else if opcode = 0xa3 then (ana s s.e, 1)
  else if opcode = 0xa4 then (ana s s.h, 1)
  else if opcode = 0xa5 then (ana s s.l, 1)
  else if opcode = 0xa6 then (ana s (s.ram (hl s)), 1)
  else if opcode = 0xa7 then (ana s s.a, 1)
  else if opcode = 0xa8 then (xra s s.b, 1)
  else if opcode = 0xa9 then (xra s s.c, 1)
  else if opcode = 0xaa then (xra s s.d, 1)
  else if opcode = 0xab then (xra s s.e, 1)
  else if opcode = 0xac then (xra s s.h, 1)
  else if opcode = 0xad then (xra s s.l, 1)
  else if opcode = 0xae then (xra s (s.ram (hl s)), 1)
  else if opcode = 0xaf then (xra s s.a, 1)
  else if opcode = 0xb0 then (ora s s.b, 1)
  else if opcode = 0xb1 then (ora s s.c, 1)
  else if opcode = 0xb2 then (ora s s.d, 1)
  else if opcode = 0xb3 then (ora s s.e, 1)
  else if opcode = 0xb4 then (ora s s.h, 1)
  else if opcode = 0xb5 then (ora s s.l, 1)
  else if opcode = 0xb6 then (ora s (s.ram (hl s)), 1)
  else if opcode = 0xb7 then (ora s s.a, 1)
  else if opcode = 0xb8 then (cmp s s.b, 1)
  else if opcode = 0xb9 then (cmp s s.c, 1)
  else if opcode = 0xba then (cmp s s.d, 1)
  else if opcode = 0xbb then (cmp s s.e, 1)
  else if opcode = 0xbc then (cmp s s.h, 1)
  else if opcode = 0xbd then (cmp s s.l, 1)
  else if opcode = 0xbe then (cmp s (s.ram (hl s)), 1)
  else if opcode = 0xbf then (cmp s s.a, 1)
  else if opcode = 0xc0 then (retIf s (fun s => decide (s.fz = 0)), 1)
  else if opcode = 0xc1 then
    let s := { s with c := s.ram s.sp, sp := incw s.sp }
    ({ s with b := s.ram s.sp, sp := incw s.sp }, 1)
  else if opcode = 0xc2 then (jumpIf s (fun s => decide (s.fz = 0)), 1)
  else if opcode = 0xc3 ∨ opcode = 0xcb then
    let (sb1, s) := fetch16 s
    ({ s with pc := sb1 }, 1)
  else if opcode = 0xc4 then (callIf s (fun s => decide (s.fz = 0)), 1)
  else if opcode = 0xc5 then
    let s := { s with sp := decw s.sp }
    let s := wr s s.sp s.b
    let s := { s with sp := decw s.sp }
    (wr s s.sp s.c, 1)
  else if opcode = 0xc6 then
    let (halfcarry, s) := fetch s
    (add s halfcarry, 1)
  else if opcode = 0xc7 then (rst s 0x00, 1)
  else if opcode = 0xc8 then (retIf s (fun s => decide (s.fz = 1)), 1)
  else if opcode = 0xc9 then (ret s, 1)
  else if opcode = 0xca then (jumpIf s (fun s => decide (s.fz = 1)), 1)
  else if opcode = 0xcc then (callIf s (fun s => decide (s.fz = 1)), 1)
  else if opcode = 0xcd ∨ opcode = 0xdd ∨ opcode = 0xed ∨ opcode = 0xfd then
    let (sb1, s) := fetch16 s
    ({ call s with pc := sb1 }, 1)
  else if opcode = 0xce then
    let (halfcarry, s) := fetch s
    (adc s halfcarry, 1)
  else if opcode = 0xcf then (rst s 0x08, 1)
  else if opcode = 0xd0 then (retIf s (fun s => decide (s.fcy = 0)), 1)
  else if opcode = 0xd1 then
    let s := { s with e := s.ram s.sp, sp := incw s.sp }
    ({ s with d := s.ram s.sp, sp := incw s.sp }, 1)
  else if opcode = 0xd2 then (jumpIf s (fun s => decide (s.fcy = 0)), 1)
  else if opcode = 0xd3 then
    let (v, s) := fetch s
    let s := { s with port := (v : Int) }
    ({ s with inout := fun j => if j = v then s.a else s.inout j }, 1)
  else if opcode = 0xd4 then (callIf s (fun s => decide (s.fcy = 0)), 1)
  else if opcode = 0xd5 then
    let s := { s with sp := decw s.sp }
    let s := wr s s.sp s.d
    let s := { s with sp := decw s.sp }
    (wr s s.sp s.e, 1)
  else if opcode = 0xd6 then
    let (halfcarry, s) := fetch s
    (sub s halfcarry, 1)
  else if opcode = 0xd7 then (rst s 0x10, 1)
  else if opcode = 0xd8 then (retIf s (fun s => decide (s.fcy = 1)), 1)
  else if opcode = 0xd9 then (exx s, 1)
  else if opcode = 0xda then (jumpIf s (fun s => decide (s.fcy = 1)), 1)
  else if opcode = 0xdb then
    let (v, s) := fetch s
    ({ s with port := (v : Int) }, 1)
  else if opcode = 0xdc then (callIf s (fun s => decide (s.fcy = 1)), 1)
  else if opcode = 0xde then
    let (halfcarry, s) := fetch s
    (sbb s halfcarry, 1)
  else if opcode = 0xdf then (rst s 0x18, 1)
  else if opcode = 0xe0 then (retIf s (fun s => decide (s.fp = 0)), 1)
  else if opcode = 0xe1 then
    let s := { s with l := s.ram s.sp, sp := incw s.sp }
    ({ s with h := s.ram s.sp, sp := incw s.sp }, 1)
  else if opcode = 0xe2 then (jumpIf s (fun s => decide (s.fp = 0)), 1)
  else if opcode = 0xe3 then
    let sb1 := hl s
    let s := { s with l := s.ram s.sp }
    let s := { s with h := s.ram (s.sp + 1) }
    let s := wr s s.sp (sb1 &&& 0xff)
    (wr s (s.sp + 1) ((sb1 >>> 8) &&& 0xff), 1)
  else if opcode = 0xe4 then (callIf s (fun s => decide (s.fp = 0)), 1)
  else if opcode = 0xe5 then
    let s := { s with sp := decw s.sp }
    let s := wr s s.sp s.h
    let s := { s with sp := decw s.sp }
    (wr s s.sp s.l, 1)
  else if opcode = 0xe6 then
    let (v, s) := fetch s
    (ana s v, 1)
  else if opcode = 0xe7 then (rst s 0x20, 1)
  else if opcode = 0xe8 then (retIf s (fun s => decide (s.fp = 1)), 1)
  else if opcode = 0xe9 then ({ s with pc := pair s.h s.l % 65536 }, 1)
  else if opcode = 0xea then (jumpIf s (fun s => decide (s.fp = 1)), 1)
  else if opcode = 0xeb then
    let sb1 := pair s.d s.e % 65536
    let s := { s with d := s.h }
    let s := { s with e := s.l }
    let s := { s with h := (sb1 >>> 8) &&& 0xff }
    ({ s with l := sb1 &&& 0xff }, 1)
  else if opcode = 0xec then (callIf s (fun s => decide (s.fp = 1)), 1)
  else if opcode = 0xee then
    let (halfcarry, s) := fetch s
    (xra s halfcarry, 1)
  else if opcode = 0xef then (rst s 0x28, 1)
  else if opcode = 0xf0 then (retIf s (fun s => decide (s.fs = 0)), 1)
  else if opcode = 0xf1 then
    let s := { s with fs := (s.ram s.sp >>> 7) &&& 0x1 }
    let s := { s with fz := (s.ram s.sp >>> 6) &&& 0x1 }
    let s := { s with fzero := 0 }
    let s := { s with fac := (s.ram s.sp >>> 4) &&& 0x1 }
    let s := { s with fzerox := 0 }
    let s := { s with fp := (s.ram s.sp >>> 2) &&& 0x1 }
    let s := { s with fone := 1 }
    let s := { s with fcy := s.ram s.sp &&& 0x1, sp := incw s.sp }
    ({ s with a := s.ram s.sp, sp := incw s.sp }, 1)
  else if opcode = 0xf2 then (jumpIf s (fun s => decide (s.fs = 0)), 1)
  else if opcode = 0xf3 then ({ s with inte := 0 }, 1)
  else if opcode = 0xf4 then (callIf s (fun s => decide (s.fs = 0)), 1)
  else if opcode = 0xf5 then
    let s := { s with sp := decw s.sp }
    let s := wr s s.sp s.a
    let s := { s with sp := decw s.sp }
    let s := wr s s.sp ((s.fs <<< 7) % 256)
    let s := wrOr s s.sp (s.fz <<< 6)
    let s := wrOr s s.sp (s.fzero <<< 5)
    let s := wrOr s s.sp (s.fac <<< 4)
    let s := wrOr s s.sp (s.fzerox <<< 3)
    let s := wrOr s s.sp (s.fp <<< 2)
    let s := wrOr s s.sp (s.fone <<< 1)
    (wrOr s s.sp s.fcy, 1)
  else if opcode = 0xf6 then
    let (halfcarry, s) := fetch s
    (ora s halfcarry, 1)
  else if opcode = 0xf7 then (rst s 0x30, 1)
  else if opcode = 0xf8 then (retIf s (fun s => decide (s.fs = 1)), 1)
  else if opcode = 0xf9 then ({ s with sp := pair s.h s.l % 65536 }, 1)
  else if opcode = 0xfa then (jumpIf s (fun s => decide (s.fs = 1)), 1)
  else if opcode = 0xfb then ({ s with inte := 1 }, 1)
  else if opcode = 0xfc then (callIf s (fun s => decide (s.fs = 1)), 1)
  else if opcode = 0xfe then
    let (halfcarry, s) := fetch s
    (cmp s halfcarry, 1)
  else if opcode = 0xff then (rst s 0x38, 1)
  else (s, 1)

/-! ## Bootstrap -/

/-- The size of the array member `ram` of `struct cpu`: `byte ram[0xffff]`. -/
def ramSize : Nat := 0xffff

/-- The function `reset`; its two loops clear `ram[0 .. sizeof ram - 1]` and
`inout[0 .. 255]`. -/
def reset (s : Cpu) : Cpu :=
  { s with
    a := 0, ap := 0, b := 0, bp := 0, c := 0, cp := 0, d := 0, dp := 0, e := 0, ep := 0,
    h := 0, hp := 0, l := 0, lp := 0,
    fs := 0, fsp := 0, fz := 1, fzp := 1, fzero := 0, fzerop := 0, fac := 0, facp := 0,
    fzerox := 0, fzeroxp := 0, fp := 1, fpp := 1, fone := 1, fonep := 1, fcy := 0, fcyp := 0,
    pc := 0, sp := 0, inte := 0,
    ram := fun j => if j < ramSize then 0 else s.ram j,
    inout := fun j => if j < 256 then 0 else s.inout j,
    port := -1 }

def cpm (s : Cpu) : Cpu :=
  let s := wr s 0 0x76
  let s := wr s 5 0xd3
  let s := wr s 6 0x00
  wr s 7 0xc9

/-- The automatic `struct cpu z80` of `main` before `reset`: indeterminate, given
as `0` here (`reset` overwrites every member, except that its loop over `ram`
stops at `sizeof ram`). -/
def start : Cpu :=
  { a := 0, ap := 0, b := 0, bp := 0, c := 0, cp := 0, d := 0, dp := 0, e := 0, ep := 0,
    h := 0, hp := 0, l := 0, lp := 0,
    fs := 0, fsp := 0, fz := 0, fzp := 0, fzero := 0, fzerop := 0, fac := 0, facp := 0,
    fzerox := 0, fzeroxp := 0, fp := 0, fpp := 0, fone := 0, fonep := 0, fcy := 0, fcyp := 0,
    sp := 0, pc := 0, inte := 0,
    ram := fun _ => 0, inout := fun _ => 0, port := -1 }

/-- The loop `while (i < sizeof(z80.ram)) read(fd, &z80.ram[i++], 1);` over the bytes of
the image file.  Once the file is exhausted `read` stores nothing, so the remaining
iterations leave `ram` as it is. -/
def load : List Nat → Nat → Cpu → Cpu
  | [], _, s => s
  | x :: rest, i, s => if i < ramSize then load rest (i + 1) (wr s i x) else s

/-- The start of `main` up to and including `z80.pc = 0x100`. -/
def boot (image : List Nat) : Cpu :=
  let s := reset start
  let s := cpm s
  let s := load image 0x100 s
  { s with pc := 0x100 }

/-! ## Driver and BDOS services -/

/-- The whole process: machine and host. -/
structure Sys where
  cpu : Cpu
  host : I80.Host

/-- What one turn of the loop of `main` leads to. -/
inductive Outcome where
  /-- The loop goes on from this state. -/
  | running (w : Sys)
  /-- The function `main` returns 0. -/
  | exited (w : Sys)
  /-- Control never leaves a loop of a BDOS service entered in this state. -/
  | hung (w : Sys)

/-- The loop `while (1) { … }` of `C_READSTR`.  The `int ch` receives one byte from
`read` and is taken to be that byte.  Returns the unread input, the machine, the
final `addr` and the output. -/
def readstr : List Nat → Cpu → Nat → Nat → Nat → List Nat → List Nat × Cpu × Nat × List Nat
  | [], s, addr, _, _, out => ([], s, addr, out)
  | x :: rest, s, addr, save, size, out =>
    let ch := if x = 0x0a then 0x0d else x
    if ch = 0x0d then (rest, s, addr, out)
    else
      let s := if (addr : Int) - (save : Int) + 2 < (size : Int) then wr s addr (ch % 256) else s
      readstr rest s (incw addr) save size (out ++ [s.ram addr])

/-- The `switch (z80.c)` of `main`, entered when `z80.port == 0`, followed by
`z80.port = -1`; `P_TERMCPM` calls `reset` and returns. -/
def bdos (w : Sys) : Outcome :=
  let s := w.cpu
  let hst := w.host
  let done (s : Cpu) (hst : I80.Host) : Outcome := .running ⟨{ s with port := -1 }, hst⟩
  if s.c = 0 then .exited ⟨reset s, hst⟩
  else if s.c = 1 then
    match hst.stdin with
    | [] => .hung w
    | x :: rest =>
      let s := { s with l := x }
      let s := { s with a := s.l }
      done s { hst with stdin := rest, stdout := hst.stdout ++ [s.a] }
  else if s.c = 2 then done s { hst with stdout := hst.stdout ++ [s.e] }
  else if s.c = 3 then
    let s := { s with l := 0 }
    done { s with a := s.l } hst
  else if s.c = 4 then done s { hst with stderr := hst.stderr ++ [s.e] }
  else if s.c = 5 then done s { hst with stderr := hst.stderr ++ [s.e] }
  else if s.c = 6 then
    match hst.stdin with
    | [] =>
      let s := { s with l := 0 }
      done { s with a := s.l } hst
    | x :: rest =>
      let s := { s with l := x }
      done { s with a := s.l } { hst with stdin := rest }
  else if s.c = 7 then done s hst
  else if s.c = 8 then done s hst
  else if s.c = 9 then
    let addr := pair s.d s.e % 65536
    match I80.writestr 0x10000 s.ram addr hst.stdout with
    | none => .hung w
    | some out => done s { hst with stdout := out }
  else if s.c = 10 then
    let addr := pair s.d s.e % 65536
    let size := s.ram addr % 65536
    let save := addr
    let addr := incw addr
    let addr := incw addr
    let (rest, s, addr, out) := readstr hst.stdin s addr save size hst.stdout
    let addr := toWord ((addr : Int) - (save : Int) + 1)
    let s := wr s (save + 1) (addr &&& 0xff)
    done s { hst with stdin := rest, stdout := out }
  else if s.c = 12 then
    let s := { s with h := 0 }
    let s := { s with b := s.h }
    let s := { s with l := 0x22 }
    done { s with a := s.l } hst
  else if s.c = 25 then done { s with a := 0 } hst
  else done s hst

/-- One turn of `while (execute(&z80, ram[z80.pc++])) { if (port == 0) { … } }`. -/
def step (w : Sys) : Outcome :=
  let (opcode, s) := fetch w.cpu
  let (s, r) := execute s opcode
  if r = 0 then .exited ⟨s, w.host⟩
  else if s.port = 0 then bdos ⟨s, w.host⟩
  else .running ⟨s, w.host⟩

/-- The state an outcome carries. -/
def Outcome.sys : Outcome → Sys
  | .running w => w
  | .exited w => w
  | .hung w => w

def Outcome.isRunning : Outcome → Bool
  | .running _ => true
  | _ => false

def Outcome.isExited : Outcome → Bool
  | .exited _ => true
  | _ => false

/-- At most `n` turns of the loop of `main`. -/
def run : Nat → Sys → Outcome
  | 0, w => .running w
  | n + 1, w =>
    match step w with
    | .running w1 => run n w1
    | o => o

/-! ## Vocabulary of the specification -/

/-- The type invariant of the C objects: every `byte` member holds a value below 256
and every `word` member a value below 65536. -/
structure WF (s : Cpu) : Prop where
  a : s.a < 256
  ap : s.ap < 256
  b : s.b < 256
  bp : s.bp < 256
  c : s.c < 256
  cp : s.cp < 256
  d : s.d < 256
  dp : s.dp < 256
  e : s.e < 256
  ep : s.ep < 256
  h : s.h < 256
  hp : s.hp < 256
  l : s.l < 256
  lp : s.lp < 256
  fs : s.fs < 256
  fsp : s.fsp < 256
  fz : s.fz < 256
  fzp : s.fzp < 256
  fzero : s.fzero < 256
  fzerop : s.fzerop < 256
  fac : s.fac < 256
  facp : s.facp < 256
  fzerox : s.fzerox < 256
  fzeroxp : s.fzeroxp < 256
  fp : s.fp < 256
  fpp : s.fpp < 256
  fone : s.fone < 256
  fonep : s.fonep < 256
  fcy : s.fcy < 256
  fcyp : s.fcyp < 256
  sp : s.sp < 65536
  pc : s.pc < 65536
  inte : s.inte < 256
  ram : ∀ i, s.ram i < 256
  inout : ∀ i, s.inout i < 256

/-- A state with the given accumulator, flags S and CY, register pairs and stack
pointer, and the given values in the shadow registers. -/
def banks (a fs fcy bc de hl sp ap fsp fcyp bcp dep hlp : Nat) : Cpu :=
  { start with a := a, fs := fs, fcy := fcy, b := bc / 256, c := bc % 256, d := de / 256,
               e := de % 256, h := hl / 256, l := hl % 256, sp := sp,
               ap := ap, fsp := fsp, fcyp := fcyp, bp := bcp / 256, cp := bcp % 256,
               dp := dep / 256, ep := dep % 256, hp := hlp / 256, lp := hlp % 256 }

/-- The Z80 state whose primary registers, flags, `sp`, `pc`, `inte`, `ram`, `inout` and
`port` are those of the 8080 state `s` and whose shadow members are those of `z0`. -/
def ofI80 (s : I80.Cpu) (z0 : Cpu) : Cpu :=
  { z0 with a := s.a, b := s.b, c := s.c, d := s.d, e := s.e, h := s.h, l := s.l,
            fs := s.fs, fz := s.fz, fzero := s.fzero, fac := s.fac, fzerox := s.fzerox,
            fp := s.fp, fone := s.fone, fcy := s.fcy, sp := s.sp, pc := s.pc,
            inte := s.inte, ram := s.ram, inout := s.inout, port := s.port }

/-- The 8080 state with the primary members of the Z80 state `z`; `f` is the value of the
member `f` of the 8080 record, which the Z80 record does not have. -/
def toI80 (z : Cpu) (f : Nat) : I80.Cpu :=
  { a := z.a, b := z.b, c := z.c, d := z.d, e := z.e, h := z.h, l := z.l, f := f,
    fs := z.fs, fz := z.fz, fzero := z.fzero, fac := z.fac, fzerox := z.fzerox,
    fp := z.fp, fone := z.fone, fcy := z.fcy, sp := z.sp, pc := z.pc,
    inte := z.inte, ram := z.ram, inout := z.inout, port := z.port }

/-- The shadow members of a Z80 state. -/
def shadows (z : Cpu) : List Nat :=
  [z.ap, z.bp, z.cp, z.dp, z.ep, z.hp, z.lp, z.fsp, z.fzp, z.fzerop, z.facp, z.fzeroxp,
   z.fpp, z.fonep, z.fcyp]

/-- The 8080 state `s` and the Z80 state `z` hold the same primary registers, flags,
`sp`, `pc`, `inte`, `ram`, `inout` and `port`. -/
def agrees (z : Cpu) (s : I80.Cpu) : Prop := toI80 z s.f = s

/-- The flag slots and the shadow flag slots of a state. -/
def flagsOf (s : Cpu) : List Nat :=
  [s.fs, s.fz, s.fzero, s.fac, s.fzerox, s.fp, s.fone, s.fcy,
   s.fsp, s.fzp, s.facp, s.fpp, s.fcyp]

/-- The invariant of the flag slots in the Z80 build: S, Z, AC, P, CY and their shadows
hold 0 or 1 and the reserved slots hold 0, 0 and 1. -/
def FlagInv (s : Cpu) : Prop :=
  (s.fs ≤ 1 ∧ s.fz ≤ 1 ∧ s.fac ≤ 1 ∧ s.fp ≤ 1 ∧ s.fcy ≤ 1) ∧
  (s.fzero = 0 ∧ s.fzerox = 0 ∧ s.fone = 1) ∧
  (s.fsp ≤ 1 ∧ s.fzp ≤ 1 ∧ s.facp ≤ 1 ∧ s.fpp ≤ 1 ∧ s.fcyp ≤ 1)

end Z80

namespace I80

/-! ## Vocabulary of the specification -/

/-- The type invariant of the C objects: every `byte` holds a value below 256 and
every `word` a value below 65536. -/
structure WF (s : Cpu) : Prop where
  a : s.a < 256
  b : s.b < 256
  c : s.c < 256
  d : s.d < 256
  e : s.e < 256
  h : s.h < 256
  l : s.l < 256
  fs : s.fs < 256
  fz : s.fz < 256
  fzero : s.fzero < 256
  fac : s.fac < 256
  fzerox : s.fzerox < 256
  fp : s.fp < 256
  fone : s.fone < 256
  fcy : s.fcy < 256
  sp : s.sp < 65536
  pc : s.pc < 65536
  inte : s.inte < 256
  ram : ∀ i, s.ram i < 256
  inout : ∀ i, s.inout i < 256

/-- The operand named by the register field `r` of an opcode, in the order of the
8080 encoding: `b c d e h l m a`, where `m` is the byte of `ram` at `hl`. -/
def operand (s : Cpu) (r : Fin 8) : Nat :=
  match r with
  | 0 => s.b
  | 1 => s.c
  | 2 => s.d
  | 3 => s.e
  | 4 => s.h
  | 5 => s.l
  | 6 => s.ram (hl s)
  | 7 => s.a

/-- The number of set bits of a byte. -/
def popcount (x : Nat) : Nat := ((List.range 8).map (fun i => (x >>> i) % 2)).sum

/-- Set-SZP of the specification, as a relation between the flag slots of the
state `t` and a result `r`: `S` is bit 7 of `r`, `Z` tells whether `r` is zero,
`P` whether `r` has an even number of set bits, and the three reserved slots hold
`0`, `0` and `1`. -/
def SZP (t : Cpu) (r : Nat) : Prop :=
  t.fs = r >>> 7 ∧ t.fz = (if r = 0 then 1 else 0) ∧
  t.fp = (if popcount r % 2 = 0 then 1 else 0) ∧
  t.fzero = 0 ∧ t.fzerox = 0 ∧ t.fone = 1

/-- The state with the operand named by the register field `r` set to `v`. -/
def setOperand (s : Cpu) (r : Fin 8) (v : Nat) : Cpu :=
  match r with
  | 0 => { s with b := v }
  | 1 => { s with c := v }
  | 2 => { s with d := v }
  | 3 => { s with e := v }
  | 4 => { s with h := v }
  | 5 => { s with l := v }
  | 6 => wr s (hl s) v
  | 7 => { s with a := v }

/-- DAA in the words of the specification, on the accumulator `a` and the flags
`ac` and `cy`: the new accumulator, the new AC and the new CY. -/
def daaSpec (a ac cy : Nat) : Nat × Nat × Nat :=
  let low : Prop := a % 16 > 9 ∨ ac = 1
  let ac1 := if low then (if a % 16 + 6 > 0xf then 1 else 0) else ac
  let a1 := if low then (a + 6) % 256 else a
  let high : Prop := a1 / 16 > 9 ∨ cy = 1
  let cy1 := if high then (if a1 + 0x60 > 0xff then 1 else cy) else cy
  let a2 := if high then (a1 + 0x60) % 256 else a1
  (a2, ac1, cy1)

/-- The 16-bit value named by the register-pair field `p` of an opcode, in the
order of the 8080 encoding: `BC`, `DE`, `HL`, `SP`; a pair is `(high << 8) | low`. -/
def rp16 (s : Cpu) (p : Fin 4) : Nat :=
  match p with
  | 0 => pair s.b s.c
  | 1 => pair s.d s.e
  | 2 => pair s.h s.l
  | 3 => s.sp

/-- The eight flag slots of a state. -/
def flagsOf (s : Cpu) : Nat × Nat × Nat × Nat × Nat × Nat × Nat × Nat :=
  (s.fs, s.fz, s.fzero, s.fac, s.fzerox, s.fp, s.fone, s.fcy)

/-- The state after executing the given opcodes one after the other. -/
def execSeq : List Nat → Cpu → Cpu
  | [], s => s
  | op :: ops, s => execSeq ops (execute s op).1

/-- The register pair named by the field `p` of a PUSH or POP opcode, as (high, low):
`BC`, `DE`, `HL`. -/
def regPair (s : Cpu) (p : Fin 3) : Nat × Nat :=
  match p with
  | 0 => (s.b, s.c)
  | 1 => (s.d, s.e)
  | 2 => (s.h, s.l)

/-- The state with the register pair named by `p` set to (high, low). -/
def setRegPair (s : Cpu) (p : Fin 3) (v : Nat × Nat) : Cpu :=
  match p with
  | 0 => { s with b := v.1, c := v.2 }
  | 1 => { s with d := v.1, e := v.2 }
  | 2 => { s with h := v.1, l := v.2 }

/-- The five flag slots S, Z, AC, P, CY hold 0 or 1. -/
def FlagBits (s : Cpu) : Prop :=
  s.fs ≤ 1 ∧ s.fz ≤ 1 ∧ s.fac ≤ 1 ∧ s.fp ≤ 1 ∧ s.fcy ≤ 1

/-- The reserved flag slots hold their constants: 0, 0 and 1. -/
def Reserved (s : Cpu) : Prop :=
  s.fzero = 0 ∧ s.fzerox = 0 ∧ s.fone = 1

/-- The packed flag byte of the specification: `S Z 0 AC 0 P 1 CY`, bit 7 to bit 0. -/
def pswByte (s : Cpu) : Nat :=
  (s.fs <<< 7) ||| (s.fz <<< 6) ||| (0 <<< 5) ||| (s.fac <<< 4) ||| (0 <<< 3) |||
    (s.fp <<< 2) ||| (1 <<< 1) ||| s.fcy

/-- The byte that the `push psw` case builds in `ram[sp]` from the eight flag slots,
one `|=` after the other. -/
def pswCode (fs fz fzero fac fzerox fp fone fcy : Nat) : Nat :=
  ((((((((fs <<< 7) % 256 ||| fz <<< 6) % 256 ||| fzero <<< 5) % 256 ||| fac <<< 4) % 256 |||
    fzerox <<< 3) % 256 ||| fp <<< 2) % 256 ||| fone <<< 1) % 256 ||| fcy) % 256

instance (s : Cpu) : Decidable (FlagBits s) := by
  unfold FlagBits; exact inferInstance

instance (s : Cpu) : Decidable (Reserved s) := by
  unfold Reserved; exact inferInstance

/-- The number a packed-BCD byte stands for. -/
def bcdDec (x : Nat) : Nat := 10 * (x / 16) + x % 16

/-- The packed-BCD byte of a number below 100. -/
def bcdEnc (n : Nat) : Nat := 16 * (n / 10) + n % 10

/-- The program `MVI A,0x99; MVI B,0x01; ADD B; DAA; HLT`. -/
def progDaa : List Nat := [0x3e, 0x99, 0x06, 0x01, 0x80, 0x27, 0x76]

/-- The program `LXI SP,0x1000; LXI B,0x1234; PUSH B; POP D; HLT`. -/
def progPushPop : List Nat := [0x31, 0x00, 0x10, 0x01, 0x34, 0x12, 0xc5, 0xd1, 0x76]

/-- A state with the given register pairs, stack pointer, accumulator and the five
flags S, Z, AC, P, CY, the reserved slots at their constants and zero elsewhere. -/
def regs (bc de hl sp a fs fz fac fp fcy : Nat) : Cpu :=
  { start with b := bc / 256, c := bc % 256, d := de / 256, e := de % 256,
               h := hl / 256, l := hl % 256, sp := sp, a := a,
               fs := fs, fz := fz, fac := fac, fp := fp, fcy := fcy, fone := 1 }

/-- A state with accumulator `a`, register `b`, carry `cy`, and the byte `imm` at `pc`. -/
def sample (a b cy imm : Nat) : Cpu :=
  { start with a := a, b := b, fcy := cy, pc := 0x102, ram := fun i => if i = 0x102 then imm else 0 }

/-- The process started on an image, with no input. -/
def launch (image : List Nat) : Sys := ⟨boot image, ⟨[], [], []⟩⟩

/-- The program `MVI A,0x05; SUI 0x03; HLT`. -/
def progSui : List Nat := [0x3e, 0x05, 0xd6, 0x03, 0x76]

/-- The condition named by the field `k` of a conditional opcode, in the order of the
8080 encoding: NZ, Z, NC, C, PO, PE, P, M. -/
def condHolds (s : Cpu) (k : Fin 8) : Bool :=
  match k with
  | 0 => decide (s.fz = 0)
  | 1 => decide (s.fz = 1)
  | 2 => decide (s.fcy = 0)
  | 3 => decide (s.fcy = 1)
  | 4 => decide (s.fp = 0)
  | 5 => decide (s.fp = 1)
  | 6 => decide (s.fs = 0)
  | 7 => decide (s.fs = 1)

/-- A state with the given `pc` and `sp`, the register pair `HL`, and the bytes `lo`
and `hi` in the cells `pc` and `pc + 1` of `ram`. -/
def operands (pc sp hl lo hi : Nat) : Cpu :=
  { start with pc := pc, sp := sp, h := hl / 256, l := hl % 256,
               ram := fun i => if i = pc then lo else if i = pc + 1 then hi else 0 }

/-- The state `s` with the cells of index `ramSize` and above, which are not part of
the array `ram`, replaced by the values of `f`. -/
def mask (s : Cpu) (f : Nat → Nat) : Cpu :=
  { s with ram := fun j => if j < ramSize then s.ram j else f j }

/-- The opcodes of the control transfers: JMP and Jcc, CALL and Ccc, RET and Rcc, RST, PCHL,
with their aliases. -/
def isTransfer (op : Nat) : Bool :=
  decide (op ∈ [0xc3, 0xcb, 0xc2, 0xca, 0xd2, 0xda, 0xe2, 0xea, 0xf2, 0xfa,
    0xcd, 0xdd, 0xed, 0xfd, 0xc4, 0xcc, 0xd4, 0xdc, 0xe4, 0xec, 0xf4, 0xfc,
    0xc9, 0xd9, 0xc0, 0xc8, 0xd0, 0xd8, 0xe0, 0xe8, 0xf0, 0xf8,
    0xc7, 0xcf, 0xd7, 0xdf, 0xe7, 0xef, 0xf7, 0xff, 0xe9])

/-- The number of operand bytes of an opcode that is not a control transfer: 2 for LXI,
SHLD, LHLD, STA, LDA; 1 for MVI, ADI, ACI, SUI, SBI, ANI, XRI, ORI, CPI, IN, OUT; 0 for
the others. -/
def operandLen (op : Nat) : Nat :=
  if op ∈ [0x01, 0x11, 0x21, 0x31, 0x22, 0x2a, 0x32, 0x3a] then 2
  else if op ∈ [0x06, 0x0e, 0x16, 0x1e, 0x26, 0x2e, 0x36, 0x3e,
    0xc6, 0xce, 0xd6, 0xde, 0xe6, 0xee, 0xf6, 0xfe, 0xdb, 0xd3] then 1
  else 0

/-- The invariant of the flag slots: S, Z, AC, P, CY hold 0 or 1 and the reserved
slots hold 0, 0 and 1. -/
def FlagInv (s : Cpu) : Prop := FlagBits s ∧ Reserved s

/-- The program `MVI A,0x2A; RET`. -/
def progRet : List Nat := [0x3e, 0x2a, 0xc9]

/-- The program `MVI C,2; MVI E,'A'; CALL 0x0005; MVI C,0; CALL 0x0005`. -/
def progHello : List Nat :=
  [0x0e, 0x02, 0x1e, 0x41, 0xcd, 0x05, 0x00, 0x0e, 0x00, 0xcd, 0x05, 0x00]

/-- The program `MVI C,2; MVI E,'A'; IN 0; HLT`. -/
def progIn : List Nat := [0x0e, 0x02, 0x1e, 0x41, 0xdb, 0x00, 0x76]

/-- The program `MVI C,1; CALL 0x0005; HLT`. -/
def progRead : List Nat := [0x0e, 0x01, 0xcd, 0x05, 0x00, 0x76]

/-- The program `MVI C,10; LXI D,0x0006; CALL 0x0005; HLT`. -/
def progReadstr : List Nat := [0x0e, 0x0a, 0x11, 0x06, 0x00, 0xcd, 0x05, 0x00, 0x76]

/-- The state in which the BDOS switch is entered when `CALL 0x0005` at `pc` and the
`OUT 0` at 0x0005 have been executed from `s`: the return address `pc + 3` is on the
stack, `pc` is 7, `A` is in port 0 and `port` is 0. -/
def trapEntry (s : Cpu) : Cpu :=
  { s with pc := 7, sp := decw (decw s.sp), port := 0,
           inout := fun j => if j = 0 then s.a else s.inout j,
           ram := fun j => if j = decw (decw s.sp) then (s.pc + 3) % 65536 % 256
                           else if j = decw s.sp then (s.pc + 3) % 65536 / 256
                           else s.ram j }

/-- A state with the BDOS function code `c` in register C, the address `de` in DE and
the given bytes in `ram` from `de` on; every other cell is 0. -/
def strAt (c de : Nat) (bytes : List Nat) : Cpu :=
  { start with c := c, d := de / 256, e := de % 256,
               ram := fun i => if de ≤ i ∧ i < de + bytes.length then bytes.getD (i - de) 0
                               else 0 }

/-! ## Arithmetic of the machine integers -/

theorem and_0xf (a : Nat) : a &&& 0xf = a % 16 := Nat.and_pow_two_sub_one_eq_mod a 4

theorem and_0xff (a : Nat) : a &&& 0xff = a % 256 := Nat.and_pow_two_sub_one_eq_mod a 8

theorem and_0x1 (a : Nat) : a &&& 0x1 = a % 2 := Nat.and_pow_two_sub_one_eq_mod a 1

theorem shr_7 (a : Nat) : a >>> 7 = a / 128 := by
  simp [Nat.shiftRight_eq_div_pow]

theorem shr_4 (a : Nat) : a >>> 4 = a / 16 := by
  simp [Nat.shiftRight_eq_div_pow]

theorem wf_sample (a b cy imm : Nat) (ha : a < 256) (hb : b < 256) (hc : cy < 256)
    (hi : imm < 256) : WF (sample a b cy imm) := by
  constructor <;> simp [sample, start] <;> try omega
  intro i; split <;> omega

/-! ## The flag helpers in closed form -/

theorem parityLoop_exits_aux : ∀ fuel a p, a ≤ fuel → (parityLoop fuel a p).1 = 0 := by
  intro fuel
  induction fuel with
  | zero => intro a p h; simp [parityLoop]; omega
  | succ n ih =>
    intro a p h
    unfold parityLoop
    split
    · assumption
    · apply ih
      have : a &&& (a - 1) ≤ a - 1 := Nat.and_le_right
      omega

/-- The loop of `parity` ends by its own test: the fuel `a` is never used up. -/
theorem parityLoop_exits (a : Nat) : (parityLoop a a 0).1 = 0 :=
  parityLoop_exits_aux a a 0 (Nat.le_refl a)

set_option maxRecDepth 1000000 in
theorem parity_byte : ∀ x, x < 256 → parity x = if popcount x % 2 = 0 then 1 else 0 := by
  decide

theorem flags_eq (s : Cpu) (reg : Nat) :
    flags s reg = { s with fs := if reg > 0x7f then 1 else 0, fz := if reg = 0 then 1 else 0,
                           fp := parity reg, fzero := 0, fzerox := 0, fone := 1 } := by
  unfold flags; split_ifs <;> rfl

theorem carryflag_add (s : Cpu) (rega regb sum : Nat) :
    carryflag s rega regb sum AC_ADD =
      { s with
        fac := if toWord (((rega &&& 0xf : Nat) : Int) + ((regb &&& 0xf : Nat) : Int) + (s.fcy : Int)) > 0xf
               then 1 else 0,
        fcy := if sum > 0xff then 1 else 0 } := by
  simp only [carryflag, AC_ADD, AC_SUB, lnot]
  split_ifs <;> simp_all

theorem carryflag_sub (s : Cpu) (rega regb sum : Nat) :
    carryflag s rega regb sum AC_SUB =
      { s with
        fac := if toWord (((rega &&& 0xf : Nat) : Int) + ((regb &&& 0xf : Nat) : Int) + 1 - (s.fcy : Int)) > 0xf
               then 0 else 1,
        fcy := if sum > 0xff then 1 else 0 } := by
  simp only [carryflag, AC_ADD, AC_SUB, lnot]
  split_ifs <;> simp_all

/-- The flag slots after `flags` on a byte are Set-SZP of that byte. -/
theorem szp_flags (s : Cpu) (r : Nat) (hr : r < 256) : SZP (flags s r) r := by
  simp only [SZP, flags_eq, parity_byte r hr, shr_7]
  refine ⟨?_, trivial, trivial, trivial, trivial, trivial⟩
  split_ifs <;> omega

/-! ## Dispatch of the arithmetic cases -/

set_option maxRecDepth 100000 in
/-- The cases of the eight arithmetic groups apply the group's body to the operand. -/
theorem execute_alu (s : Cpu) (r : Fin 8) :
    execute s (0x80 + r.val) = (add s (operand s r), 1) ∧
    execute s (0x88 + r.val) = (adc s (operand s r), 1) ∧
    execute s (0x90 + r.val) = (sub s (operand s r), 1) ∧
    execute s (0x98 + r.val) = (sbb s (operand s r), 1) ∧
    execute s (0xa0 + r.val) = (ana s (operand s r), 1) ∧
    execute s (0xa8 + r.val) = (xra s (operand s r), 1) ∧
    execute s (0xb0 + r.val) = (ora s (operand s r), 1) ∧
    execute s (0xb8 + r.val) = (cmp s (operand s r), 1) := by
  fin_cases r <;> exact ⟨rfl, rfl, rfl, rfl, rfl, rfl, rfl, rfl⟩

set_option maxRecDepth 100000 in
/-- The immediate forms apply the same bodies to the byte at `pc`, after `pc` has moved on. -/
theorem execute_imm (s : Cpu) :
    execute s 0xc6 = (add (fetch s).2 (s.ram s.pc), 1) ∧
    execute s 0xce = (adc (fetch s).2 (s.ram s.pc), 1) ∧
    execute s 0xd6 = (sub (fetch s).2 (s.ram s.pc), 1) ∧
    execute s 0xde = (sbb (fetch s).2 (s.ram s.pc), 1) ∧
    execute s 0xe6 = (ana (fetch s).2 (s.ram s.pc), 1) ∧
    execute s 0xee = (xra (fetch s).2 (s.ram s.pc), 1) ∧
    execute s 0xf6 = (ora (fetch s).2 (s.ram s.pc), 1) ∧
    execute s 0xfe = (cmp (fetch s).2 (s.ram s.pc), 1) :=
  ⟨rfl, rfl, rfl, rfl, rfl, rfl, rfl, rfl⟩

theorem wf_operand (s : Cpu) (hs : WF s) (r : Fin 8) : operand s r < 256 := by
  fin_cases r
  · exact hs.b
  · exact hs.c
  · exact hs.d
  · exact hs.e
  · exact hs.h
  · exact hs.l
  · exact hs.ram _
  · exact hs.a

/-- Accumulator and carry after the body of the subtractions with borrow-in `c`. -/
theorem sub_a_cy (s : Cpu) (x : Nat) (ha : s.a < 256) (hx : x < 256) :
    ((sub s x).a : Int) = ((s.a : Int) - (x : Int)) % 256 ∧
    (sub s x).fcy = (if s.a < x then 1 else 0) := by
  simp only [sub, carryflag_sub, flags_eq, and_0xff, toWord, cnot]
  constructor
  · omega
  · split_ifs <;> omega

theorem sbb_a_cy (s : Cpu) (x : Nat) (ha : s.a < 256) (hx : x < 256) (hc : s.fcy < 256) :
    ((sbb s x).a : Int) = ((s.a : Int) - (x : Int) - (s.fcy : Int)) % 256 ∧
    (sbb s x).fcy = (if s.a < x + s.fcy then 1 else 0) := by
  simp only [sbb, carryflag_sub, flags_eq, and_0xff, toWord, cnot]
  constructor
  · omega
  · split_ifs <;> omega

/-- C1: SUB r|M and SUI (borrow-in 0), SBB r|M and SBI (borrow-in the incoming CY)
leave A = (a - b - c) mod 256 and CY = 1 exactly when a < b + c, else CY = 0. -/
theorem C1_sub_sbb_borrow (s : Cpu) (r : Fin 8) (hs : WF s) :
    (((execute s (0x90 + r.val)).1.a : Int) = ((s.a : Int) - (operand s r : Int)) % 256 ∧
      (execute s (0x90 + r.val)).1.fcy = (if s.a < operand s r then 1 else 0)) ∧
    (((execute s 0xd6).1.a : Int) = ((s.a : Int) - (s.ram s.pc : Int)) % 256 ∧
      (execute s 0xd6).1.fcy = (if s.a < s.ram s.pc then 1 else 0)) ∧
    (((execute s (0x98 + r.val)).1.a : Int) =
        ((s.a : Int) - (operand s r : Int) - (s.fcy : Int)) % 256 ∧
      (execute s (0x98 + r.val)).1.fcy = (if s.a < operand s r + s.fcy then 1 else 0)) ∧
    (((execute s 0xde).1.a : Int) = ((s.a : Int) - (s.ram s.pc : Int) - (s.fcy : Int)) % 256 ∧
      (execute s 0xde).1.fcy = (if s.a < s.ram s.pc + s.fcy then 1 else 0)) := by
  obtain ⟨-, -, h90, h98, -⟩ := execute_alu s r
  obtain ⟨-, -, hd6, hde, -⟩ := execute_imm s
  rw [h90, h98, hd6, hde]
  exact ⟨sub_a_cy s _ hs.a (wf_operand s hs r), sub_a_cy (fetch s).2 _ hs.a (hs.ram s.pc),
    sbb_a_cy s _ hs.a (wf_operand s hs r) hs.fcy, sbb_a_cy (fetch s).2 _ hs.a (hs.ram s.pc) hs.fcy⟩

/-- C1 at A = 0x03, SUI 0x05: the theorem gives A = 0xFE and CY = 1, and S = 1. -/
theorem C1_sub_sbb_borrow_witness :
    WF (sample 0x03 0 0 0x05) ∧
    ((execute (sample 0x03 0 0 0x05) 0xd6).1.a : Int) = 0xFE ∧
    (execute (sample 0x03 0 0 0x05) 0xd6).1.fcy = 1 ∧
    (execute (sample 0x03 0 0 0x05) 0xd6).1.fs = 1 :=
  ⟨wf_sample 3 0 0 5 (by decide) (by decide) (by decide) (by decide),
   (C1_sub_sbb_borrow (sample 0x03 0 0 0x05) 0
      (wf_sample 3 0 0 5 (by decide) (by decide) (by decide) (by decide))).2.1.1.trans (by decide),
   (C1_sub_sbb_borrow (sample 0x03 0 0 0x05) 0
      (wf_sample 3 0 0 5 (by decide) (by decide) (by decide) (by decide))).2.1.2.trans (by decide),
   by decide⟩

theorem cmp_eq_sub (s : Cpu) (x : Nat) : cmp s x = { sub s x with a := s.a } := by
  simp only [cmp, sub, carryflag_sub, flags_eq, and_0xff]

theorem borrow_iff (c a x : Nat) (h : c = if a < x then 1 else 0) :
    (c = 1 ↔ a < x) ∧ (c = 0 ↔ a ≥ x) := by
  subst h; split_ifs <;> simp <;> omega

/-- C2 as stated fails: with a = 5 and b = 3 (so a ≥ b) SUB B leaves CY = 0. -/
theorem C2_counterexample :
    ¬ ((execute (sample 5 3 0 0) 0x90).1.fcy = 1 ↔ (sample 5 3 0 0).a ≥ (sample 5 3 0 0).b) := by
  decide

/-- C2 amended: after SUB r|M, SUI, CMP r|M and CPI the carry flag is 1 if and only if
a < b as unsigned bytes: a borrow sets CY and no borrow clears it. -/
theorem C2_carry_iff_borrow (s : Cpu) (r : Fin 8) (hs : WF s) :
    ((execute s (0x90 + r.val)).1.fcy = 1 ↔ s.a < operand s r) ∧
    ((execute s (0x90 + r.val)).1.fcy = 0 ↔ s.a ≥ operand s r) ∧
    ((execute s 0xd6).1.fcy = 1 ↔ s.a < s.ram s.pc) ∧
    ((execute s 0xd6).1.fcy = 0 ↔ s.a ≥ s.ram s.pc) ∧
    ((execute s (0xb8 + r.val)).1.fcy = 1 ↔ s.a < operand s r) ∧
    ((execute s (0xb8 + r.val)).1.fcy = 0 ↔ s.a ≥ operand s r) ∧
    ((execute s 0xfe).1.fcy = 1 ↔ s.a < s.ram s.pc) ∧
    ((execute s 0xfe).1.fcy = 0 ↔ s.a ≥ s.ram s.pc) := by
  obtain ⟨-, -, h90, -, -, -, -, hb8⟩ := execute_alu s r
  obtain ⟨-, -, hd6, -, -, -, -, hfe⟩ := execute_imm s
  rw [h90, hd6, hb8, hfe]
  have h1 := borrow_iff _ _ _ (sub_a_cy s _ hs.a (wf_operand s hs r)).2
  have h2 := borrow_iff _ _ _ (sub_a_cy (fetch s).2 _ hs.a (hs.ram s.pc)).2
  simp only [cmp_eq_sub]
  exact ⟨h1.1, h1.2, h2.1, h2.2, h1.1, h1.2, h2.1, h2.2⟩

/-- C2 amended, at a = 5, b = 3: no borrow, and SUB B leaves CY = 0. -/
theorem C2_carry_iff_borrow_witness :
    WF (sample 5 3 0 0) ∧ ((execute (sample 5 3 0 0) 0x90).1.fcy = 0 ↔ (5 : Nat) ≥ 3) :=
  ⟨wf_sample 5 3 0 0 (by decide) (by decide) (by decide) (by decide),
   (C2_carry_iff_borrow (sample 5 3 0 0) 0
      (wf_sample 5 3 0 0 (by decide) (by decide) (by decide) (by decide))).2.1⟩

/-- The auxiliary carry that `add` and `sub` leave: the half sum takes in the carry
flag found on entry, although the sum of these two bodies does not. -/
theorem add_sub_fac (s : Cpu) (x : Nat) (hx : x < 256) (hc : s.fcy ≤ 1) :
    (add s x).fac = (if s.a % 16 + x % 16 + s.fcy > 0xf then 1 else 0) ∧
    (sub s x).fac = (if s.a % 16 + (255 - x) % 16 + 1 - s.fcy > 0xf then 0 else 1) := by
  simp only [add, sub, carryflag_add, carryflag_sub, flags_eq, and_0xf, toWord, toByte, cnot]
  constructor <;> split_ifs <;> omega

/-- C3 fails in the code, which adds the incoming CY to the half sum in every case:
ADD B with a = 0x0f, b = 0 gives AC = 1 when CY = 1 on entry and AC = 0 when CY = 0,
and SUB B with a = 0, b = 0 gives AC = 1 when CY = 1 on entry and AC = 0 when CY = 0. -/
theorem C3_ac_follows_incoming_cy :
    (execute (sample 0x0f 0 1 0) 0x80).1.fac = 1 ∧
    (execute (sample 0x0f 0 0 0) 0x80).1.fac = 0 ∧
    (execute (sample 0 0 1 0) 0x90).1.fac = 1 ∧
    (execute (sample 0 0 0 0) 0x90).1.fac = 0 := by
  decide

/-- C4 as stated fails: the run does not end with P = 1 and AC = 1. -/
theorem C4_counterexample :
    ¬ ((run 3 (launch progSui)).sys.cpu.a = 0x02 ∧ (run 3 (launch progSui)).sys.cpu.fcy = 0 ∧
       (run 3 (launch progSui)).sys.cpu.fz = 0 ∧ (run 3 (launch progSui)).sys.cpu.fs = 0 ∧
       (run 3 (launch progSui)).sys.cpu.fp = 1 ∧ (run 3 (launch progSui)).sys.cpu.fac = 1) := by
  decide

/-- C4 amended: the program `MVI A,0x05; SUI 0x03; HLT`, run from the bootstrap state,
halts at its third instruction with A = 0x02, CY = 0, Z = 0, S = 0, P = 0 and AC = 0. -/
theorem C4_sui_program :
    (run 2 (launch progSui)).isRunning = true ∧ (run 3 (launch progSui)).isExited = true ∧
    (run 3 (launch progSui)).sys.cpu.a = 0x02 ∧ (run 3 (launch progSui)).sys.cpu.fcy = 0 ∧
    (run 3 (launch progSui)).sys.cpu.fz = 0 ∧ (run 3 (launch progSui)).sys.cpu.fs = 0 ∧
    (run 3 (launch progSui)).sys.cpu.fp = 0 ∧ (run 3 (launch progSui)).sys.cpu.fac = 0 := by
  decide

/-- C6: for every byte x the loop of `parity` ends by its own test, and `parity`
returns 1 if the number of set bits of x is even and 0 if it is odd; `parity 0 = 1`. -/
theorem C6_parity (x : Nat) (hx : x < 256) :
    (parityLoop x x 0).1 = 0 ∧
    (popcount x % 2 = 0 → parity x = 1) ∧ (popcount x % 2 = 1 → parity x = 0) ∧
    parity 0 = 1 := by
  refine ⟨parityLoop_exits x, ?_, ?_, by decide⟩
  · intro h; rw [parity_byte x hx, if_pos h]
  · intro h; rw [parity_byte x hx, if_neg (by omega)]

/-- C6 at the byte 0x2a. -/
theorem C6_parity_witness :
    (0x2a : Nat) < 256 ∧ (parityLoop 0x2a 0x2a 0).1 = 0 ∧
    (popcount 0x2a % 2 = 0 → parity 0x2a = 1) ∧ (popcount 0x2a % 2 = 1 → parity 0x2a = 0) ∧
    parity 0 = 1 :=
  ⟨by decide, C6_parity 0x2a (by decide)⟩

/-- C7: CMP r|M and CPI leave A unchanged, and their result is the result of SUB r|M
and SUI on the same state in every component except A. -/
theorem C7_cmp_is_sub_without_writeback (s : Cpu) (r : Fin 8) :
    (execute s (0xb8 + r.val)).1.a = s.a ∧
    execute s (0xb8 + r.val) = ({ (execute s (0x90 + r.val)).1 with a := s.a }, 1) ∧
    (execute s 0xfe).1.a = s.a ∧
    execute s 0xfe = ({ (execute s 0xd6).1 with a := s.a }, 1) := by
  obtain ⟨-, -, h90, -, -, -, -, hb8⟩ := execute_alu s r
  obtain ⟨-, -, hd6, -, -, -, -, hfe⟩ := execute_imm s
  rw [h90, hd6, hb8, hfe, cmp_eq_sub, cmp_eq_sub]
  exact ⟨rfl, rfl, rfl, rfl⟩

/-! ## Logical opcodes, increments and decimal adjust -/

theorem szp_frame (t u : Cpu) (r : Nat) (h : SZP t r) (h1 : u.fs = t.fs) (h2 : u.fz = t.fz)
    (h3 : u.fp = t.fp) (h4 : u.fzero = t.fzero) (h5 : u.fzerox = t.fzerox)
    (h6 : u.fone = t.fone) : SZP u r := by
  unfold SZP at *
  rw [h1, h2, h3, h4, h5, h6]; exact h

theorem logical_spec (s : Cpu) (v : Nat) (hv : v < 256) :
    let t : Cpu := { flags { s with a := v } v with fac := 0, fcy := 0 }
    t.a = v ∧ SZP t v ∧ t.fcy = 0 ∧ t.fac = 0 := by
  intro t
  refine ⟨?_, ?_, rfl, rfl⟩
  · simp only [t, flags_eq]
  · exact szp_frame _ t v (szp_flags { s with a := v } v hv) rfl rfl rfl rfl rfl rfl

/-- C8: each logical opcode sets A to the bitwise AND / XOR / OR of A and the operand,
sets S, Z, P from that result, and leaves CY = 0 and AC = 0. -/
theorem C8_logical (s : Cpu) (r : Fin 8) (hs : WF s) :
    ((execute s (0xa0 + r.val)).1.a = s.a &&& operand s r ∧
      SZP (execute s (0xa0 + r.val)).1 (s.a &&& operand s r) ∧
      (execute s (0xa0 + r.val)).1.fcy = 0 ∧ (execute s (0xa0 + r.val)).1.fac = 0) ∧
    ((execute s (0xa8 + r.val)).1.a = s.a ^^^ operand s r ∧
      SZP (execute s (0xa8 + r.val)).1 (s.a ^^^ operand s r) ∧
      (execute s (0xa8 + r.val)).1.fcy = 0 ∧ (execute s (0xa8 + r.val)).1.fac = 0) ∧
    ((execute s (0xb0 + r.val)).1.a = s.a ||| operand s r ∧
      SZP (execute s (0xb0 + r.val)).1 (s.a ||| operand s r) ∧
      (execute s (0xb0 + r.val)).1.fcy = 0 ∧ (execute s (0xb0 + r.val)).1.fac = 0) ∧
    ((execute s 0xe6).1.a = s.a &&& s.ram s.pc ∧
      SZP (execute s 0xe6).1 (s.a &&& s.ram s.pc) ∧
      (execute s 0xe6).1.fcy = 0 ∧ (execute s 0xe6).1.fac = 0) ∧
    ((execute s 0xee).1.a = s.a ^^^ s.ram s.pc ∧
      SZP (execute s 0xee).1 (s.a ^^^ s.ram s.pc) ∧
      (execute s 0xee).1.fcy = 0 ∧ (execute s 0xee).1.fac = 0) ∧
    ((execute s 0xf6).1.a = s.a ||| s.ram s.pc ∧
      SZP (execute s 0xf6).1 (s.a ||| s.ram s.pc) ∧
      (execute s 0xf6).1.fcy = 0 ∧ (execute s 0xf6).1.fac = 0) := by
  obtain ⟨-, -, -, -, ha0, ha8, hb0, -⟩ := execute_alu s r
  obtain ⟨-, -, -, -, he6, hee, hf6, -⟩ := execute_imm s
  rw [ha0, ha8, hb0, he6, hee, hf6]
  have ha : s.a < 2 ^ 8 := hs.a
  have hx : operand s r < 2 ^ 8 := wf_operand s hs r
  have hi : s.ram s.pc < 2 ^ 8 := hs.ram s.pc
  have b1 : s.a &&& operand s r < 256 := lt_of_le_of_lt Nat.and_le_left hs.a
  have b2 : s.a ^^^ operand s r < 256 := Nat.xor_lt_two_pow ha hx
  have b3 : s.a ||| operand s r < 256 := Nat.or_lt_two_pow ha hx
  have b4 : s.a &&& s.ram s.pc < 256 := lt_of_le_of_lt Nat.and_le_left hs.a
  have b5 : s.a ^^^ s.ram s.pc < 256 := Nat.xor_lt_two_pow ha hi
  have b6 : s.a ||| s.ram s.pc < 256 := Nat.or_lt_two_pow ha hi
  exact ⟨logical_spec s _ b1, logical_spec s _ b2, logical_spec s _ b3,
    logical_spec (fetch s).2 _ b4, logical_spec (fetch s).2 _ b5, logical_spec (fetch s).2 _ b6⟩


theorem inrTail_eq (s : Cpu) (v : Nat) :
    inrTail s v = { flags s v with fac := if v &&& 0xf = 0 then 1 else 0 } := by
  simp only [inrTail, flags_eq]; split_ifs <;> rfl

theorem dcrTail_eq (s : Cpu) (v : Nat) :
    dcrTail s v = { flags s v with fac := if v &&& 0xf = 0xf then 0 else 1 } := by
  simp only [dcrTail, flags_eq]; split_ifs <;> rfl

set_option maxRecDepth 100000 in
/-- The cases `inr` and `dcr` store the stepped operand and then run the tail on it. -/
theorem execute_inr_dcr (s : Cpu) (r : Fin 8) :
    execute s (0x04 + 8 * r.val) =
      (inrTail (setOperand s r (incb (operand s r))) (incb (operand s r)), 1) ∧
    execute s (0x05 + 8 * r.val) =
      (dcrTail (setOperand s r (decb (operand s r))) (decb (operand s r)), 1) := by
  fin_cases r <;> first
    | exact ⟨rfl, rfl⟩
    | (constructor <;> simp [execute, setOperand, operand, wr, hl])

theorem operand_setOperand (s : Cpu) (r : Fin 8) (v : Nat) :
    operand (setOperand s r v) r = v := by
  fin_cases r <;> simp [operand, setOperand, wr, hl]

theorem operand_flags_frame (s : Cpu) (r : Fin 8) (x1 x2 x3 x4 x5 x6 x7 : Nat) :
    operand { s with fs := x1, fz := x2, fp := x3, fzero := x4, fzerox := x5, fone := x6,
                     fac := x7 } r = operand s r := by
  fin_cases r <;> rfl

theorem incb_lt (x : Nat) : incb x < 256 := by unfold incb; omega

theorem decb_lt (x : Nat) : decb x < 256 := by unfold decb toByte; omega

theorem step_spec (s : Cpu) (r : Fin 8) (v ac : Nat) (hv : v < 256) :
    let t : Cpu := { flags (setOperand s r v) v with fac := ac }
    operand t r = v ∧ t.fac = ac ∧ SZP t v ∧ t.fcy = s.fcy := by
  intro t
  refine ⟨?_, rfl, ?_, ?_⟩
  · simp only [t, flags_eq]
    exact (operand_flags_frame _ r _ _ _ _ _ _ _).trans (operand_setOperand s r v)
  · exact szp_frame _ t v (szp_flags (setOperand s r v) v hv) rfl rfl rfl rfl rfl rfl
  · simp only [t, flags_eq]
    fin_cases r <;> rfl

theorem inr_spec (s : Cpu) (r : Fin 8) (v : Nat) (hv : v < 256) :
    operand (inrTail (setOperand s r v) v) r = v ∧
    (inrTail (setOperand s r v) v).fac = (if v &&& 0xf = 0 then 1 else 0) ∧
    SZP (inrTail (setOperand s r v) v) v ∧
    (inrTail (setOperand s r v) v).fcy = s.fcy := by
  rw [inrTail_eq]; exact step_spec s r v _ hv

theorem dcr_spec (s : Cpu) (r : Fin 8) (v : Nat) (hv : v < 256) :
    operand (dcrTail (setOperand s r v) v) r = v ∧
    (dcrTail (setOperand s r v) v).fac = (if v &&& 0xf = 0xf then 0 else 1) ∧
    SZP (dcrTail (setOperand s r v) v) v ∧
    (dcrTail (setOperand s r v) v).fcy = s.fcy := by
  rw [dcrTail_eq]; exact step_spec s r v _ hv

/-- C9: INR and DCR on each of B, C, D, E, H, L, M, A set the operand to (old + 1) mod 256
and (old - 1) mod 256, set AC = 1 iff (new & 0xf) = 0 for INR and iff (new & 0xf) ≠ 0xf
for DCR, set S, Z, P from the new value and leave CY unchanged. -/
theorem C9_inr_dcr (s : Cpu) (r : Fin 8) :
    (operand (execute s (0x04 + 8 * r.val)).1 r = (operand s r + 1) % 256 ∧
      ((execute s (0x04 + 8 * r.val)).1.fac =
        if operand (execute s (0x04 + 8 * r.val)).1 r &&& 0xf = 0 then 1 else 0) ∧
      SZP (execute s (0x04 + 8 * r.val)).1 (operand (execute s (0x04 + 8 * r.val)).1 r) ∧
      (execute s (0x04 + 8 * r.val)).1.fcy = s.fcy) ∧
    ((operand (execute s (0x05 + 8 * r.val)).1 r : Int) = ((operand s r : Int) - 1) % 256 ∧
      ((execute s (0x05 + 8 * r.val)).1.fac =
        if operand (execute s (0x05 + 8 * r.val)).1 r &&& 0xf ≠ 0xf then 1 else 0) ∧
      SZP (execute s (0x05 + 8 * r.val)).1 (operand (execute s (0x05 + 8 * r.val)).1 r) ∧
      (execute s (0x05 + 8 * r.val)).1.fcy = s.fcy) := by
  obtain ⟨hi, hd⟩ := execute_inr_dcr s r
  rw [hi, hd]
  dsimp only
  obtain ⟨i1, i2, i3, i4⟩ := inr_spec s r (incb (operand s r)) (incb_lt _)
  obtain ⟨d1, d2, d3, d4⟩ := dcr_spec s r (decb (operand s r)) (decb_lt _)
  rw [i1, d1]
  refine ⟨⟨rfl, i2, i3, i4⟩, ⟨?_, ?_, d3, d4⟩⟩
  · unfold decb toByte; omega
  · rw [d2]; split_ifs <;> first | rfl | contradiction


theorem daa_eq (s : Cpu) (ha : s.a < 256) :
    daa s =
      flags { s with a := (daaSpec s.a s.fac s.fcy).1, fac := (daaSpec s.a s.fac s.fcy).2.1,
                     fcy := (daaSpec s.a s.fac s.fcy).2.2 } (daaSpec s.a s.fac s.fcy).1 := by
  have h5 : ((s.a + 6) % 256 + 96) % 65536 = (s.a + 6) % 256 + 96 := by omega
  have h6 : (s.a + 96) % 65536 = s.a + 96 := by omega
  simp only [daa, daaSpec, and_0xf, shr_4]
  by_cases h1 : s.a % 16 > 9 ∨ s.fac = 1
  · by_cases h2 : (s.a + 6) % 256 / 16 > 9 ∨ s.fcy = 1
    · by_cases h3 : s.a % 16 + 6 > 15 <;> by_cases h4 : (s.a + 6) % 256 + 96 > 255 <;>
        simp [h1, h2, h3, h4, h5]
    · by_cases h3 : s.a % 16 + 6 > 15 <;> simp [h1, h2, h3]
  · by_cases h2 : s.a / 16 > 9 ∨ s.fcy = 1
    · by_cases h4 : s.a + 96 > 255 <;> simp [h1, h2, h4, h6]
    · simp [h1, h2]

theorem daaSpec_lt (a ac cy : Nat) (ha : a < 256) : (daaSpec a ac cy).1 < 256 := by
  simp only [daaSpec]; split_ifs <;> omega

theorem daaSpec_cy (a ac : Nat) : (daaSpec a ac 1).2.2 = 1 := by
  simp only [daaSpec]; split_ifs <;> rfl

/-- C10: `daa` computes the decimal adjustment of the specification: the low
adjustment (add 6, AC from the nibble overflow) when the low nibble exceeds 9 or AC
is set, then the high adjustment (add 0x60, CY set on byte overflow and never
cleared) when the high nibble of the updated A exceeds 9 or CY is set, then S, Z, P
from A; nothing else changes, and CY never goes from 1 to 0. -/
theorem C10_daa (s : Cpu) (ha : s.a < 256) :
    (execute s 0x27).2 = 1 ∧
    (execute s 0x27).1.a = (daaSpec s.a s.fac s.fcy).1 ∧
    (execute s 0x27).1.fac = (daaSpec s.a s.fac s.fcy).2.1 ∧
    (execute s 0x27).1.fcy = (daaSpec s.a s.fac s.fcy).2.2 ∧
    SZP (execute s 0x27).1 (execute s 0x27).1.a ∧
    (execute s 0x27).1 =
      { s with a := (execute s 0x27).1.a, fac := (execute s 0x27).1.fac,
               fcy := (execute s 0x27).1.fcy, fs := (execute s 0x27).1.fs,
               fz := (execute s 0x27).1.fz, fp := (execute s 0x27).1.fp,
               fzero := 0, fzerox := 0, fone := 1 } ∧
    (s.fcy = 1 → (execute s 0x27).1.fcy = 1) := by
  have e : execute s 0x27 = (daa s, 1) := rfl
  rw [e, daa_eq s ha]
  have hlt := daaSpec_lt s.a s.fac s.fcy ha
  refine ⟨rfl, ?_, ?_, ?_, ?_, ?_, ?_⟩
  · simp only [flags_eq]
  · simp only [flags_eq]
  · simp only [flags_eq]
  · simp only [flags_eq]
    exact szp_frame (flags s _) _ _ (szp_flags s _ hlt) (by simp only [flags_eq]) (by simp only [flags_eq]) (by simp only [flags_eq]) rfl rfl rfl
  · simp only [flags_eq]
  · intro h; simp only [flags_eq, h, daaSpec_cy]

/-- C10 at A = 0x9a with AC = CY = 0: both adjustments apply, A = 0x00, AC = 1, CY = 1. -/
theorem C10_daa_witness :
    (sample 0x9a 0 0 0).a < 256 ∧ (execute (sample 0x9a 0 0 0) 0x27).1.a = 0 ∧
    (execute (sample 0x9a 0 0 0) 0x27).1.fac = 1 ∧ (execute (sample 0x9a 0 0 0) 0x27).1.fcy = 1 :=
  ⟨by decide, (C10_daa (sample 0x9a 0 0 0) (by decide)).2.1.trans (by decide),
   (C10_daa (sample 0x9a 0 0 0) (by decide)).2.2.1.trans (by decide),
   (C10_daa (sample 0x9a 0 0 0) (by decide)).2.2.2.1.trans (by decide)⟩


theorem flags_a (s : Cpu) (v : Nat) : (flags s v).a = s.a := by
  simp only [flags_eq]

theorem szp_flags_self (s : Cpu) (h : s.a < 256) : SZP (flags s s.a) (flags s s.a).a := by
  rw [flags_a]; exact szp_flags s s.a h

theorem szp_arith (s : Cpu) (x : Nat) :
    SZP (add s x) (add s x).a ∧ SZP (adc s x) (adc s x).a ∧
    SZP (sub s x) (sub s x).a ∧ SZP (sbb s x) (sbb s x).a := by
  refine ⟨?_, ?_, ?_, ?_⟩ <;> refine szp_flags_self _ ?_ <;>
    (show _ &&& 0xff < 256) <;> rw [and_0xff] <;> omega

theorem szp_logical (s : Cpu) (x : Nat) (ha : s.a < 256) (hx : x < 256) :
    SZP (ana s x) (ana s x).a ∧ SZP (xra s x) (xra s x).a ∧ SZP (ora s x) (ora s x).a := by
  have ha8 : s.a < 2 ^ 8 := ha
  have hx8 : x < 2 ^ 8 := hx
  have b1 : s.a &&& x < 256 := lt_of_le_of_lt Nat.and_le_left ha
  obtain ⟨a1, a2, -⟩ := logical_spec s _ b1
  obtain ⟨x1, x2, -⟩ := logical_spec s _ (Nat.xor_lt_two_pow ha8 hx8)
  obtain ⟨o1, o2, -⟩ := logical_spec s _ (Nat.or_lt_two_pow ha8 hx8)
  refine ⟨?_, ?_, ?_⟩
  · show SZP (ana s x) (ana s x).a
    rw [show (ana s x).a = s.a &&& x from a1]; exact a2
  · rw [show (xra s x).a = s.a ^^^ x from x1]; exact x2
  · rw [show (ora s x).a = s.a ||| x from o1]; exact o2

theorem szp_cmp (s : Cpu) (x : Nat) : SZP (cmp s x) (toByte ((s.a : Int) - (x : Int))) := by
  have e : toByte ((s.a : Int) - (x : Int)) = toWord ((s.a : Int) + cnot x + 1) % 256 := by
    unfold toByte toWord cnot; omega
  rw [e]
  exact szp_flags _ _ (Nat.mod_lt _ (by decide))

/-- C5: after every flag-setting opcode S, Z, P and the reserved slots are Set-SZP of
the 8-bit result (the new A; for CMP and CPI the difference; for INR and DCR the new
operand), and `flags` changes no slot other than S, Z, P and the reserved three. -/
theorem C5_szp_of_result (s : Cpu) (r : Fin 8) (hs : WF s) :
    (∀ op ∈ [0x80 + r.val, 0x88 + r.val, 0x90 + r.val, 0x98 + r.val, 0xa0 + r.val,
              0xa8 + r.val, 0xb0 + r.val, 0xc6, 0xce, 0xd6, 0xde, 0xe6, 0xee, 0xf6, 0x27],
        SZP (execute s op).1 (execute s op).1.a) ∧
    SZP (execute s (0xb8 + r.val)).1 (toByte ((s.a : Int) - (operand s r : Int))) ∧
    SZP (execute s 0xfe).1 (toByte ((s.a : Int) - (s.ram s.pc : Int))) ∧
    SZP (execute s (0x04 + 8 * r.val)).1 (operand (execute s (0x04 + 8 * r.val)).1 r) ∧
    SZP (execute s (0x05 + 8 * r.val)).1 (operand (execute s (0x05 + 8 * r.val)).1 r) ∧
    (∀ reg, flags s reg =
      { s with fs := (flags s reg).fs, fz := (flags s reg).fz, fp := (flags s reg).fp,
               fzero := 0, fzerox := 0, fone := 1 }) := by
  obtain ⟨h80, h88, h90, h98, ha0, ha8, hb0, hb8⟩ := execute_alu s r
  obtain ⟨hc6, hce, hd6, hde, he6, hee, hf6, hfe⟩ := execute_imm s
  obtain ⟨hi, hd⟩ := execute_inr_dcr s r
  have h27 : execute s 0x27 = (daa s, 1) := rfl
  have hx := wf_operand s hs r
  have hm := hs.ram s.pc
  obtain ⟨r1, r2, r3, r4⟩ := szp_arith s (operand s r)
  obtain ⟨i1, i2, i3, i4⟩ := szp_arith (fetch s).2 (s.ram s.pc)
  obtain ⟨r5, r6, r7⟩ := szp_logical s (operand s r) hs.a hx
  obtain ⟨i5, i6, i7⟩ := szp_logical (fetch s).2 (s.ram s.pc) hs.a hm
  refine ⟨?_, ?_, ?_, ?_, ?_, ?_⟩
  · intro op hop
    simp only [List.mem_cons, List.mem_singleton, List.not_mem_nil, or_false] at hop
    rcases hop with h | h | h | h | h | h | h | h | h | h | h | h | h | h | h <;> subst h
    · rw [h80]; exact r1
    · rw [h88]; exact r2
    · rw [h90]; exact r3
    · rw [h98]; exact r4
    · rw [ha0]; exact r5
    · rw [ha8]; exact r6
    · rw [hb0]; exact r7
    · rw [hc6]; exact i1
    · rw [hce]; exact i2
    · rw [hd6]; exact i3
    · rw [hde]; exact i4
    · rw [he6]; exact i5
    · rw [hee]; exact i6
    · rw [hf6]; exact i7
    · rw [h27, daa_eq s hs.a]
      exact szp_flags_self _ (daaSpec_lt s.a s.fac s.fcy hs.a)
  · rw [hb8]; exact szp_cmp s _
  · rw [hfe]; exact szp_cmp (fetch s).2 _
  · rw [hi]
    obtain ⟨e1, -, e3, -⟩ := inr_spec s r (incb (operand s r)) (incb_lt _)
    dsimp only
    rw [e1]; exact e3
  · rw [hd]
    obtain ⟨e1, -, e3, -⟩ := dcr_spec s r (decb (operand s r)) (decb_lt _)
    dsimp only
    rw [e1]; exact e3
  · intro reg
    simp only [flags_eq]

/-- C5 at INR A with A = 0x7f: the result 0x80 gives S = 1, Z = 0, P = 0. -/
theorem C5_szp_of_result_witness :
    WF (sample 0x7f 0xff 0 0) ∧
    SZP (execute (sample 0x7f 0xff 0 0) (0x04 + 8 * (7 : Fin 8).val)).1
      (operand (execute (sample 0x7f 0xff 0 0) (0x04 + 8 * (7 : Fin 8).val)).1 7) ∧
    (execute (sample 0x7f 0xff 0 0) 0x3c).1.fs = 1 ∧
    (execute (sample 0x7f 0xff 0 0) 0x3c).1.fz = 0 ∧
    (execute (sample 0x7f 0xff 0 0) 0x3c).1.fp = 0 :=
  ⟨wf_sample 0x7f 0xff 0 0 (by decide) (by decide) (by decide) (by decide),
   (C5_szp_of_result (sample 0x7f 0xff 0 0) 7
      (wf_sample 0x7f 0xff 0 0 (by decide) (by decide) (by decide) (by decide))).2.2.2.1,
   by decide, by decide, by decide⟩

/-- C8 at ANA B with A = 0x3c, B = 0x0f and CY = 1 on entry: A = 0x0c, CY = 0, AC = 0. -/
theorem C8_logical_witness :
    WF (sample 0x3c 0x0f 1 0) ∧
    (execute (sample 0x3c 0x0f 1 0) (0xa0 + (0 : Fin 8).val)).1.a = 0x0c ∧
    (execute (sample 0x3c 0x0f 1 0) (0xa0 + (0 : Fin 8).val)).1.fcy = 0 ∧
    (execute (sample 0x3c 0x0f 1 0) (0xa0 + (0 : Fin 8).val)).1.fac = 0 :=
  ⟨wf_sample 0x3c 0x0f 1 0 (by decide) (by decide) (by decide) (by decide),
   (C8_logical (sample 0x3c 0x0f 1 0) 0
      (wf_sample 0x3c 0x0f 1 0 (by decide) (by decide) (by decide) (by decide))).1.1.trans
     (by decide),
   (C8_logical (sample 0x3c 0x0f 1 0) 0
      (wf_sample 0x3c 0x0f 1 0 (by decide) (by decide) (by decide) (by decide))).1.2.2.1,
   (C8_logical (sample 0x3c 0x0f 1 0) 0
      (wf_sample 0x3c 0x0f 1 0 (by decide) (by decide) (by decide) (by decide))).1.2.2.2⟩

/-! ## Multi-byte addition -/

theorem pair_eq (hi lo : Nat) (h : lo < 256) : pair hi lo = hi * 256 + lo := by
  unfold pair
  rw [Nat.shiftLeft_eq, Nat.mul_comm, ← Nat.mul_add_lt_is_or (show lo < 2 ^ 8 from h)]

theorem shr_8 (a : Nat) : a >>> 8 = a / 256 := by
  simp [Nat.shiftRight_eq_div_pow]

theorem add_a_cy (s : Cpu) (x : Nat) (ha : s.a < 256) (hx : x < 256) :
    (add s x).a = (s.a + x) % 256 ∧ (add s x).fcy = (if s.a + x > 0xff then 1 else 0) := by
  simp only [add, carryflag_add, flags_eq, and_0xff]
  constructor
  · omega
  · split_ifs <;> omega

theorem adc_a_cy (s : Cpu) (x : Nat) (ha : s.a < 256) (hx : x < 256) (hc : s.fcy < 256) :
    (adc s x).a = (s.a + x + s.fcy) % 256 ∧
    (adc s x).fcy = (if s.a + x + s.fcy > 0xff then 1 else 0) := by
  simp only [adc, carryflag_add, flags_eq, and_0xff]
  constructor
  · omega
  · split_ifs <;> omega

/-- Low-byte `add` followed by high-byte `adc` on a state that took over the carry. -/
theorem add_adc_chain (s u : Cpu) (x y xl xh : Nat) (hx : x < 65536) (hy : y < 65536)
    (h1 : s.a = x % 256) (h2 : xl = y % 256) (h3 : u.a = x / 256) (h4 : xh = y / 256)
    (h5 : u.fcy = (add s xl).fcy) :
    (adc u xh).a * 256 + (add s xl).a = (x + y) % 65536 ∧
    (adc u xh).fcy = (if x + y > 0xffff then 1 else 0) := by
  have ha : s.a < 256 := by omega
  have hb : xl < 256 := by omega
  have hc : u.a < 256 := by omega
  have hd : xh < 256 := by omega
  obtain ⟨a1, a2⟩ := add_a_cy s xl ha hb
  have hf : u.fcy < 256 := by rw [h5, a2]; split_ifs <;> omega
  obtain ⟨c1, c2⟩ := adc_a_cy u xh hc hd hf
  rw [c1, c2, a1, h5, a2, h1, h2, h3, h4]
  constructor
  · split_ifs <;> omega
  · split_ifs <;> omega


/-- C12: ADD of the low bytes followed by ADC of the high bytes, the carry flag being
carried over unchanged, gives the bytes of (x + y) mod 65536 and CY = 1 iff
x + y > 0xFFFF, whatever CY held before the ADD; in general ADC r|M and ACI leave
A = (a + b + CY) mod 256 and CY = 1 iff a + b + CY > 0xff. -/
theorem C12_adc_chain (s u : Cpu) (r : Fin 8) (x y : Nat) (hx : x < 65536) (hy : y < 65536)
    (hs : WF s) (h1 : s.a = x % 256) (h3 : u.a = x / 256) :
    (operand s r = y % 256 → operand u r = y / 256 →
      u.fcy = (execute s (0x80 + r.val)).1.fcy →
      (execute u (0x88 + r.val)).1.a * 256 + (execute s (0x80 + r.val)).1.a = (x + y) % 65536 ∧
      (execute u (0x88 + r.val)).1.fcy = (if x + y > 0xffff then 1 else 0)) ∧
    (s.ram s.pc = y % 256 → u.ram u.pc = y / 256 →
      u.fcy = (execute s 0xc6).1.fcy →
      (execute u 0xce).1.a * 256 + (execute s 0xc6).1.a = (x + y) % 65536 ∧
      (execute u 0xce).1.fcy = (if x + y > 0xffff then 1 else 0)) ∧
    ((execute s (0x88 + r.val)).1.a = (s.a + operand s r + s.fcy) % 256 ∧
      (execute s (0x88 + r.val)).1.fcy = (if s.a + operand s r + s.fcy > 0xff then 1 else 0)) ∧
    ((execute s 0xce).1.a = (s.a + s.ram s.pc + s.fcy) % 256 ∧
      (execute s 0xce).1.fcy = (if s.a + s.ram s.pc + s.fcy > 0xff then 1 else 0)) := by
  obtain ⟨h80, h88, -⟩ := execute_alu s r
  obtain ⟨-, u88, -⟩ := execute_alu u r
  obtain ⟨hc6, hce, -⟩ := execute_imm s
  obtain ⟨-, uce, -⟩ := execute_imm u
  rw [h80, h88, u88, hc6, hce, uce]
  refine ⟨?_, ?_, ?_, ?_⟩
  · intro h2 h4 h5
    exact add_adc_chain s u x y _ _ hx hy h1 h2 h3 h4 h5
  · intro h2 h4 h5
    exact add_adc_chain (fetch s).2 (fetch u).2 x y _ _ hx hy h1 h2 h3 h4 h5
  · exact adc_a_cy s _ hs.a (wf_operand s hs r) hs.fcy
  · exact adc_a_cy (fetch s).2 _ hs.a (hs.ram s.pc) hs.fcy

/-- C12 at x = 0x12ff, y = 0x3401 with CY = 1 before the ADD: the low bytes give 0x00
with a carry, the high bytes 0x47, and no carry is left. -/
theorem C12_adc_chain_witness :
    (0x12ff : Nat) < 65536 ∧ (0x3401 : Nat) < 65536 ∧ WF (sample 0xff 0x01 1 0) ∧
    (execute (sample 0x12 0x34 1 0) (0x88 + (0 : Fin 8).val)).1.a * 256 +
      (execute (sample 0xff 0x01 1 0) (0x80 + (0 : Fin 8).val)).1.a = 0x4700 ∧
    (execute (sample 0x12 0x34 1 0) (0x88 + (0 : Fin 8).val)).1.fcy = 0 :=
  ⟨by decide, by decide, wf_sample 0xff 0x01 1 0 (by decide) (by decide) (by decide) (by decide),
   ((C12_adc_chain (sample 0xff 0x01 1 0) (sample 0x12 0x34 1 0) 0 0x12ff 0x3401 (by decide)
      (by decide) (wf_sample 0xff 0x01 1 0 (by decide) (by decide) (by decide) (by decide))
      (by decide) (by decide)).1 (by decide) (by decide) (by decide)).1,
   ((C12_adc_chain (sample 0xff 0x01 1 0) (sample 0x12 0x34 1 0) 0 0x12ff 0x3401 (by decide)
      (by decide) (wf_sample 0xff 0x01 1 0 (by decide) (by decide) (by decide) (by decide))
      (by decide) (by decide)).1 (by decide) (by decide) (by decide)).2⟩

/-! ## 16-bit arithmetic on register pairs -/

theorem wf_rp16 (s : Cpu) (hs : WF s) (p : Fin 4) : rp16 s p < 65536 := by
  have b := hs.b; have c := hs.c; have d := hs.d; have e := hs.e
  have h := hs.h; have l := hs.l; have sp := hs.sp
  fin_cases p <;> simp only [rp16] <;> first | (rw [pair_eq _ _ (by assumption)]; omega) | assumption

theorem dad_eq (s : Cpu) (sb1 sb2 : Nat) (h1 : sb1 < 65536) (h2 : sb2 < 65536) :
    dad s sb1 sb2 =
      { s with fcy := if sb1 + sb2 > 0xffff then 1 else 0,
               h := (sb1 + sb2) / 256 % 256, l := (sb1 + sb2) % 256 } := by
  have e : (sb1 + sb2) % 4294967296 = sb1 + sb2 := by omega
  simp only [dad, and_0xff, shr_8, e]
  split_ifs <;> rfl

set_option maxRecDepth 100000 in
/-- The four `dad` cases apply the body to the pair and to `hl`. -/
theorem execute_dad (s : Cpu) (hs : WF s) (p : Fin 4) :
    execute s (0x09 + 16 * p.val) = (dad s (rp16 s p) (pair s.h s.l), 1) := by
  have b := hs.b; have c := hs.c; have d := hs.d; have e := hs.e
  have h := hs.h; have l := hs.l; have sp := hs.sp
  have e1 : pair s.b s.c % 65536 = pair s.b s.c := by rw [pair_eq _ _ c]; omega
  have e2 : pair s.d s.e % 65536 = pair s.d s.e := by rw [pair_eq _ _ e]; omega
  have e3 : hl s = pair s.h s.l := by
    show pair s.h s.l % 65536 = pair s.h s.l
    rw [pair_eq _ _ l]; omega
  fin_cases p
  · show execute s 0x09 = _
    rw [show execute s 0x09 = (dad s (pair s.b s.c % 65536) (hl s), 1) from rfl, e1, e3]; rfl
  · show execute s 0x19 = _
    rw [show execute s 0x19 = (dad s (pair s.d s.e % 65536) (hl s), 1) from rfl, e2, e3]; rfl
  · show execute s 0x29 = _
    rw [show execute s 0x29 = (dad s (hl s) (hl s), 1) from rfl, e3]; rfl
  · show execute s 0x39 = _
    rw [show execute s 0x39 = (dad s s.sp (hl s), 1) from rfl, e3]; rfl

/-- C13: DAD rp sets HL to (HL + rp) mod 65536 and CY to 1 iff HL + rp > 0xFFFF, else
to 0, and changes no other flag, register or memory byte. -/
theorem C13_dad (s : Cpu) (p : Fin 4) (hs : WF s) :
    pair (execute s (0x09 + 16 * p.val)).1.h (execute s (0x09 + 16 * p.val)).1.l =
      (pair s.h s.l + rp16 s p) % 65536 ∧
    (execute s (0x09 + 16 * p.val)).1.fcy =
      (if pair s.h s.l + rp16 s p > 0xffff then 1 else 0) ∧
    (execute s (0x09 + 16 * p.val)).1 =
      { s with h := (execute s (0x09 + 16 * p.val)).1.h,
               l := (execute s (0x09 + 16 * p.val)).1.l,
               fcy := (execute s (0x09 + 16 * p.val)).1.fcy } := by
  have h1 := wf_rp16 s hs p
  have h2 := wf_rp16 s hs 2
  simp only [rp16] at h2
  rw [execute_dad s hs p, dad_eq s _ _ h1 h2]
  refine ⟨?_, ?_, rfl⟩
  · show pair ((rp16 s p + pair s.h s.l) / 256 % 256) ((rp16 s p + pair s.h s.l) % 256) = _
    rw [pair_eq _ _ (Nat.mod_lt _ (by decide))]; omega
  · show (if rp16 s p + pair s.h s.l > 0xffff then 1 else 0) = _
    split_ifs <;> omega

theorem inx_pair (hi lo : Nat) (h1 : hi < 256) (h2 : lo < 256) :
    pair (if incb lo = 0 then incb hi else hi) (incb lo) = (pair hi lo + 1) % 65536 := by
  have e : incb lo < 256 := incb_lt lo
  rw [pair_eq _ _ e, pair_eq _ _ h2]
  unfold incb at *
  split_ifs <;> omega

theorem dcx_pair (hi lo : Nat) (h1 : hi < 256) (h2 : lo < 256) :
    (pair (if decb lo = 0xff then decb hi else hi) (decb lo) : Int) =
      ((pair hi lo : Int) - 1) % 65536 := by
  have e : decb lo < 256 := decb_lt lo
  rw [pair_eq _ _ e, pair_eq _ _ h2]
  unfold decb toByte at *
  split_ifs <;> omega

set_option maxRecDepth 100000 in
/-- C14: INX rp sets the pair (high << 8 | low), or SP, to (pair + 1) mod 65536 and
DCX rp to (pair - 1) mod 65536, and neither changes any flag. -/
theorem C14_inx_dcx (s : Cpu) (p : Fin 4) (hs : WF s) :
    rp16 (execute s (0x03 + 16 * p.val)).1 p = (rp16 s p + 1) % 65536 ∧
    flagsOf (execute s (0x03 + 16 * p.val)).1 = flagsOf s ∧
    (rp16 (execute s (0x0b + 16 * p.val)).1 p : Int) = ((rp16 s p : Int) - 1) % 65536 ∧
    flagsOf (execute s (0x0b + 16 * p.val)).1 = flagsOf s := by
  fin_cases p
  · have i := inx_pair s.b s.c hs.b hs.c
    have d := dcx_pair s.b s.c hs.b hs.c
    refine ⟨?_, ?_, ?_, ?_⟩
    · show rp16 (if incb s.c = 0 then { s with c := incb s.c, b := incb s.b }
                 else { s with c := incb s.c }) 0 = _
      refine Eq.trans ?_ i; split_ifs <;> rfl
    · show flagsOf (if incb s.c = 0 then { s with c := incb s.c, b := incb s.b }
                    else { s with c := incb s.c }) = _
      split_ifs <;> rfl
    · show (rp16 (if decb s.c = 0xff then { s with c := decb s.c, b := decb s.b }
                 else { s with c := decb s.c }) 0 : Int) = _
      refine Eq.trans ?_ d; split_ifs <;> rfl
    · show flagsOf (if decb s.c = 0xff then { s with c := decb s.c, b := decb s.b }
                    else { s with c := decb s.c }) = _
      split_ifs <;> rfl
  · have i := inx_pair s.d s.e hs.d hs.e
    have d := dcx_pair s.d s.e hs.d hs.e
    refine ⟨?_, ?_, ?_, ?_⟩
    · show rp16 (if incb s.e = 0 then { s with e := incb s.e, d := incb s.d }
                 else { s with e := incb s.e }) 1 = _
      refine Eq.trans ?_ i; split_ifs <;> rfl
    · show flagsOf (if incb s.e = 0 then { s with e := incb s.e, d := incb s.d }
                    else { s with e := incb s.e }) = _
      split_ifs <;> rfl
    · show (rp16 (if decb s.e = 0xff then { s with e := decb s.e, d := decb s.d }
                 else { s with e := decb s.e }) 1 : Int) = _
      refine Eq.trans ?_ d; split_ifs <;> rfl
    · show flagsOf (if decb s.e = 0xff then { s with e := decb s.e, d := decb s.d }
                    else { s with e := decb s.e }) = _
      split_ifs <;> rfl
  · have i := inx_pair s.h s.l hs.h hs.l
    have d := dcx_pair s.h s.l hs.h hs.l
    refine ⟨?_, ?_, ?_, ?_⟩
    · show rp16 (if incb s.l = 0 then { s with l := incb s.l, h := incb s.h }
                 else { s with l := incb s.l }) 2 = _
      refine Eq.trans ?_ i; split_ifs <;> rfl
    · show flagsOf (if incb s.l = 0 then { s with l := incb s.l, h := incb s.h }
                    else { s with l := incb s.l }) = _
      split_ifs <;> rfl
    · show (rp16 (if decb s.l = 0xff then { s with l := decb s.l, h := decb s.h }
                 else { s with l := decb s.l }) 2 : Int) = _
      refine Eq.trans ?_ d; split_ifs <;> rfl
    · show flagsOf (if decb s.l = 0xff then { s with l := decb s.l, h := decb s.h }
                    else { s with l := decb s.l }) = _
      split_ifs <;> rfl
  · refine ⟨rfl, rfl, ?_, rfl⟩
    show ((decw s.sp : Nat) : Int) = _
    have := hs.sp
    show ((decw s.sp : Nat) : Int) = ((s.sp : Int) - 1) % 65536
    unfold decw toWord; omega

/-! ## Rotates -/

theorem shl_1 (a : Nat) : a <<< 1 = 2 * a := by
  simp [Nat.shiftLeft_eq, Nat.mul_comm]

theorem shr_1 (a : Nat) : a >>> 1 = a / 2 := by
  simp [Nat.shiftRight_eq_div_pow]

theorem rlc_eq (s : Cpu) (ha : s.a < 256) :
    execute s 0x07 = ({ s with fcy := s.a / 128, a := 2 * s.a % 256 + s.a / 128 }, 1) := by
  have e : execute s 0x07 =
      (let carry := (s.a <<< 1) % 65536
       let s := if carry > 0xff then { s with fcy := 1 } else { s with fcy := 0 }
       let s := { s with a := carry &&& 0xff }
       (if s.fcy = 1 then { s with a := incb s.a } else s, 1)) := rfl
  rw [e]
  simp only [shl_1, and_0xff, incb]
  by_cases h : s.a < 128
  · have h1 : ¬ (2 * s.a % 65536 > 255) := by omega
    have h2 : s.a / 128 = 0 := by omega
    simp [h1, h2]
    omega
  · have h1 : 2 * s.a % 65536 > 255 := by omega
    have h2 : s.a / 128 = 1 := by omega
    simp [h1, h2]
    omega

theorem rrc_eq (s : Cpu) (ha : s.a < 256) :
    execute s 0x0f = ({ s with fcy := s.a % 2, a := s.a / 2 + 128 * (s.a % 2) }, 1) := by
  have e : execute s 0x0f =
      (let carry := s.a &&& 0x1
       let s := { s with a := s.a >>> 1 }
       (if carry ≠ 0 then { s with a := (s.a + 0x80) % 256, fcy := 1 } else { s with fcy := 0 }, 1)) := rfl
  rw [e]
  simp only [shr_1, and_0x1]
  by_cases h : s.a % 2 = 0
  · simp [h]
  · have h2 : s.a % 2 = 1 := by omega
    simp [h2]
    omega

theorem ral_eq (s : Cpu) (ha : s.a < 256) (hc : s.fcy ≤ 1) :
    execute s 0x17 = ({ s with fcy := s.a / 128, a := 2 * s.a % 256 + s.fcy }, 1) := by
  have e : execute s 0x17 =
      (let carry := (s.a <<< 1) % 65536
       let s := { s with a := carry &&& 0xff }
       let s := if s.fcy = 1 then { s with a := incb s.a } else s
       (if carry > 0xff then { s with fcy := 1 } else { s with fcy := 0 }, 1)) := rfl
  rw [e]
  simp only [shl_1, and_0xff, incb]
  have hc2 : s.fcy = 0 ∨ s.fcy = 1 := by omega
  by_cases h : s.a < 128
  · have h1 : ¬ (2 * s.a % 65536 > 255) := by omega
    have h2 : s.a / 128 = 0 := by omega
    rcases hc2 with c | c <;> simp [h1, h2, c] <;> omega
  · have h1 : 2 * s.a % 65536 > 255 := by omega
    have h2 : s.a / 128 = 1 := by omega
    rcases hc2 with c | c <;> simp [h1, h2, c] <;> omega

theorem rar_eq (s : Cpu) (ha : s.a < 256) (hc : s.fcy ≤ 1) :
    execute s 0x1f = ({ s with fcy := s.a % 2, a := s.a / 2 + 128 * s.fcy }, 1) := by
  have e : execute s 0x1f =
      (let carry := s.a &&& 0x1
       let s := { s with a := s.a >>> 1 }
       let s := if s.fcy = 1 then { s with a := (s.a + 0x80) % 256 } else s
       (if carry ≠ 0 then { s with fcy := 1 } else { s with fcy := 0 }, 1)) := rfl
  rw [e]
  simp only [shr_1, and_0x1]
  have hc2 : s.fcy = 0 ∨ s.fcy = 1 := by omega
  by_cases h : s.a % 2 = 0
  · rcases hc2 with c | c <;> simp [h, c] <;> omega
  · have h2 : s.a % 2 = 1 := by omega
    rcases hc2 with c | c <;> simp [h2, c] <;> omega


theorem shl1_or (a c : Nat) (hc : c ≤ 1) : ((a <<< 1) ||| c) % 256 = 2 * a % 256 + c := by
  have e : (a <<< 1) ||| c = 2 * a + c := by
    rw [shl_1, Nat.mul_add_lt_is_or (show c < 2 ^ 1 by omega) a]
  rw [e]; omega

theorem shr1_or (a c : Nat) (ha : a < 256) : (a >>> 1) ||| (c <<< 7) = a / 2 + 128 * c := by
  rw [shr_1, Nat.shiftLeft_eq, Nat.lor_comm, Nat.mul_comm c,
    ← Nat.mul_add_lt_is_or (show a / 2 < 2 ^ 7 by omega) c]
  omega

/-- C15: RLC, RRC, RAL and RAR rotate A as the specification says, through or around
CY, and change nothing but A and CY. -/
theorem C15_rotates (s : Cpu) (ha : s.a < 256) (hc : s.fcy ≤ 1) :
    ((execute s 0x07).1.fcy = s.a >>> 7 ∧
      (execute s 0x07).1.a = ((s.a <<< 1) ||| (execute s 0x07).1.fcy) % 256 ∧
      (execute s 0x07).1 = { s with a := (execute s 0x07).1.a, fcy := (execute s 0x07).1.fcy }) ∧
    ((execute s 0x0f).1.fcy = s.a &&& 1 ∧
      (execute s 0x0f).1.a = (s.a >>> 1) ||| ((execute s 0x0f).1.fcy <<< 7) ∧
      (execute s 0x0f).1 = { s with a := (execute s 0x0f).1.a, fcy := (execute s 0x0f).1.fcy }) ∧
    ((execute s 0x17).1.a = ((s.a <<< 1) ||| s.fcy) % 256 ∧
      (execute s 0x17).1.fcy = s.a >>> 7 ∧
      (execute s 0x17).1 = { s with a := (execute s 0x17).1.a, fcy := (execute s 0x17).1.fcy }) ∧
    ((execute s 0x1f).1.a = (s.a >>> 1) ||| (s.fcy <<< 7) ∧
      (execute s 0x1f).1.fcy = s.a &&& 1 ∧
      (execute s 0x1f).1 = { s with a := (execute s 0x1f).1.a, fcy := (execute s 0x1f).1.fcy }) := by
  rw [rlc_eq s ha, rrc_eq s ha, ral_eq s ha hc, rar_eq s ha hc]
  have b7 : s.a / 128 ≤ 1 := by omega
  have b0 : s.a % 2 ≤ 1 := by omega
  refine ⟨⟨(shr_7 _).symm, ?_, rfl⟩, ⟨(and_0x1 _).symm, ?_, rfl⟩, ⟨?_, (shr_7 _).symm, rfl⟩,
    ⟨?_, (and_0x1 _).symm, rfl⟩⟩
  · exact (shl1_or s.a _ b7).symm
  · exact (shr1_or s.a _ ha).symm
  · exact (shl1_or s.a _ hc).symm
  · exact (shr1_or s.a _ ha).symm

/-- C15 at A = 0x81 with CY = 0: RLC gives A = 0x03 and CY = 1, RAR gives A = 0x40 and CY = 1. -/
theorem C15_rotates_witness :
    (sample 0x81 0 0 0).a < 256 ∧ (sample 0x81 0 0 0).fcy ≤ 1 ∧
    (execute (sample 0x81 0 0 0) 0x07).1.fcy = 1 ∧ (execute (sample 0x81 0 0 0) 0x07).1.a = 0x03 ∧
    (execute (sample 0x81 0 0 0) 0x1f).1.a = 0x40 ∧ (execute (sample 0x81 0 0 0) 0x1f).1.fcy = 1 :=
  ⟨by decide, by decide,
   (C15_rotates (sample 0x81 0 0 0) (by decide) (by decide)).1.1.trans (by decide),
   by decide,
   (C15_rotates (sample 0x81 0 0 0) (by decide) (by decide)).2.2.2.1.trans (by decide),
   (C15_rotates (sample 0x81 0 0 0) (by decide) (by decide)).2.2.2.2.1.trans (by decide)⟩

/-- C16 as stated fails: with A = 0x00 and CY = 1, RLC followed by RRC leaves CY = 0. -/
theorem C16_counterexample :
    ¬ ((execSeq [0x07, 0x0f] (sample 0 0 1 0)).a = (sample 0 0 1 0).a ∧
       (execSeq [0x07, 0x0f] (sample 0 0 1 0)).fcy = (sample 0 0 1 0).fcy) := by
  decide

/-- C16 amended: RLC followed by RRC restores A and changes nothing else but CY, which
is left equal to bit 7 of A, the value the RLC gave it; the CY held before the RLC is
restored exactly when it was equal to that bit. -/
theorem C16_rlc_rrc (s : Cpu) (ha : s.a < 256) :
    (execSeq [0x07, 0x0f] s).a = s.a ∧
    (execSeq [0x07, 0x0f] s).fcy = s.a >>> 7 ∧
    (execSeq [0x07, 0x0f] s).fcy = (execute s 0x07).1.fcy ∧
    execSeq [0x07, 0x0f] s = { s with fcy := s.a >>> 7 } := by
  have e : execSeq [0x07, 0x0f] s = (execute (execute s 0x07).1 0x0f).1 := rfl
  have hb : (execute s 0x07).1.a < 256 := by
    rw [rlc_eq s ha]; show 2 * s.a % 256 + s.a / 128 < 256; omega
  rw [e, rrc_eq _ hb, rlc_eq s ha, shr_7]
  have e1 : (2 * s.a % 256 + s.a / 128) % 2 = s.a / 128 := by omega
  have e2 : (2 * s.a % 256 + s.a / 128) / 2 + 128 * (s.a / 128) = s.a := by omega
  simp only [e1, e2, and_self]


/-- One RLC on the accumulator alone: rotation of a byte to the left. -/
theorem rlc_iter : ∀ (n : Nat) (s : Cpu), s.a < 256 →
    execSeq (List.replicate (n + 1) 0x07) s =
      { s with a := (fun a => 2 * a % 256 + a / 128)^[n + 1] s.a,
               fcy := (fun a => 2 * a % 256 + a / 128)^[n] s.a / 128 } := by
  intro n
  induction n with
  | zero =>
    intro s ha
    show (execute s 0x07).1 = _
    rw [rlc_eq s ha]; rfl
  | succ k ih =>
    intro s ha
    show execSeq (List.replicate (k + 1) 0x07) (execute s 0x07).1 = _
    have hb : (execute s 0x07).1.a < 256 := by
      rw [rlc_eq s ha]; show 2 * s.a % 256 + s.a / 128 < 256; omega
    rw [ih _ hb, rlc_eq s ha]
    rfl

set_option maxRecDepth 1000000 in
theorem rotl8 : ∀ a, a < 256 →
    (fun a => 2 * a % 256 + a / 128)^[8] a = a ∧
    (fun a => 2 * a % 256 + a / 128)^[7] a / 128 = a % 2 := by
  decide

/-- C17 as stated fails: after eight RLCs on A = 0x01, CY = 1 although bit 7 of A is 0. -/
theorem C17_counterexample :
    ¬ ((execSeq (List.replicate 8 0x07) (sample 0x01 0 0 0)).a = (sample 0x01 0 0 0).a ∧
       (execSeq (List.replicate 8 0x07) (sample 0x01 0 0 0)).fcy = (sample 0x01 0 0 0).a >>> 7) := by
  decide

/-- C17 amended: eight successive RLCs restore A, change nothing else but CY, and leave
CY equal to bit 0 of the original A, the bit the eighth rotation moves out. -/
theorem C17_eight_rlc (s : Cpu) (ha : s.a < 256) :
    (execSeq (List.replicate 8 0x07) s).a = s.a ∧
    (execSeq (List.replicate 8 0x07) s).fcy = s.a &&& 1 ∧
    execSeq (List.replicate 8 0x07) s = { s with fcy := s.a &&& 1 } := by
  obtain ⟨r1, r2⟩ := rotl8 s.a ha
  rw [rlc_iter 7 s ha, r1, r2, and_0x1]
  exact ⟨rfl, rfl, rfl⟩

/-- C17 amended, at A = 0x01: eight RLCs give A = 0x01 and CY = 1. -/
theorem C17_eight_rlc_witness :
    (sample 0x01 0 0 0).a < 256 ∧
    (execSeq (List.replicate 8 0x07) (sample 0x01 0 0 0)).a = 0x01 ∧
    (execSeq (List.replicate 8 0x07) (sample 0x01 0 0 0)).fcy = 1 :=
  ⟨by decide, (C17_eight_rlc (sample 0x01 0 0 0) (by decide)).1,
   (C17_eight_rlc (sample 0x01 0 0 0) (by decide)).2.1⟩

/-- C16 amended, at A = 0x80 with CY = 0: A is restored and CY = 1. -/
theorem C16_rlc_rrc_witness :
    (sample 0x80 0 0 0).a < 256 ∧
    (execSeq [0x07, 0x0f] (sample 0x80 0 0 0)).a = 0x80 ∧
    (execSeq [0x07, 0x0f] (sample 0x80 0 0 0)).fcy = 1 :=
  ⟨by decide, (C16_rlc_rrc (sample 0x80 0 0 0) (by decide)).1,
   (C16_rlc_rrc (sample 0x80 0 0 0) (by decide)).2.1⟩

/-! ## Stack -/

theorem stack_addrs (sp : Nat) (h : sp < 65536) :
    incw (decw (decw sp)) = decw sp ∧ incw (decw sp) = sp ∧ decw sp ≠ decw (decw sp) := by
  unfold incw decw toWord; omega

set_option maxRecDepth 100000 in
/-- The three `push` cases store the high byte at `sp - 1` and the low byte at `sp - 2`. -/
theorem execute_push (s : Cpu) (p : Fin 3) :
    execute s (0xc5 + 16 * p.val) =
      ({ s with sp := decw (decw s.sp),
                ram := fun j => if j = decw (decw s.sp) then (regPair s p).2
                                else if j = decw s.sp then (regPair s p).1 else s.ram j }, 1) := by
  fin_cases p <;> rfl

set_option maxRecDepth 100000 in
/-- The three `pop` cases load the low byte from `sp` and the high byte from `sp + 1`. -/
theorem execute_pop (s : Cpu) (q : Fin 3) :
    execute s (0xc1 + 16 * q.val) =
      (setRegPair { s with sp := incw (incw s.sp) } q (s.ram (incw s.sp), s.ram s.sp), 1) := by
  fin_cases q <;> rfl

/-- C20: PUSH rp1 followed by POP rp2 leaves rp2 equal to the old rp1 and SP, the flags
and every other register unchanged; with rp1 = rp2 all registers, flags and SP are
unchanged. -/
theorem C20_push_pop (s : Cpu) (p q : Fin 3) (hsp : s.sp < 65536) :
    regPair (execSeq [0xc5 + 16 * p.val, 0xc1 + 16 * q.val] s) q = regPair s p ∧
    (execSeq [0xc5 + 16 * p.val, 0xc1 + 16 * q.val] s).sp = s.sp ∧
    flagsOf (execSeq [0xc5 + 16 * p.val, 0xc1 + 16 * q.val] s) = flagsOf s ∧
    execSeq [0xc5 + 16 * p.val, 0xc1 + 16 * q.val] s =
      setRegPair { s with ram := (execSeq [0xc5 + 16 * p.val, 0xc1 + 16 * q.val] s).ram } q
        (regPair s p) ∧
    execSeq [0xc5 + 16 * p.val, 0xc1 + 16 * p.val] s =
      { s with ram := (execSeq [0xc5 + 16 * p.val, 0xc1 + 16 * p.val] s).ram } := by
  obtain ⟨a1, a2, a3⟩ := stack_addrs s.sp hsp
  have e : ∀ q : Fin 3, execSeq [0xc5 + 16 * p.val, 0xc1 + 16 * q.val] s =
      setRegPair { s with ram := fun j => if j = decw (decw s.sp) then (regPair s p).2
                                else if j = decw s.sp then (regPair s p).1 else s.ram j } q
        (regPair s p) := by
    intro q
    show (execute (execute s (0xc5 + 16 * p.val)).1 (0xc1 + 16 * q.val)).1 = _
    rw [execute_push, execute_pop]
    simp only [a1, a2, if_pos, if_neg a3]
  rw [e q, e p]
  refine ⟨?_, ?_, ?_, ?_, ?_⟩
  · fin_cases q <;> rfl
  · fin_cases q <;> rfl
  · fin_cases q <;> rfl
  · fin_cases q <;> rfl
  · fin_cases p <;> rfl


set_option maxRecDepth 100000 in
theorem execute_push_psw (s : Cpu) :
    execute s 0xf5 =
      ({ s with sp := decw (decw s.sp),
                ram := fun j =>
                  if j = decw (decw s.sp) then
                    pswCode s.fs s.fz s.fzero s.fac s.fzerox s.fp s.fone s.fcy
                  else if j = decw s.sp then s.a else s.ram j }, 1) := by
  have e : execute s 0xf5 =
      (let s := { s with sp := decw s.sp }
       let s := wr s s.sp s.a
       let s := { s with sp := decw s.sp }
       let s := wr s s.sp ((s.fs <<< 7) % 256)
       let s := wrOr s s.sp (s.fz <<< 6)
       let s := wrOr s s.sp (s.fzero <<< 5)
       let s := wrOr s s.sp (s.fac <<< 4)
       let s := wrOr s s.sp (s.fzerox <<< 3)
       let s := wrOr s s.sp (s.fp <<< 2)
       let s := wrOr s s.sp (s.fone <<< 1)
       (wrOr s s.sp s.fcy, 1)) := rfl
  rw [e]
  simp only [wr, wrOr, if_pos, pswCode, Prod.mk.injEq, and_true]
  congr 1
  funext j
  by_cases h : j = decw (decw s.sp)
  · simp only [h, if_pos]
  · simp only [h, if_false]

set_option maxRecDepth 100000 in
theorem execute_pop_psw (s : Cpu) :
    execute s 0xf1 =
      ({ s with fs := (s.ram s.sp >>> 7) &&& 0x1, fz := (s.ram s.sp >>> 6) &&& 0x1, fzero := 0,
                fac := (s.ram s.sp >>> 4) &&& 0x1, fzerox := 0,
                fp := (s.ram s.sp >>> 2) &&& 0x1, fone := 1, fcy := s.ram s.sp &&& 0x1,
                a := s.ram (incw s.sp), sp := incw (incw s.sp) }, 1) := rfl

theorem pswCode_spec : ∀ fs, fs < 2 → ∀ fz, fz < 2 → ∀ fac, fac < 2 → ∀ fp, fp < 2 →
    ∀ fcy, fcy < 2 →
    pswCode fs fz 0 fac 0 fp 1 fcy =
      ((fs <<< 7) ||| (fz <<< 6) ||| (0 <<< 5) ||| (fac <<< 4) ||| (0 <<< 3) ||| (fp <<< 2) |||
        (1 <<< 1) ||| fcy) := by
  decide

theorem pswCode_bits (fs fz fzero fac fzerox fp fone fcy : Nat) (h1 : fs < 2) (h2 : fz < 2)
    (h3 : fzero < 2) (h4 : fac < 2) (h5 : fzerox < 2) (h6 : fp < 2) (h7 : fone < 2)
    (h8 : fcy < 2) :
    (pswCode fs fz fzero fac fzerox fp fone fcy >>> 7) &&& 0x1 = fs ∧
    (pswCode fs fz fzero fac fzerox fp fone fcy >>> 6) &&& 0x1 = fz ∧
    (pswCode fs fz fzero fac fzerox fp fone fcy >>> 4) &&& 0x1 = fac ∧
    (pswCode fs fz fzero fac fzerox fp fone fcy >>> 2) &&& 0x1 = fp ∧
    pswCode fs fz fzero fac fzerox fp fone fcy &&& 0x1 = fcy := by
  interval_cases fzero <;> interval_cases fzerox <;> interval_cases fone <;>
    interval_cases fs <;> interval_cases fz <;> interval_cases fac <;>
    interval_cases fp <;> interval_cases fcy <;> decide

/-- C18: PUSH PSW sets SP to (SP - 2) mod 65536, stores A at the old SP - 1 and the
packed byte `S Z 0 AC 0 P 1 CY` at the new SP, and changes nothing else. -/
theorem C18_push_psw (s : Cpu) (hf : FlagBits s) (hr : Reserved s) :
    ((execute s 0xf5).1.sp : Int) = ((s.sp : Int) - 2) % 65536 ∧
    (execute s 0xf5).1.ram (toWord ((s.sp : Int) - 1)) = s.a ∧
    (execute s 0xf5).1.ram (execute s 0xf5).1.sp = pswByte s ∧
    (∀ j, j ≠ toWord ((s.sp : Int) - 1) → j ≠ (execute s 0xf5).1.sp →
      (execute s 0xf5).1.ram j = s.ram j) ∧
    (execute s 0xf5).1 = { s with sp := (execute s 0xf5).1.sp, ram := (execute s 0xf5).1.ram } := by
  obtain ⟨f1, f2, f3, f4, f5⟩ := hf
  obtain ⟨r1, r2, r3⟩ := hr
  rw [execute_push_psw]
  have hne : toWord ((s.sp : Int) - 1) ≠ decw (decw s.sp) := by
    unfold decw toWord; omega
  refine ⟨?_, ?_, ?_, ?_, rfl⟩
  · show ((decw (decw s.sp) : Nat) : Int) = _
    unfold decw toWord; omega
  · show (if toWord ((s.sp : Int) - 1) = decw (decw s.sp) then _
          else if toWord ((s.sp : Int) - 1) = decw s.sp then s.a else _) = s.a
    rw [if_neg hne]; exact if_pos rfl
  · show (if decw (decw s.sp) = decw (decw s.sp) then _ else _) = pswByte s
    rw [if_pos rfl, r1, r2, r3]
    exact pswCode_spec s.fs (by omega) s.fz (by omega) s.fac (by omega) s.fp (by omega)
      s.fcy (by omega)
  · intro j h1 h2
    show (if j = decw (decw s.sp) then _ else if j = decw s.sp then s.a else s.ram j) = s.ram j
    have h1b : j ≠ decw s.sp := h1
    have h2b : j ≠ decw (decw s.sp) := h2
    rw [if_neg h2b, if_neg h1b]

/-- C19: PUSH PSW followed by POP PSW restores A, S, Z, AC, P, CY and SP for every SP,
leaves the reserved slots at 0, 0 and 1, and changes nothing but the two stack bytes. -/
theorem C19_push_pop_psw (s : Cpu) (hf : FlagBits s) (hz : s.fzero ≤ 1) (hx : s.fzerox ≤ 1)
    (ho : s.fone ≤ 1) (hsp : s.sp < 65536) :
    (execSeq [0xf5, 0xf1] s).a = s.a ∧
    (execSeq [0xf5, 0xf1] s).fs = s.fs ∧ (execSeq [0xf5, 0xf1] s).fz = s.fz ∧
    (execSeq [0xf5, 0xf1] s).fac = s.fac ∧ (execSeq [0xf5, 0xf1] s).fp = s.fp ∧
    (execSeq [0xf5, 0xf1] s).fcy = s.fcy ∧ (execSeq [0xf5, 0xf1] s).sp = s.sp ∧
    (execSeq [0xf5, 0xf1] s).fzero = 0 ∧ (execSeq [0xf5, 0xf1] s).fzerox = 0 ∧
    (execSeq [0xf5, 0xf1] s).fone = 1 ∧
    execSeq [0xf5, 0xf1] s =
      { s with fzero := 0, fzerox := 0, fone := 1, ram := (execSeq [0xf5, 0xf1] s).ram } := by
  obtain ⟨f1, f2, f3, f4, f5⟩ := hf
  obtain ⟨a1, a2, a3⟩ := stack_addrs s.sp hsp
  obtain ⟨b1, b2, b3, b4, b5⟩ := pswCode_bits s.fs s.fz s.fzero s.fac s.fzerox s.fp s.fone s.fcy
    (by omega) (by omega) (by omega) (by omega) (by omega) (by omega) (by omega) (by omega)
  have e : execSeq [0xf5, 0xf1] s = (execute (execute s 0xf5).1 0xf1).1 := rfl
  rw [e, execute_pop_psw, execute_push_psw]
  simp only [a1, a2, if_pos, if_neg a3, b1, b2, b3, b4, b5, and_self]

/-! ## Decimal addition, and the claims at concrete states -/

theorem wf_regs (bc de hl sp a fs fz fac fp fcy : Nat) (h1 : bc < 65536) (h2 : de < 65536)
    (h3 : hl < 65536) (h4 : sp < 65536) (h5 : a < 256) (h6 : fs < 256) (h7 : fz < 256)
    (h8 : fac < 256) (h9 : fp < 256) (h10 : fcy < 256) :
    WF (regs bc de hl sp a fs fz fac fp fcy) := by
  constructor <;> simp [regs, start] <;> omega

theorem add_fac0 (s : Cpu) (x : Nat) (hc : s.fcy = 0) :
    (add s x).fac = (if s.a % 16 + x % 16 > 0xf then 1 else 0) := by
  simp only [add, carryflag_add, flags_eq, and_0xf, toWord, hc]
  split_ifs <;> omega

set_option maxRecDepth 10000000 in
set_option maxHeartbeats 4000000 in
set_option synthInstance.maxSize 100000 in
set_option synthInstance.maxHeartbeats 4000000 in
theorem daaSpec_bcd : ∀ ah, ah < 10 → ∀ al, al < 10 → ∀ xh, xh < 10 → ∀ xl, xl < 10 →
    (16 * ah + al + (16 * xh + xl) < 0xfa ∨ 0xff < 16 * ah + al + (16 * xh + xl)) →
    (daaSpec ((16 * ah + al + (16 * xh + xl)) % 256) (if al + xl > 0xf then 1 else 0)
        (if 16 * ah + al + (16 * xh + xl) > 0xff then 1 else 0)).1 =
      bcdEnc ((10 * ah + al + (10 * xh + xl)) % 100) ∧
    (daaSpec ((16 * ah + al + (16 * xh + xl)) % 256) (if al + xl > 0xf then 1 else 0)
        (if 16 * ah + al + (16 * xh + xl) > 0xff then 1 else 0)).2.2 =
      (if 10 * ah + al + (10 * xh + xl) ≥ 100 then 1 else 0) := by
  decide


/-- ADD then DAA on packed-BCD operands with no carry on entry gives the packed-BCD sum
and its carry, unless the binary sum lies in 0xfa..0xff. -/
theorem add_daa_bcd (s : Cpu) (x : Nat) (hc : s.fcy = 0)
    (ha : s.a % 16 ≤ 9 ∧ s.a / 16 ≤ 9) (hx : x % 16 ≤ 9 ∧ x / 16 ≤ 9)
    (hs : s.a + x < 0xfa ∨ 0xff < s.a + x) :
    (daa (add s x)).a = bcdEnc ((bcdDec s.a + bcdDec x) % 100) ∧
    (daa (add s x)).fcy = (if bcdDec s.a + bcdDec x ≥ 100 then 1 else 0) := by
  have ha' : s.a < 256 := by omega
  have hx' : x < 256 := by omega
  obtain ⟨a1, a2⟩ := add_a_cy s x ha' hx'
  have a3 := add_fac0 s x hc
  have hb : (add s x).a < 256 := by rw [a1]; omega
  have e1 : 16 * (s.a / 16) + s.a % 16 = s.a := by omega
  have e2 : 16 * (x / 16) + x % 16 = x := by omega
  have key := daaSpec_bcd (s.a / 16) (by omega) (s.a % 16) (by omega) (x / 16) (by omega)
    (x % 16) (by omega)
  rw [e1, e2] at key
  rw [daa_eq _ hb]
  simp only [flags_eq, a1, a2, a3, bcdDec]
  exact key hs

/-- C11 fails in the code: with A = 0x61, B = 0x99 and CY = 0, ADD B followed by DAA
leaves A = 0x00 and CY = 0, where the decimal sum 61 + 99 = 160 asks for A = 0x60 and
CY = 1; the scenario 0x99 + 0x01 of the specification does give A = 0x00, CY = 1,
Z = 1, AC = 1, also when run as a program from the bootstrap state. -/
theorem C11_bcd_add_loses_carry :
    (execSeq [0x80, 0x27] (sample 0x61 0x99 0 0)).a = 0x00 ∧
    (execSeq [0x80, 0x27] (sample 0x61 0x99 0 0)).fcy = 0 ∧
    bcdEnc ((bcdDec 0x61 + bcdDec 0x99) % 100) = 0x60 ∧ bcdDec 0x61 + bcdDec 0x99 ≥ 100 ∧
    (execSeq [0x80, 0x27] (sample 0x99 0x01 0 0)).a = 0x00 ∧
    (execSeq [0x80, 0x27] (sample 0x99 0x01 0 0)).fcy = 1 ∧
    (execSeq [0x80, 0x27] (sample 0x99 0x01 0 0)).fz = 1 ∧
    (execSeq [0x80, 0x27] (sample 0x99 0x01 0 0)).fac = 1 ∧
    (run 5 (launch progDaa)).isExited = true ∧
    (run 5 (launch progDaa)).sys.cpu.a = 0x00 ∧ (run 5 (launch progDaa)).sys.cpu.fcy = 1 ∧
    (run 5 (launch progDaa)).sys.cpu.fz = 1 ∧ (run 5 (launch progDaa)).sys.cpu.fac = 1 := by
  decide

/-- C13 at HL = 0xffff, BC = 0x0001: HL becomes 0x0000 and CY = 1. -/
theorem C13_dad_witness :
    WF (regs 0x0001 0 0xffff 0 0 0 0 0 0 0) ∧
    pair (execute (regs 0x0001 0 0xffff 0 0 0 0 0 0 0) (0x09 + 16 * (0 : Fin 4).val)).1.h
         (execute (regs 0x0001 0 0xffff 0 0 0 0 0 0 0) (0x09 + 16 * (0 : Fin 4).val)).1.l = 0 ∧
    (execute (regs 0x0001 0 0xffff 0 0 0 0 0 0 0) (0x09 + 16 * (0 : Fin 4).val)).1.fcy = 1 :=
  ⟨wf_regs 0x0001 0 0xffff 0 0 0 0 0 0 0 (by decide) (by decide) (by decide) (by decide)
     (by decide) (by decide) (by decide) (by decide) (by decide) (by decide),
   (C13_dad (regs 0x0001 0 0xffff 0 0 0 0 0 0 0) 0
     (wf_regs 0x0001 0 0xffff 0 0 0 0 0 0 0 (by decide) (by decide) (by decide) (by decide)
       (by decide) (by decide) (by decide) (by decide) (by decide) (by decide))).1.trans
     (by decide),
   (C13_dad (regs 0x0001 0 0xffff 0 0 0 0 0 0 0) 0
     (wf_regs 0x0001 0 0xffff 0 0 0 0 0 0 0 (by decide) (by decide) (by decide) (by decide)
       (by decide) (by decide) (by decide) (by decide) (by decide) (by decide))).2.1.trans
     (by decide)⟩

/-- C14 at DE = 0xffff: INX D gives 0x0000; at DE = 0x0000 DCX D gives 0xffff. -/
theorem C14_inx_dcx_witness :
    WF (regs 0 0xffff 0 0 0 0 0 0 0 0) ∧
    rp16 (execute (regs 0 0xffff 0 0 0 0 0 0 0 0) (0x03 + 16 * (1 : Fin 4).val)).1 1 = 0 ∧
    WF (regs 0 0 0 0 0 0 0 0 0 0) ∧
    (rp16 (execute (regs 0 0 0 0 0 0 0 0 0 0) (0x0b + 16 * (1 : Fin 4).val)).1 1 : Int) = 0xffff :=
  ⟨wf_regs 0 0xffff 0 0 0 0 0 0 0 0 (by decide) (by decide) (by decide) (by decide)
     (by decide) (by decide) (by decide) (by decide) (by decide) (by decide),
   (C14_inx_dcx (regs 0 0xffff 0 0 0 0 0 0 0 0) 1
     (wf_regs 0 0xffff 0 0 0 0 0 0 0 0 (by decide) (by decide) (by decide) (by decide)
       (by decide) (by decide) (by decide) (by decide) (by decide) (by decide))).1.trans
     (by decide),
   wf_regs 0 0 0 0 0 0 0 0 0 0 (by decide) (by decide) (by decide) (by decide)
     (by decide) (by decide) (by decide) (by decide) (by decide) (by decide),
   (C14_inx_dcx (regs 0 0 0 0 0 0 0 0 0 0) 1
     (wf_regs 0 0 0 0 0 0 0 0 0 0 (by decide) (by decide) (by decide) (by decide)
       (by decide) (by decide) (by decide) (by decide) (by decide) (by decide))).2.2.1.trans
     (by decide)⟩

/-- C18 at SP = 0, A = 0x5a with S = 1, Z = 0, AC = 1, P = 0, CY = 1: SP becomes 0xfffe,
A is stored at 0xffff and the byte 0x93 at 0xfffe. -/
theorem C18_push_psw_witness :
    FlagBits (regs 0 0 0 0 0x5a 1 0 1 0 1) ∧ Reserved (regs 0 0 0 0 0x5a 1 0 1 0 1) ∧
    ((execute (regs 0 0 0 0 0x5a 1 0 1 0 1) 0xf5).1.sp : Int) = 0xfffe ∧
    (execute (regs 0 0 0 0 0x5a 1 0 1 0 1) 0xf5).1.ram 0xffff = 0x5a ∧
    (execute (regs 0 0 0 0 0x5a 1 0 1 0 1) 0xf5).1.ram 0xfffe = 0x93 :=
  ⟨by decide, by decide,
   (C18_push_psw (regs 0 0 0 0 0x5a 1 0 1 0 1) (by decide) (by decide)).1.trans (by decide),
   (C18_push_psw (regs 0 0 0 0 0x5a 1 0 1 0 1) (by decide) (by decide)).2.1,
   (C18_push_psw (regs 0 0 0 0 0x5a 1 0 1 0 1) (by decide) (by decide)).2.2.1.trans
     (by decide)⟩

/-- C19 at SP = 1, where the two stack bytes are 0x0000 and 0xffff. -/
theorem C19_push_pop_psw_witness :
    FlagBits (regs 0 0 0 1 0x5a 1 0 1 0 1) ∧ (regs 0 0 0 1 0x5a 1 0 1 0 1).fzero ≤ 1 ∧
    (regs 0 0 0 1 0x5a 1 0 1 0 1).fzerox ≤ 1 ∧ (regs 0 0 0 1 0x5a 1 0 1 0 1).fone ≤ 1 ∧
    (regs 0 0 0 1 0x5a 1 0 1 0 1).sp < 65536 ∧
    (execSeq [0xf5, 0xf1] (regs 0 0 0 1 0x5a 1 0 1 0 1)).a = 0x5a ∧
    (execSeq [0xf5, 0xf1] (regs 0 0 0 1 0x5a 1 0 1 0 1)).fs = 1 ∧
    (execSeq [0xf5, 0xf1] (regs 0 0 0 1 0x5a 1 0 1 0 1)).ram 0xffff = 0x93 :=
  ⟨by decide, by decide, by decide, by decide, by decide,
   (C19_push_pop_psw (regs 0 0 0 1 0x5a 1 0 1 0 1) (by decide) (by decide) (by decide)
     (by decide) (by decide)).1,
   (C19_push_pop_psw (regs 0 0 0 1 0x5a 1 0 1 0 1) (by decide) (by decide) (by decide)
     (by decide) (by decide)).2.1,
   by decide⟩

/-- C20 at SP = 0x1000, BC = 0x1234: PUSH B; POP D gives D = 0x12, E = 0x34 and
SP = 0x1000, also when run as the program of the specification. -/
theorem C20_push_pop_witness :
    (regs 0x1234 0 0 0x1000 0 0 0 0 0 0).sp < 65536 ∧
    regPair (execSeq [0xc5 + 16 * (0 : Fin 3).val, 0xc1 + 16 * (1 : Fin 3).val]
      (regs 0x1234 0 0 0x1000 0 0 0 0 0 0)) 1 = (0x12, 0x34) ∧
    (execSeq [0xc5 + 16 * (0 : Fin 3).val, 0xc1 + 16 * (1 : Fin 3).val]
      (regs 0x1234 0 0 0x1000 0 0 0 0 0 0)).sp = 0x1000 ∧
    (run 5 (launch progPushPop)).isExited = true ∧
    (run 5 (launch progPushPop)).sys.cpu.d = 0x12 ∧
    (run 5 (launch progPushPop)).sys.cpu.e = 0x34 ∧
    (run 5 (launch progPushPop)).sys.cpu.sp = 0x1000 :=
  ⟨by decide,
   (C20_push_pop (regs 0x1234 0 0 0x1000 0 0 0 0 0 0) 0 1 (by decide)).1,
   (C20_push_pop (regs 0x1234 0 0 0x1000 0 0 0 0 0 0) 0 1 (by decide)).2.1,
   by decide, by decide, by decide, by decide⟩

/-! ## The stack: PUSH, CALL and RET -/

theorem wf_operands (pc sp hl lo hi : Nat) (h1 : pc < 65536) (h2 : sp < 65536)
    (h3 : hl < 65536) (h4 : lo < 256) (h5 : hi < 256) : WF (operands pc sp hl lo hi) := by
  constructor <;> simp [operands, start] <;> try omega
  intro i; split_ifs <;> omega

theorem decw_eq (x : Nat) : decw x = (x + 65535) % 65536 := by
  unfold decw toWord; omega

set_option maxRecDepth 100000 in
/-- C21, counterexample: with BC = 0x1234 and SP = 0x1000, PUSH B writes the cells 0x0ffe
and 0x0fff; the low byte 0x34 is in the lower cell 0x0ffe and the high byte 0x12 in the
higher cell 0x0fff, so the high byte is not at the lower of the two addresses. -/
theorem C21_counterexample :
    regPair (regs 0x1234 0 0 0x1000 0 0 0 0 0 0) 0 = (0x12, 0x34) ∧
    (execute (regs 0x1234 0 0 0x1000 0 0 0 0 0 0) (0xc5 + 16 * (0 : Fin 3).val)).1.ram 0x0ffe
      = 0x34 ∧
    (execute (regs 0x1234 0 0 0x1000 0 0 0 0 0 0) (0xc5 + 16 * (0 : Fin 3).val)).1.ram 0x0fff
      = 0x12 ∧
    ¬ ((execute (regs 0x1234 0 0 0x1000 0 0 0 0 0 0) (0xc5 + 16 * (0 : Fin 3).val)).1.ram
          (min 0x0ffe 0x0fff) = 0x12 ∧
       (execute (regs 0x1234 0 0 0x1000 0 0 0 0 0 0) (0xc5 + 16 * (0 : Fin 3).val)).1.ram
          (max 0x0ffe 0x0fff) = 0x34) := by
  decide

/-- C21, amended: for rp in BC, DE, HL, PUSH rp sets SP to (SP - 2) mod 65536 and stores
the low byte of the pair at the new SP and the high byte at (new SP + 1) mod 65536;
unless the old SP is 1 the new SP is the lower of the two addresses, so the low byte is
at the lower address and the high byte at the adjacent higher one.  No other cell of
`ram` changes. -/
theorem C21_push_low_byte_at_sp (s : Cpu) (p : Fin 3) (hsp : s.sp < 65536) :
    (execute s (0xc5 + 16 * p.val)).1.sp = (s.sp + 65534) % 65536 ∧
    (execute s (0xc5 + 16 * p.val)).1.ram (execute s (0xc5 + 16 * p.val)).1.sp
      = (regPair s p).2 ∧
    (execute s (0xc5 + 16 * p.val)).1.ram
      (((execute s (0xc5 + 16 * p.val)).1.sp + 1) % 65536) = (regPair s p).1 ∧
    (s.sp ≠ 1 → (execute s (0xc5 + 16 * p.val)).1.sp <
      ((execute s (0xc5 + 16 * p.val)).1.sp + 1) % 65536) ∧
    (∀ j, j ≠ (s.sp + 65534) % 65536 → j ≠ (s.sp + 65535) % 65536 →
      (execute s (0xc5 + 16 * p.val)).1.ram j = s.ram j) := by
  rw [execute_push]
  have e1 : decw s.sp = (s.sp + 65535) % 65536 := decw_eq _
  have e2 : decw (decw s.sp) = (s.sp + 65534) % 65536 := by
    unfold decw toWord; omega
  rw [e2, e1]
  dsimp only
  refine ⟨rfl, ?_, ?_, ?_, ?_⟩
  · simp
  · have : ((s.sp + 65534) % 65536 + 1) % 65536 = (s.sp + 65535) % 65536 := by omega
    rw [this]
    have : (s.sp + 65535) % 65536 ≠ (s.sp + 65534) % 65536 := by omega
    simp [this]
  · intro h; omega
  · intro j h1 h2; simp [h1, h2]

set_option maxRecDepth 100000 in
/-- The case `call i16`: the operand is read, then `call` pushes the `pc` reached. -/
theorem execute_call (s : Cpu) :
    execute s 0xcd =
      ({ s with pc := (s.ram s.pc ||| (s.ram (incw s.pc) <<< 8)) % 65536,
                sp := decw (decw s.sp),
                ram := fun j => if j = decw (decw s.sp) then (incw (incw s.pc) &&& 0xff) % 256
                                else if j = decw s.sp then (incw (incw s.pc) >>> 8) % 256
                                else s.ram j }, 1) := rfl

set_option maxRecDepth 100000 in
/-- The case `ret`. -/
theorem execute_ret (s : Cpu) :
    execute s 0xc9 =
      ({ s with pc := (s.ram s.sp ||| (s.ram (incw s.sp) <<< 8)) % 65536,
                sp := incw (incw s.sp) }, 1) := rfl

/-- C22: CALL i16 sets PC to the little-endian word at PC and (PC + 1) mod 65536, sets SP
to (SP - 2) mod 65536, stores the return address (PC + 2) mod 65536 with its low byte at
the new SP and its high byte at (new SP + 1) mod 65536, and changes no other cell; a RET
executed next sets PC to the return address and SP to its value before the CALL. -/
theorem C22_call_ret (s : Cpu) (h : WF s) :
    (execute s 0xcd).1.pc = s.ram s.pc + 256 * s.ram ((s.pc + 1) % 65536) ∧
    (execute s 0xcd).1.sp = (s.sp + 65534) % 65536 ∧
    (execute s 0xcd).1.ram (execute s 0xcd).1.sp = (s.pc + 2) % 65536 % 256 ∧
    (execute s 0xcd).1.ram (((execute s 0xcd).1.sp + 1) % 65536) = (s.pc + 2) % 65536 / 256 ∧
    (∀ j, j ≠ (s.sp + 65534) % 65536 → j ≠ (s.sp + 65535) % 65536 →
      (execute s 0xcd).1.ram j = s.ram j) ∧
    (execSeq [0xcd, 0xc9] s).pc = (s.pc + 2) % 65536 ∧
    (execSeq [0xcd, 0xc9] s).sp = s.sp := by
  have hsp := h.sp
  have hpc := h.pc
  have e1 : decw s.sp = (s.sp + 65535) % 65536 := decw_eq _
  have e2 : decw (decw s.sp) = (s.sp + 65534) % 65536 := by
    unfold decw toWord; omega
  have e3 : incw (incw s.pc) = (s.pc + 2) % 65536 := by unfold incw; omega
  have e4 : ((s.sp + 65534) % 65536 + 1) % 65536 = (s.sp + 65535) % 65536 := by omega
  have e5 : (s.sp + 65535) % 65536 ≠ (s.sp + 65534) % 65536 := by omega
  have e6 : ((s.sp + 65535) % 65536 + 1) % 65536 = s.sp := by omega
  have hlo := h.ram s.pc
  have hhi := h.ram ((s.pc + 1) % 65536)
  have e7 : (s.ram s.pc ||| (s.ram ((s.pc + 1) % 65536) <<< 8)) % 65536 =
      s.ram s.pc + 256 * s.ram ((s.pc + 1) % 65536) := by
    rw [Nat.lor_comm]
    have := pair_eq (s.ram ((s.pc + 1) % 65536)) (s.ram s.pc) hlo
    unfold pair at this
    rw [this]; omega
  have e8 : ((s.pc + 2) % 65536 % 256 ||| ((s.pc + 2) % 65536 / 256) <<< 8) % 65536 =
      (s.pc + 2) % 65536 := by
    rw [Nat.lor_comm]
    have := pair_eq ((s.pc + 2) % 65536 / 256) ((s.pc + 2) % 65536 % 256) (by omega)
    unfold pair at this
    rw [this]; omega
  simp only [execSeq]
  rw [execute_call, execute_ret, e2, e1, e3]
  dsimp only
  simp only [and_0xff, shr_8, incw, e4, e6]
  refine ⟨e7, by first | rfl | trivial, ?_, ?_, ?_, ?_, by first | rfl | trivial⟩
  · simp
  · simp only [e5, if_false, if_true]; omega
  · intro j h1 h2; simp [h1, h2]
  · simp only [e5, if_false, if_true]
    have a1 : (s.pc + 2) % 65536 % 256 % 256 = (s.pc + 2) % 65536 % 256 := by omega
    have a2 : (s.pc + 2) % 65536 / 256 % 256 = (s.pc + 2) % 65536 / 256 := by omega
    rw [a1, a2, e8]

/-! ## Conditional jumps, calls and returns -/

set_option maxRecDepth 100000 in
/-- The eight conditional jumps, calls and returns, by the field `k` of the opcode: each
case of the switch tests the slot that `condHolds` names. -/
theorem execute_cond (s : Cpu) (k : Fin 8) :
    execute s (0xc2 + 8 * k.val) = (jumpIf s (fun s => condHolds s k), 1) ∧
    execute s (0xc4 + 8 * k.val) = (callIf s (fun s => condHolds s k), 1) ∧
    execute s (0xc0 + 8 * k.val) = (retIf s (fun s => condHolds s k), 1) := by
  fin_cases k <;> exact ⟨rfl, rfl, rfl⟩

theorem condHolds_pc (s : Cpu) (k : Fin 8) (x : Nat) :
    condHolds { s with pc := x } k = condHolds s k := by
  fin_cases k <;> rfl

set_option maxRecDepth 100000 in
/-- The conditional bodies in terms of the unconditional cases of `execute`. -/
theorem cond_bodies (s : Cpu) (c : Cpu → Bool) :
    jumpIf s c = (if c { s with pc := incw (incw s.pc) } then (execute s 0xc3).1
                  else { s with pc := incw (incw s.pc) }) ∧
    callIf s c = (if c { s with pc := incw (incw s.pc) } then (execute s 0xcd).1
                  else { s with pc := incw (incw s.pc) }) ∧
    retIf s c = (if c s then (execute s 0xc9).1 else s) :=
  ⟨rfl, rfl, rfl⟩

set_option maxRecDepth 100000 in
/-- C23: for each condition NZ, Z, NC, C, PO, PE, P, M (field `k` of the opcode) and every
state, in particular every state with flags in {0,1}: when the condition holds the
conditional jump, call and return give exactly the result of JMP (0xc3), CALL (0xcd)
and RET (0xc9); when it does not hold the jump and the call only set PC to
(PC + 2) mod 65536 and the return changes nothing, so SP and memory are unchanged. -/
theorem C23_conditional (s : Cpu) (k : Fin 8) :
    execute s (0xc2 + 8 * k.val) =
      (if condHolds s k then execute s 0xc3 else ({ s with pc := (s.pc + 2) % 65536 }, 1)) ∧
    execute s (0xc4 + 8 * k.val) =
      (if condHolds s k then execute s 0xcd else ({ s with pc := (s.pc + 2) % 65536 }, 1)) ∧
    execute s (0xc0 + 8 * k.val) =
      (if condHolds s k then execute s 0xc9 else (s, 1)) := by
  have e : (incw (incw s.pc)) = (s.pc + 2) % 65536 := by unfold incw; omega
  have j : execute s 0xc3 = ((execute s 0xc3).1, 1) := rfl
  have c : execute s 0xcd = ((execute s 0xcd).1, 1) := rfl
  have r : execute s 0xc9 = ((execute s 0xc9).1, 1) := rfl
  obtain ⟨h1, h2, h3⟩ := execute_cond s k
  obtain ⟨b1, b2, b3⟩ := cond_bodies s (fun s => condHolds s k)
  rw [h1, h2, h3, b1, b2, b3, condHolds_pc, e]
  refine ⟨?_, ?_, ?_⟩ <;> split_ifs
  · exact j.symm
  · rfl
  · exact c.symm
  · rfl
  · exact r.symm
  · rfl

/-! ## XTHL and the bounds of `ram` -/

set_option maxRecDepth 100000 in
/-- The case `xthl`: the second cell is `ram[i80->sp + 1]`, an `int` index that is not
reduced modulo 65536. -/
theorem execute_xthl (s : Cpu) :
    execute s 0xe3 =
      ({ s with l := s.ram s.sp, h := s.ram (s.sp + 1),
                ram := fun j => if j = s.sp + 1 then (hl s >>> 8) &&& 0xff
                                else if j = s.sp then hl s &&& 0xff else s.ram j }, 1) := rfl

theorem hl_bytes (s : Cpu) (h : WF s) : (hl s >>> 8) &&& 0xff = s.h ∧ hl s &&& 0xff = s.l := by
  have a := h.h
  have b := h.l
  have := pair_eq s.h s.l b
  unfold pair at this
  unfold hl
  rw [this, and_0xff, and_0xff, shr_8]
  omega

/-- Below the top of the address space `xthl` exchanges `L` with `ram[SP]` and `H` with
`ram[SP + 1]`, changes no other cell and leaves `SP`; a second `xthl` restores the state. -/
theorem xthl_below (s : Cpu) (h : WF s) (hsp : s.sp < 0xffff) :
    (execute s 0xe3).1.sp = s.sp ∧
    (execute s 0xe3).1.l = s.ram s.sp ∧
    (execute s 0xe3).1.h = s.ram ((s.sp + 1) % 65536) ∧
    (execute s 0xe3).1.ram s.sp = s.l ∧
    (execute s 0xe3).1.ram ((s.sp + 1) % 65536) = s.h ∧
    (∀ j, j ≠ s.sp → j ≠ (s.sp + 1) % 65536 → (execute s 0xe3).1.ram j = s.ram j) ∧
    execSeq [0xe3, 0xe3] s = s := by
  obtain ⟨b1, b2⟩ := hl_bytes s h
  have e : (s.sp + 1) % 65536 = s.sp + 1 := by omega
  have w : WF (execute s 0xe3).1 := by
    rw [execute_xthl]
    constructor <;> try first | exact h.ram _ | (cases h; assumption)
    intro i; dsimp only; rw [b1, b2]; split_ifs
    · exact h.h
    · exact h.l
    · exact h.ram _
  obtain ⟨c1, c2⟩ := hl_bytes _ w
  simp only [execSeq]
  rw [execute_xthl] at c1 c2 ⊢
  rw [execute_xthl]
  dsimp only at c1 c2 ⊢
  rw [c1, c2, b1, b2, e]
  refine ⟨rfl, rfl, rfl, ?_, ?_, ?_, ?_⟩
  · simp
  · simp
  · intro j h1 h2; simp [h1, h2]
  · have : (fun j => if j = s.sp + 1 then s.ram (s.sp + 1) else if j = s.sp then s.ram s.sp
        else if j = s.sp + 1 then s.h else if j = s.sp then s.l else s.ram j) = s.ram := by
      funext j; split_ifs with h1 h2 <;> simp_all
    simp [this]

/-- C24, the divergence: at SP = 0xffff XTHL exchanges L with `ram[0xffff]`, but it
exchanges H with the cell of index 0x10000, which is past the end of the array, and
leaves the cell (SP + 1) mod 65536 = 0 as it was. -/
theorem C24_xthl_top (s : Cpu) (h : WF s) (hsp : s.sp = 0xffff) :
    (execute s 0xe3).1.sp = 0xffff ∧
    (execute s 0xe3).1.l = s.ram 0xffff ∧
    (execute s 0xe3).1.ram 0xffff = s.l ∧
    (execute s 0xe3).1.h = s.ram 0x10000 ∧
    (execute s 0xe3).1.ram 0x10000 = s.h ∧
    (execute s 0xe3).1.ram ((s.sp + 1) % 65536) = s.ram 0 := by
  obtain ⟨b1, b2⟩ := hl_bytes s h
  rw [execute_xthl]
  dsimp only
  rw [b1, b2, hsp]
  simp

/-- C25, the divergence: at SP = 0xffff the index SP + 1 that XTHL uses is not below the
size of `ram`; the cell of that index is written (it receives H) and read (the new H
is whatever the cell held). -/
theorem C25_xthl_index (s : Cpu) (h : WF s) (hsp : s.sp = 0xffff) :
    ¬ (s.sp + 1 < ramSize) ∧
    (execute s 0xe3).1.ram (s.sp + 1) = s.h ∧
    (∀ v, (execute (wr s (s.sp + 1) v) 0xe3).1.h = v) := by
  obtain ⟨b1, b2⟩ := hl_bytes s h
  refine ⟨by rw [hsp]; decide, ?_, ?_⟩
  · rw [execute_xthl]; dsimp only; rw [b1]; simp
  · intro v; rw [execute_xthl]; simp [wr]

/-! ## The opcode table -/

set_option maxRecDepth 100000 in
/-- The value returned by `execute`, for each of the 256 values of a `byte`. -/
theorem execute_ret_val (s : Cpu) (op : Nat) (h : op < 256) :
    (execute s op).2 = if op = 0x76 then 0 else 1 := by
  interval_cases op <;> rfl

/-- C27: for every state and each of the 256 opcode values `execute` gives a state and
a return value that is 0 or 1; the return value is 0 (Halted) if and only if the opcode
is 0x76, and for 0x76 the state is unchanged. -/
theorem C27_halt_only_on_hlt (s : Cpu) (op : Fin 256) :
    (∃ t r, execute s op.val = (t, r) ∧ (r = 0 ∨ r = 1)) ∧
    ((execute s op.val).2 = 0 ↔ op.val = 0x76) ∧
    execute s 0x76 = (s, 0) := by
  have h := execute_ret_val s op.val op.isLt
  refine ⟨⟨(execute s op.val).1, (execute s op.val).2, rfl, ?_⟩, ?_, rfl⟩
  · rw [h]; split_ifs <;> simp
  · rw [h]; split_ifs with h1 <;> simp [h1]

set_option maxRecDepth 100000 in
/-- C28: in the 8080 build 0x08, 0x10, 0x18, 0x20, 0x28, 0x30, 0x38 give the result of
NOP (0x00, the state unchanged), 0xd9 the result of RET (0xc9), 0xcb the result of JMP
(0xc3), and 0xdd, 0xed, 0xfd the result of CALL (0xcd); in the Z80 build 0xcb gives the
result of JMP and 0xdd, 0xed, 0xfd the result of CALL. -/
theorem C28_aliases (s : Cpu) (z : Z80.Cpu) :
    execute s 0x00 = (s, 1) ∧
    execute s 0x08 = execute s 0x00 ∧ execute s 0x10 = execute s 0x00 ∧
    execute s 0x18 = execute s 0x00 ∧ execute s 0x20 = execute s 0x00 ∧
    execute s 0x28 = execute s 0x00 ∧ execute s 0x30 = execute s 0x00 ∧
    execute s 0x38 = execute s 0x00 ∧
    execute s 0xd9 = execute s 0xc9 ∧ execute s 0xcb = execute s 0xc3 ∧
    execute s 0xdd = execute s 0xcd ∧ execute s 0xed = execute s 0xcd ∧
    execute s 0xfd = execute s 0xcd ∧
    Z80.execute z 0xcb = Z80.execute z 0xc3 ∧
    Z80.execute z 0xdd = Z80.execute z 0xcd ∧ Z80.execute z 0xed = Z80.execute z 0xcd ∧
    Z80.execute z 0xfd = Z80.execute z 0xcd :=
  ⟨rfl, rfl, rfl, rfl, rfl, rfl, rfl, rfl, rfl, rfl, rfl, rfl, rfl, rfl, rfl, rfl, rfl⟩

set_option maxRecDepth 100000 in
/-- C30: for destination `d` and source `r` among B, C, D, E, H, L, M, A, not both M,
opcode 0x40 + 8 d + r gives the state in which `d` holds the value `r` had (M is the
cell of `ram` at HL, read in the state before) and nothing else differs. -/
theorem C30_mov (s : Cpu) (d r : Fin 8) (h : ¬(d = 6 ∧ r = 6)) :
    execute s (0x40 + 8 * d.val + r.val) = (setOperand s d (operand s r), 1) ∧
    operand (execute s (0x40 + 8 * d.val + r.val)).1 d = operand s r := by
  have e : execute s (0x40 + 8 * d.val + r.val) = (setOperand s d (operand s r), 1) := by
    fin_cases d <;> fin_cases r <;> first | rfl | (exact absurd ⟨rfl, rfl⟩ h)
  rw [e]
  exact ⟨rfl, operand_setOperand s d (operand s r)⟩

/-! ## The cells past the end of `ram`

`mask s f` overwrites the cells that are not part of the array.  Every helper of
`execute` commutes with `mask`, and so does every case of `execute` whose indices are
words; the exception is the `int` index `sp + 1` of `xthl`. -/

theorem decw_lt (x : Nat) : decw x < 65536 := by unfold decw toWord; omega

theorem incw_lt (x : Nat) : incw x < 65536 := by unfold incw; omega

theorem hl_lt (s : Cpu) : hl s < 65536 := by unfold hl; omega

theorem word_lt (x : Nat) : x % 65536 < 65536 := Nat.mod_lt _ (by decide)

theorem mask_ram (s : Cpu) (f : Nat → Nat) (i : Nat) (hi : i < 65536) :
    (mask s f).ram i = s.ram i := by
  unfold mask ramSize; dsimp only; rw [if_pos hi]

theorem mask_mk (a b c d e h l f0 fs fz fzero fac fzerox fp fone fcy sp pc inte : Nat)
    (inout : Nat → Nat) (port : Int) (s : Cpu) (f : Nat → Nat) :
    Cpu.mk a b c d e h l f0 fs fz fzero fac fzerox fp fone fcy sp pc inte (mask s f).ram
      inout port =
    mask (Cpu.mk a b c d e h l f0 fs fz fzero fac fzerox fp fone fcy sp pc inte s.ram
      inout port) f := rfl

theorem mask_ite (c : Prop) [Decidable c] (a b : Cpu) (f : Nat → Nat) :
    (if c then mask a f else mask b f) = mask (if c then a else b) f := by
  split_ifs <;> rfl

theorem mask_wr (s : Cpu) (f : Nat → Nat) (i v : Nat) (hi : i < 65536) :
    wr (mask s f) i v = mask (wr s i v) f := by
  unfold wr mask ramSize
  dsimp only
  congr 1
  funext j
  by_cases h1 : j = i
  · subst h1; simp [hi]
  · simp [h1]

theorem mask_flags (s : Cpu) (f : Nat → Nat) (x : Nat) :
    flags (mask s f) x = mask (flags s x) f := by
  unfold flags; dsimp only [mask]; split_ifs <;> rfl

theorem mask_carryflag (s : Cpu) (f : Nat → Nat) (a b c d : Nat) :
    carryflag (mask s f) a b c d = mask (carryflag s a b c d) f := by
  unfold carryflag; dsimp only [mask]; split_ifs <;> rfl

theorem mask_proj (s : Cpu) (f : Nat → Nat) :
    (mask s f).a = s.a ∧ (mask s f).b = s.b ∧ (mask s f).c = s.c ∧ (mask s f).d = s.d ∧
    (mask s f).e = s.e ∧ (mask s f).h = s.h ∧ (mask s f).l = s.l ∧ (mask s f).f = s.f ∧
    (mask s f).fs = s.fs ∧ (mask s f).fz = s.fz ∧ (mask s f).fzero = s.fzero ∧
    (mask s f).fac = s.fac ∧ (mask s f).fzerox = s.fzerox ∧ (mask s f).fp = s.fp ∧
    (mask s f).fone = s.fone ∧ (mask s f).fcy = s.fcy ∧ (mask s f).sp = s.sp ∧
    (mask s f).pc = s.pc ∧ (mask s f).inte = s.inte ∧ (mask s f).inout = s.inout ∧
    (mask s f).port = s.port :=
  ⟨rfl, rfl, rfl, rfl, rfl, rfl, rfl, rfl, rfl, rfl, rfl, rfl, rfl, rfl, rfl, rfl, rfl, rfl,
   rfl, rfl, rfl⟩

theorem mask_hl (s : Cpu) (f : Nat → Nat) : hl (mask s f) = hl s := rfl

theorem mask_alu (s : Cpu) (f : Nat → Nat) (x : Nat) :
    add (mask s f) x = mask (add s x) f ∧ adc (mask s f) x = mask (adc s x) f ∧
    sub (mask s f) x = mask (sub s x) f ∧ sbb (mask s f) x = mask (sbb s x) f ∧
    ana (mask s f) x = mask (ana s x) f ∧ xra (mask s f) x = mask (xra s x) f ∧
    ora (mask s f) x = mask (ora s x) f ∧ cmp (mask s f) x = mask (cmp s x) f ∧
    inrTail (mask s f) x = mask (inrTail s x) f ∧
    dcrTail (mask s f) x = mask (dcrTail s x) f := by
  refine ⟨?_, ?_, ?_, ?_, ?_, ?_, ?_, ?_, ?_, ?_⟩
  · simp only [add, mask_proj, mask_carryflag, mask_mk, mask_flags]
  · simp only [adc, mask_proj, mask_carryflag, mask_mk, mask_flags]
  · simp only [sub, mask_proj, mask_carryflag, mask_mk, mask_flags]
  · simp only [sbb, mask_proj, mask_carryflag, mask_mk, mask_flags]
  · simp only [ana, mask_proj, mask_mk, mask_flags]
  · simp only [xra, mask_proj, mask_mk, mask_flags]
  · simp only [ora, mask_proj, mask_mk, mask_flags]
  · simp only [cmp, mask_proj, mask_carryflag, mask_mk, mask_flags]
  · simp only [inrTail, mask_proj, mask_mk, mask_flags, mask_ite]
  · simp only [dcrTail, mask_proj, mask_mk, mask_flags, mask_ite]

theorem mask_dad (s : Cpu) (f : Nat → Nat) (x y : Nat) :
    dad (mask s f) x y = mask (dad s x y) f := by
  simp only [dad, mask_proj, mask_mk, mask_ite]

theorem mask_daa (s : Cpu) (f : Nat → Nat) : daa (mask s f) = mask (daa s) f := by
  simp only [daa, mask_proj, mask_mk, mask_flags, mask_ite]

theorem mask_call (s : Cpu) (f : Nat → Nat) : call (mask s f) = mask (call s) f := by
  simp only [call, mask_proj, mask_mk, mask_wr, decw_lt]

theorem mask_rst (s : Cpu) (f : Nat → Nat) (t : Nat) : rst (mask s f) t = mask (rst s t) f := by
  simp only [rst, mask_call, mask_proj, mask_mk]

theorem mask_ret (s : Cpu) (f : Nat → Nat) (hsp : s.sp < 65536) :
    ret (mask s f) = mask (ret s) f := by
  simp only [ret, mask_proj, mask_mk, mask_ram, hsp, incw_lt]

theorem mask_retIf (s : Cpu) (f : Nat → Nat) (c : Cpu → Bool) (hsp : s.sp < 65536)
    (hc : ∀ t, c (mask t f) = c t) : retIf (mask s f) c = mask (retIf s c) f := by
  simp only [retIf, hc, mask_ret s f hsp, mask_ite]

theorem mask_jumpIf (s : Cpu) (f : Nat → Nat) (c : Cpu → Bool) (hpc : s.pc < 65536)
    (hc : ∀ t, c (mask t f) = c t) : jumpIf (mask s f) c = mask (jumpIf s c) f := by
  simp only [jumpIf, fetch16, fetch, mask_proj, mask_mk, mask_ram, hpc, incw_lt, hc, mask_ite]

theorem mask_callIf (s : Cpu) (f : Nat → Nat) (c : Cpu → Bool) (hpc : s.pc < 65536)
    (hc : ∀ t, c (mask t f) = c t) : callIf (mask s f) c = mask (callIf s c) f := by
  simp only [callIf, fetch16, fetch, mask_proj, mask_mk, mask_ram, hpc, incw_lt, hc, mask_ite,
    mask_call]

theorem mask_retIf_flag (s : Cpu) (f : Nat → Nat) (n : Nat) (hsp : s.sp < 65536) :
    retIf (mask s f) (fun s => decide (s.fz = n)) =
      mask (retIf s (fun s => decide (s.fz = n))) f ∧
    retIf (mask s f) (fun s => decide (s.fcy = n)) =
      mask (retIf s (fun s => decide (s.fcy = n))) f ∧
    retIf (mask s f) (fun s => decide (s.fp = n)) =
      mask (retIf s (fun s => decide (s.fp = n))) f ∧
    retIf (mask s f) (fun s => decide (s.fs = n)) =
      mask (retIf s (fun s => decide (s.fs = n))) f :=
  ⟨mask_retIf s f _ hsp (fun _ => rfl), mask_retIf s f _ hsp (fun _ => rfl),
   mask_retIf s f _ hsp (fun _ => rfl), mask_retIf s f _ hsp (fun _ => rfl)⟩

theorem mask_jumpIf_flag (s : Cpu) (f : Nat → Nat) (n : Nat) (hpc : s.pc < 65536) :
    jumpIf (mask s f) (fun s => decide (s.fz = n)) =
      mask (jumpIf s (fun s => decide (s.fz = n))) f ∧
    jumpIf (mask s f) (fun s => decide (s.fcy = n)) =
      mask (jumpIf s (fun s => decide (s.fcy = n))) f ∧
    jumpIf (mask s f) (fun s => decide (s.fp = n)) =
      mask (jumpIf s (fun s => decide (s.fp = n))) f ∧
    jumpIf (mask s f) (fun s => decide (s.fs = n)) =
      mask (jumpIf s (fun s => decide (s.fs = n))) f :=
  ⟨mask_jumpIf s f _ hpc (fun _ => rfl), mask_jumpIf s f _ hpc (fun _ => rfl),
   mask_jumpIf s f _ hpc (fun _ => rfl), mask_jumpIf s f _ hpc (fun _ => rfl)⟩

theorem mask_callIf_flag (s : Cpu) (f : Nat → Nat) (n : Nat) (hpc : s.pc < 65536) :
    callIf (mask s f) (fun s => decide (s.fz = n)) =
      mask (callIf s (fun s => decide (s.fz = n))) f ∧
    callIf (mask s f) (fun s => decide (s.fcy = n)) =
      mask (callIf s (fun s => decide (s.fcy = n))) f ∧
    callIf (mask s f) (fun s => decide (s.fp = n)) =
      mask (callIf s (fun s => decide (s.fp = n))) f ∧
    callIf (mask s f) (fun s => decide (s.fs = n)) =
      mask (callIf s (fun s => decide (s.fs = n))) f :=
  ⟨mask_callIf s f _ hpc (fun _ => rfl), mask_callIf s f _ hpc (fun _ => rfl),
   mask_callIf s f _ hpc (fun _ => rfl), mask_callIf s f _ hpc (fun _ => rfl)⟩

theorem mask_self (s : Cpu) : mask s s.ram = s := by
  unfold mask
  have : (fun j => if j < ramSize then s.ram j else s.ram j) = s.ram := by
    funext j; split_ifs <;> rfl
  rw [this]

set_option maxRecDepth 100000 in
set_option maxHeartbeats 4000000 in
/-- The cells of index `ramSize` and above are neither read nor written by any case of
`execute` other than `xthl` at `SP = 0xffff`: replacing their contents by arbitrary
values `f` before the call gives the same state with the same replacement, and the same
returned value. -/
theorem execute_within_ram (s : Cpu) (h : WF s) (f : Nat → Nat) (op : Nat) (hop : op < 256)
    (hx : op = 0xe3 → s.sp < 0xffff) :
    execute (mask s f) op = (mask (execute s op).1 f, (execute s op).2) := by
  have hbc : pair s.b s.c < 65536 := by
    have := pair_eq s.b s.c h.c; have := h.b; have := h.c; omega
  have hde : pair s.d s.e < 65536 := by
    have := pair_eq s.d s.e h.e; have := h.d; have := h.e; omega
  have hsp := h.sp
  have hpc := h.pc
  have r1 := execute_ret_val (mask s f) op hop
  have r2 := execute_ret_val s op hop
  refine Prod.ext ?_ (r1.trans r2.symm)
  show (execute (mask s f) op).1 = mask (execute s op).1 f
  by_cases he : op = 0xe3
  · have hsp1 : s.sp + 1 < 65536 := by have := hx he; omega
    subst he
    rw [execute_xthl, execute_xthl]
    dsimp only
    simp only [mask_proj, mask_hl, mask_ram _ _ _ hsp, mask_ram _ _ _ hsp1]
    unfold mask ramSize
    dsimp only
    congr 1
    funext j
    by_cases h1 : j = s.sp + 1
    · subst h1; simp [hsp1]
    · by_cases h2 : j = s.sp
      · subst h2; simp [hsp]
      · simp [h1, h2]
  by_cases hp : op = 0xf5
  · have d1 := decw_lt s.sp
    have d2 := decw_lt (decw s.sp)
    subst hp
    rw [execute_push_psw, execute_push_psw]
    dsimp only
    simp only [mask_proj]
    unfold mask ramSize
    dsimp only
    congr 1
    funext j
    by_cases h1 : j = decw (decw s.sp)
    · rw [h1]; simp [d2]
    · by_cases h2 : j = decw s.sp
      · rw [h2]; simp [d1, stack_addrs s.sp hsp]
      · simp [h1, h2]
  interval_cases op <;>
    first | exact absurd rfl he | exact absurd rfl hp | conv => lhs; arg 1; whnf
  all_goals first
    | rfl
    | (simp only [mask_proj, mask_hl, mask_ram, mask_mk, mask_ite, mask_wr, mask_flags,
        mask_carryflag, mask_alu, mask_dad, mask_daa, mask_call, mask_rst, mask_ret,
        mask_retIf_flag, mask_jumpIf_flag, mask_callIf_flag, hbc, hde, hsp, hpc, decw_lt,
        incw_lt, hl_lt, word_lt]; rfl)

/-- No case of `execute` other than `xthl` at `SP = 0xffff` changes a cell of index
`ramSize` or above. -/
theorem execute_ram_frame (s : Cpu) (h : WF s) (op : Nat) (hop : op < 256)
    (hx : op = 0xe3 → s.sp < 0xffff) (j : Nat) (hj : ramSize ≤ j) :
    (execute s op).1.ram j = s.ram j := by
  have e := congrArg (fun p => p.1.ram j) (execute_within_ram s h s.ram op hop hx)
  rw [mask_self] at e
  dsimp only at e
  rw [e]
  unfold mask
  dsimp only
  rw [if_neg (by omega)]

/-- C21 at SP = 1, BC = 0x1234: the new SP is 0xffff, the low byte 0x34 is at 0xffff and
the high byte 0x12 at 0x0000. -/
theorem C21_push_low_byte_at_sp_witness :
    (regs 0x1234 0 0 1 0 0 0 0 0 0).sp < 65536 ∧
    ((execute (regs 0x1234 0 0 1 0 0 0 0 0 0) (0xc5 + 16 * (0 : Fin 3).val)).1.sp : Int)
      = 0xffff ∧
    (execute (regs 0x1234 0 0 1 0 0 0 0 0 0) (0xc5 + 16 * (0 : Fin 3).val)).1.ram 0xffff
      = 0x34 ∧
    (execute (regs 0x1234 0 0 1 0 0 0 0 0 0) (0xc5 + 16 * (0 : Fin 3).val)).1.ram 0
      = 0x12 :=
  ⟨by decide,
   (congrArg Int.ofNat
     (C21_push_low_byte_at_sp (regs 0x1234 0 0 1 0 0 0 0 0 0) 0 (by decide)).1).trans
     (by decide),
   (C21_push_low_byte_at_sp (regs 0x1234 0 0 1 0 0 0 0 0 0) 0 (by decide)).2.1,
   (C21_push_low_byte_at_sp (regs 0x1234 0 0 1 0 0 0 0 0 0) 0 (by decide)).2.2.1⟩

/-- C22 at PC = 0x0100, SP = 0 with the operand bytes 0x34, 0x12: PC becomes 0x1234,
SP 0xfffe, the return address 0x0102 is stored as 0x02 at 0xfffe and 0x01 at 0xffff, and
RET gives PC = 0x0102, SP = 0. -/
theorem C22_call_ret_witness :
    WF (operands 0x100 0 0 0x34 0x12) ∧
    (execute (operands 0x100 0 0 0x34 0x12) 0xcd).1.pc = 0x1234 ∧
    ((execute (operands 0x100 0 0 0x34 0x12) 0xcd).1.sp : Int) = 0xfffe ∧
    (execute (operands 0x100 0 0 0x34 0x12) 0xcd).1.ram 0xfffe = 0x02 ∧
    (execute (operands 0x100 0 0 0x34 0x12) 0xcd).1.ram 0xffff = 0x01 ∧
    (execSeq [0xcd, 0xc9] (operands 0x100 0 0 0x34 0x12)).pc = 0x0102 ∧
    (execSeq [0xcd, 0xc9] (operands 0x100 0 0 0x34 0x12)).sp = 0 :=
  ⟨wf_operands 0x100 0 0 0x34 0x12 (by decide) (by decide) (by decide) (by decide) (by decide),
   (C22_call_ret (operands 0x100 0 0 0x34 0x12)
     (wf_operands 0x100 0 0 0x34 0x12 (by decide) (by decide) (by decide) (by decide)
       (by decide))).1.trans (by decide),
   (congrArg Int.ofNat (C22_call_ret (operands 0x100 0 0 0x34 0x12)
     (wf_operands 0x100 0 0 0x34 0x12 (by decide) (by decide) (by decide) (by decide)
       (by decide))).2.1).trans (by decide),
   (C22_call_ret (operands 0x100 0 0 0x34 0x12)
     (wf_operands 0x100 0 0 0x34 0x12 (by decide) (by decide) (by decide) (by decide)
       (by decide))).2.2.1.trans (by decide),
   (C22_call_ret (operands 0x100 0 0 0x34 0x12)
     (wf_operands 0x100 0 0 0x34 0x12 (by decide) (by decide) (by decide) (by decide)
       (by decide))).2.2.2.1.trans (by decide),
   (C22_call_ret (operands 0x100 0 0 0x34 0x12)
     (wf_operands 0x100 0 0 0x34 0x12 (by decide) (by decide) (by decide) (by decide)
       (by decide))).2.2.2.2.2.1.trans (by decide),
   (C22_call_ret (operands 0x100 0 0 0x34 0x12)
     (wf_operands 0x100 0 0 0x34 0x12 (by decide) (by decide) (by decide) (by decide)
       (by decide))).2.2.2.2.2.2⟩

/-- C24 at SP = 0xffff, HL = 0x1234, with 0xaa in cell 0xffff and 0xbb in cell 0x10000:
L becomes 0xaa, H becomes 0xbb, cell 0x10000 receives 0x12 and cell 0 stays 0. -/
theorem C24_xthl_top_witness :
    WF (operands 0xffff 0xffff 0x1234 0xaa 0xbb) ∧
    (operands 0xffff 0xffff 0x1234 0xaa 0xbb).sp = 0xffff ∧
    (execute (operands 0xffff 0xffff 0x1234 0xaa 0xbb) 0xe3).1.l = 0xaa ∧
    (execute (operands 0xffff 0xffff 0x1234 0xaa 0xbb) 0xe3).1.h = 0xbb ∧
    (execute (operands 0xffff 0xffff 0x1234 0xaa 0xbb) 0xe3).1.ram 0x10000 = 0x12 ∧
    (execute (operands 0xffff 0xffff 0x1234 0xaa 0xbb) 0xe3).1.ram 0 = 0 :=
  ⟨wf_operands 0xffff 0xffff 0x1234 0xaa 0xbb (by decide) (by decide) (by decide) (by decide)
     (by decide),
   rfl,
   (C24_xthl_top (operands 0xffff 0xffff 0x1234 0xaa 0xbb)
     (wf_operands 0xffff 0xffff 0x1234 0xaa 0xbb (by decide) (by decide) (by decide)
       (by decide) (by decide)) rfl).2.1.trans (by decide),
   (C24_xthl_top (operands 0xffff 0xffff 0x1234 0xaa 0xbb)
     (wf_operands 0xffff 0xffff 0x1234 0xaa 0xbb (by decide) (by decide) (by decide)
       (by decide) (by decide)) rfl).2.2.2.1.trans (by decide),
   (C24_xthl_top (operands 0xffff 0xffff 0x1234 0xaa 0xbb)
     (wf_operands 0xffff 0xffff 0x1234 0xaa 0xbb (by decide) (by decide) (by decide)
       (by decide) (by decide)) rfl).2.2.2.2.1.trans (by decide),
   (C24_xthl_top (operands 0xffff 0xffff 0x1234 0xaa 0xbb)
     (wf_operands 0xffff 0xffff 0x1234 0xaa 0xbb (by decide) (by decide) (by decide)
       (by decide) (by decide)) rfl).2.2.2.2.2.trans (by decide)⟩

/-- C25 at SP = 0xffff, HL = 0x5600: the index SP + 1 = 0x10000 is not below `ramSize`,
and the cell 0x10000 receives 0x56. -/
theorem C25_xthl_index_witness :
    WF (operands 0 0xffff 0x5600 0 0) ∧ (operands 0 0xffff 0x5600 0 0).sp = 0xffff ∧
    ¬ (0x10000 < ramSize) ∧
    (execute (operands 0 0xffff 0x5600 0 0) 0xe3).1.ram 0x10000 = 0x56 ∧
    (operands 0 0xffff 0x5600 0 0).ram 0x10000 = 0 :=
  ⟨wf_operands 0 0xffff 0x5600 0 0 (by decide) (by decide) (by decide) (by decide)
     (by decide),
   rfl,
   (C25_xthl_index (operands 0 0xffff 0x5600 0 0)
     (wf_operands 0 0xffff 0x5600 0 0 (by decide) (by decide) (by decide) (by decide)
       (by decide)) rfl).1,
   (C25_xthl_index (operands 0 0xffff 0x5600 0 0)
     (wf_operands 0 0xffff 0x5600 0 0 (by decide) (by decide) (by decide) (by decide)
       (by decide)) rfl).2.1.trans (by decide),
   by decide⟩

/-- C30 at MOV M,B (0x70) with B = 0x12, HL = 0x2000, and at MOV B,M (0x46). -/
theorem C30_mov_witness :
    ¬ ((6 : Fin 8) = 6 ∧ (0 : Fin 8) = 6) ∧
    (execute (regs 0x1200 0 0x2000 0 0 0 0 0 0 0) (0x40 + 8 * (6 : Fin 8).val +
      (0 : Fin 8).val)).1.ram 0x2000 = 0x12 ∧
    ¬ ((0 : Fin 8) = 6 ∧ (6 : Fin 8) = 6) ∧
    (execute (operands 0x2000 0 0x2000 0x34 0) (0x40 + 8 * (0 : Fin 8).val +
      (6 : Fin 8).val)).1.b = 0x34 :=
  ⟨by decide,
   (C30_mov (regs 0x1200 0 0x2000 0 0 0 0 0 0 0) 6 0 (by decide)).2.trans (by decide),
   by decide,
   (C30_mov (operands 0x2000 0 0x2000 0x34 0) 0 6 (by decide)).2.trans (by decide)⟩

/-! ## The length of the instructions -/

theorem flags_pc (s : Cpu) (x : Nat) : (flags s x).pc = s.pc := by
  unfold flags; dsimp only; split_ifs <;> rfl

theorem carryflag_pc (s : Cpu) (a b c d : Nat) : (carryflag s a b c d).pc = s.pc := by
  unfold carryflag; dsimp only; split_ifs <;> rfl

theorem alu_pc (s : Cpu) (x : Nat) :
    (add s x).pc = s.pc ∧ (adc s x).pc = s.pc ∧ (sub s x).pc = s.pc ∧
    (sbb s x).pc = s.pc ∧ (ana s x).pc = s.pc ∧ (xra s x).pc = s.pc ∧
    (ora s x).pc = s.pc ∧ (cmp s x).pc = s.pc ∧ (inrTail s x).pc = s.pc ∧
    (dcrTail s x).pc = s.pc := by
  refine ⟨?_, ?_, ?_, ?_, ?_, ?_, ?_, ?_, ?_, ?_⟩
  · simp only [add, flags_pc, carryflag_pc]
  · simp only [adc, flags_pc, carryflag_pc]
  · simp only [sub, flags_pc, carryflag_pc]
  · simp only [sbb, flags_pc, carryflag_pc]
  · simp only [ana, flags_pc]
  · simp only [xra, flags_pc]
  · simp only [ora, flags_pc]
  · simp only [cmp, flags_pc, carryflag_pc]
  · unfold inrTail; dsimp only; rw [flags_pc]; split_ifs <;> rfl
  · unfold dcrTail; dsimp only; rw [flags_pc]; split_ifs <;> rfl

theorem dad_pc (s : Cpu) (x y : Nat) : (dad s x y).pc = s.pc := by
  unfold dad; dsimp only; split_ifs <;> rfl

theorem daa_pc (s : Cpu) : (daa s).pc = s.pc := by
  unfold daa; dsimp only; rw [flags_pc]; split_ifs <;> rfl

theorem wr_pc (s : Cpu) (i v : Nat) : (wr s i v).pc = s.pc ∧ (wrOr s i v).pc = s.pc :=
  ⟨rfl, rfl⟩

theorem ite_pc (c : Prop) [Decidable c] (a b : Cpu) :
    (if c then a else b).pc = if c then a.pc else b.pc := by
  split_ifs <;> rfl

/-! ## The invariant of the flag slots -/

theorem inv_mk (a b c d e h l f fs fz fzero fac fzerox fp fone fcy sp pc inte : Nat)
    (ram inout : Nat → Nat) (port : Int) :
    FlagInv (Cpu.mk a b c d e h l f fs fz fzero fac fzerox fp fone fcy sp pc inte ram inout
      port) ↔
    (fs ≤ 1 ∧ fz ≤ 1 ∧ fac ≤ 1 ∧ fp ≤ 1 ∧ fcy ≤ 1) ∧ (fzero = 0 ∧ fzerox = 0 ∧ fone = 1) :=
  Iff.rfl

theorem lnot_le (x : Nat) : lnot x ≤ 1 := by unfold lnot; split_ifs <;> omega

theorem parity_le (x : Nat) : parity x ≤ 1 := by unfold parity; exact lnot_le _

theorem and1_le (x : Nat) : x &&& 0x1 ≤ 1 := by rw [and_0x1]; omega

theorem inv_ite (c : Prop) [Decidable c] (a b : Cpu) (ha : FlagInv a) (hb : FlagInv b) :
    FlagInv (if c then a else b) := by
  split_ifs <;> assumption

theorem inv_flags (s : Cpu) (x : Nat) (h3 : s.fac ≤ 1) (h5 : s.fcy ≤ 1) :
    FlagInv (flags s x) := by
  have := parity_le x
  unfold flags FlagInv FlagBits Reserved; dsimp only; split_ifs <;> simp_all

theorem inv_carryflag (s : Cpu) (a b c d : Nat) (h : FlagInv s) :
    FlagInv (carryflag s a b c d) := by
  obtain ⟨⟨h1, h2, h3, h4, h5⟩, ⟨h6, h7, h8⟩⟩ := h
  unfold carryflag FlagInv FlagBits Reserved lnot; dsimp only; split_ifs <;> simp_all

theorem carryflag_bits (s : Cpu) (a b c d : Nat) :
    (carryflag s a b c d).fac ≤ 1 ∧ (carryflag s a b c d).fcy ≤ 1 := by
  unfold carryflag lnot; dsimp only; split_ifs <;> simp_all

theorem inv_alu (s : Cpu) (x : Nat) (h : FlagInv s) :
    FlagInv (add s x) ∧ FlagInv (adc s x) ∧ FlagInv (sub s x) ∧ FlagInv (sbb s x) ∧
    FlagInv (ana s x) ∧ FlagInv (xra s x) ∧ FlagInv (ora s x) ∧ FlagInv (cmp s x) ∧
    FlagInv (inrTail s x) ∧ FlagInv (dcrTail s x) := by
  obtain ⟨⟨h1, h2, h3, h4, h5⟩, ⟨h6, h7, h8⟩⟩ := h
  refine ⟨?_, ?_, ?_, ?_, ?_, ?_, ?_, ?_, ?_, ?_⟩
  · exact inv_flags _ _ (carryflag_bits _ _ _ _ _).1 (carryflag_bits _ _ _ _ _).2
  · exact inv_flags _ _ (carryflag_bits _ _ _ _ _).1 (carryflag_bits _ _ _ _ _).2
  · exact inv_flags _ _ (carryflag_bits _ _ _ _ _).1 (carryflag_bits _ _ _ _ _).2
  · exact inv_flags _ _ (carryflag_bits _ _ _ _ _).1 (carryflag_bits _ _ _ _ _).2
  · have := inv_flags { s with a := s.a &&& x } (s.a &&& x) h3 h5
    obtain ⟨⟨g1, g2, g3, g4, g5⟩, ⟨g6, g7, g8⟩⟩ := this
    exact ⟨⟨g1, g2, Nat.zero_le _, g4, Nat.zero_le _⟩, ⟨g6, g7, g8⟩⟩
  · have := inv_flags { s with a := s.a ^^^ x } (s.a ^^^ x) h3 h5
    obtain ⟨⟨g1, g2, g3, g4, g5⟩, ⟨g6, g7, g8⟩⟩ := this
    exact ⟨⟨g1, g2, Nat.zero_le _, g4, Nat.zero_le _⟩, ⟨g6, g7, g8⟩⟩
  · have := inv_flags { s with a := s.a ||| x } (s.a ||| x) h3 h5
    obtain ⟨⟨g1, g2, g3, g4, g5⟩, ⟨g6, g7, g8⟩⟩ := this
    exact ⟨⟨g1, g2, Nat.zero_le _, g4, Nat.zero_le _⟩, ⟨g6, g7, g8⟩⟩
  · exact inv_flags _ _ (carryflag_bits _ _ _ _ _).1 (carryflag_bits _ _ _ _ _).2
  · unfold inrTail; dsimp only; apply inv_flags <;> split_ifs <;> simp_all
  · unfold dcrTail; dsimp only; apply inv_flags <;> split_ifs <;> simp_all

theorem inv_dad (s : Cpu) (x y : Nat) (h : FlagInv s) : FlagInv (dad s x y) := by
  obtain ⟨⟨h1, h2, h3, h4, h5⟩, ⟨h6, h7, h8⟩⟩ := h
  unfold dad FlagInv FlagBits Reserved; dsimp only; split_ifs <;> simp_all

theorem inv_daa (s : Cpu) (h : FlagInv s) : FlagInv (daa s) := by
  obtain ⟨⟨h1, h2, h3, h4, h5⟩, ⟨h6, h7, h8⟩⟩ := h
  unfold daa; dsimp only
  apply inv_flags <;> split_ifs <;> simp_all

theorem inv_wr (s : Cpu) (i v : Nat) :
    (FlagInv (wr s i v) ↔ FlagInv s) ∧ (FlagInv (wrOr s i v) ↔ FlagInv s) :=
  ⟨Iff.rfl, Iff.rfl⟩

theorem inv_call (s : Cpu) : (FlagInv (call s) ↔ FlagInv s) ∧ (FlagInv (ret s) ↔ FlagInv s) :=
  ⟨Iff.rfl, Iff.rfl⟩

theorem inv_rst (s : Cpu) (t : Nat) : FlagInv (rst s t) ↔ FlagInv s := Iff.rfl

theorem inv_cond (s : Cpu) (c : Cpu → Bool) (h : FlagInv s) :
    FlagInv (jumpIf s c) ∧ FlagInv (callIf s c) ∧ FlagInv (retIf s c) := by
  refine ⟨?_, ?_, ?_⟩
  · unfold jumpIf fetch16 fetch; dsimp only; split_ifs <;> exact h
  · unfold callIf fetch16 fetch; dsimp only; split_ifs <;> exact h
  · unfold retIf; split_ifs <;> exact h

theorem proj_ite (c : Prop) [Decidable c] (a b : Cpu) :
    (if c then a else b).fs = (if c then a.fs else b.fs) ∧
    (if c then a else b).fz = (if c then a.fz else b.fz) ∧
    (if c then a else b).fzero = (if c then a.fzero else b.fzero) ∧
    (if c then a else b).fac = (if c then a.fac else b.fac) ∧
    (if c then a else b).fzerox = (if c then a.fzerox else b.fzerox) ∧
    (if c then a else b).fp = (if c then a.fp else b.fp) ∧
    (if c then a else b).fone = (if c then a.fone else b.fone) ∧
    (if c then a else b).fcy = (if c then a.fcy else b.fcy) := by
  split_ifs <;> exact ⟨rfl, rfl, rfl, rfl, rfl, rfl, rfl, rfl⟩

theorem bit_ite (c : Prop) [Decidable c] : (if c then 1 else 0 : Nat) ≤ 1 := by
  split_ifs <;> omega

theorem call_proj (s : Cpu) :
    (call s).fs = s.fs ∧ (call s).fz = s.fz ∧ (call s).fzero = s.fzero ∧
    (call s).fac = s.fac ∧ (call s).fzerox = s.fzerox ∧ (call s).fp = s.fp ∧
    (call s).fone = s.fone ∧ (call s).fcy = s.fcy :=
  ⟨rfl, rfl, rfl, rfl, rfl, rfl, rfl, rfl⟩

set_option maxRecDepth 100000 in
set_option maxHeartbeats 4000000 in
theorem inv_execute_byte (s : Cpu) (h : FlagInv s) (op : Nat) (hop : op < 256) :
    FlagInv (execute s op).1 := by
  obtain ⟨⟨h1, h2, h3, h4, h5⟩, ⟨h6, h7, h8⟩⟩ := id h
  by_cases hp : op = 0xf5
  · subst hp; rw [execute_push_psw]; exact h
  interval_cases op <;> first | exact absurd rfl hp | conv => arg 1; arg 1; whnf
  all_goals first
    | exact h
    | (simp only [inv_mk, inv_ite, inv_flags, inv_carryflag, inv_alu, inv_dad, inv_daa, inv_wr,
        inv_call, inv_rst, inv_cond, proj_ite, call_proj, bit_ite, lnot_le, and1_le, h, h1, h2,
        h3, h4, h5, h6, h7, h8, ite_self, and_self, le_refl, zero_le])

set_option maxRecDepth 100000 in
set_option maxHeartbeats 4000000 in
theorem execute_default (s : Cpu) (op : Nat) (hop : 256 ≤ op) : execute s op = (s, 1) := by
  unfold execute
  simp (disch := omega) only [if_neg]

theorem inv_execute (s : Cpu) (h : FlagInv s) (op : Nat) : FlagInv (execute s op).1 := by
  by_cases hop : op < 256
  · exact inv_execute_byte s h op hop
  · rw [execute_default s op (by omega)]; exact h

theorem flagsOf_inv (s t : Cpu) (h : flagsOf t = flagsOf s) : FlagInv t ↔ FlagInv s := by
  unfold flagsOf at h
  simp only [Prod.mk.injEq] at h
  obtain ⟨a1, a2, a3, a4, a5, a6, a7, a8⟩ := h
  unfold FlagInv FlagBits Reserved
  rw [a1, a2, a3, a4, a5, a6, a7, a8]

theorem readstr_flags : ∀ (inp : List Nat) (s : Cpu) (addr save size : Nat) (out : List Nat),
    flagsOf (readstr inp s addr save size out).2.1 = flagsOf s
  | [], _, _, _, _, _ => rfl
  | x :: rest, s, addr, save, size, out => by
    unfold readstr
    dsimp only
    split_ifs <;> first | rfl | exact readstr_flags rest _ _ _ _ _

theorem bdos_flags (w : Sys) : flagsOf (bdos w).sys.cpu = flagsOf w.cpu := by
  obtain ⟨s, ⟨inp, out, err⟩⟩ := w
  change flagsOf (bdos ⟨s, ⟨inp, out, err⟩⟩).sys.cpu = flagsOf s
  by_cases h0 : s.c = 0
  · simp only [bdos, h0]; rfl
  by_cases h1 : s.c = 1
  · simp only [bdos, h1]; cases inp <;> rfl
  by_cases h2 : s.c = 2
  · simp only [bdos, h2]; rfl
  by_cases h3 : s.c = 3
  · simp only [bdos, h3]; rfl
  by_cases h4 : s.c = 4
  · simp only [bdos, h4]; rfl
  by_cases h5 : s.c = 5
  · simp only [bdos, h5]; rfl
  by_cases h6 : s.c = 6
  · simp only [bdos, h6]; cases inp <;> rfl
  by_cases h7 : s.c = 7
  · simp only [bdos, h7]; rfl
  by_cases h8 : s.c = 8
  · simp only [bdos, h8]; rfl
  by_cases h9 : s.c = 9
  · simp only [bdos, h9]
    generalize writestr _ _ _ _ = r
    cases r <;> rfl
  by_cases h10 : s.c = 10
  · simp only [bdos, h10]; exact readstr_flags _ _ _ _ _ _
  by_cases h12 : s.c = 12
  · simp only [bdos, h12]; rfl
  by_cases h25 : s.c = 25
  · simp only [bdos, h25]; rfl
  simp only [bdos, h0, h1, h2, h3, h4, h5, h6, h7, h8, h9, h10, h12, h25]; rfl

set_option maxRecDepth 100000 in
/-- One turn of the loop, with the result of `execute` named by its projections. -/
theorem step_eq (w : Sys) :
    step w =
      if (execute (fetch w.cpu).2 (fetch w.cpu).1).2 = 0 then
        .exited ⟨(execute (fetch w.cpu).2 (fetch w.cpu).1).1, w.host⟩
      else if (execute (fetch w.cpu).2 (fetch w.cpu).1).1.port = 0 then
        bdos ⟨(execute (fetch w.cpu).2 (fetch w.cpu).1).1, w.host⟩
      else .running ⟨(execute (fetch w.cpu).2 (fetch w.cpu).1).1, w.host⟩ := rfl

theorem inv_after (x : Cpu × Nat) (hst : Host) (e : FlagInv x.1) :
    FlagInv (if x.2 = 0 then Outcome.exited ⟨x.1, hst⟩
             else if x.1.port = 0 then bdos ⟨x.1, hst⟩
             else Outcome.running ⟨x.1, hst⟩).sys.cpu := by
  split_ifs
  · exact e
  · exact (flagsOf_inv _ _ (bdos_flags _)).2 e
  · exact e

set_option maxRecDepth 100000 in
theorem inv_step (w : Sys) (h : FlagInv w.cpu) : FlagInv (step w).sys.cpu := by
  have hf : FlagInv (fetch w.cpu).2 := h
  have e := inv_execute (fetch w.cpu).2 hf (fetch w.cpu).1
  have k := inv_after (execute (fetch w.cpu).2 (fetch w.cpu).1) w.host e
  have q := step_eq w
  exact q.symm ▸ k

theorem inv_run : ∀ (n : Nat) (w : Sys), FlagInv w.cpu → FlagInv (run n w).sys.cpu
  | 0, _, h => h
  | n + 1, w, h => by
    have e := inv_step w h
    unfold run
    split
    · rename_i w1 hw
      rw [hw] at e
      exact inv_run n w1 e
    · rename_i o hne
      exact e

theorem load_flags : ∀ (image : List Nat) (i : Nat) (s : Cpu),
    flagsOf (load image i s) = flagsOf s
  | [], _, _ => rfl
  | x :: rest, i, s => by
    unfold load
    split_ifs
    · exact load_flags rest _ _
    · rfl

theorem inv_boot (image : List Nat) : FlagInv (boot image) := by
  have e : flagsOf (boot image) = flagsOf (reset start) := load_flags image 0x100 _
  rw [flagsOf_inv _ _ e]
  exact ⟨by decide, by decide⟩

theorem flags_f (s : Cpu) (x : Nat) : (flags s x).f = s.f := by
  unfold flags; dsimp only; split_ifs <;> rfl

theorem carryflag_f (s : Cpu) (a b c d : Nat) : (carryflag s a b c d).f = s.f := by
  unfold carryflag; dsimp only; split_ifs <;> rfl

theorem ite_f (c : Prop) [Decidable c] (a b : Cpu) :
    (if c then a else b).f = if c then a.f else b.f := by
  split_ifs <;> rfl

/-! ## The driver loop and the BDOS services -/

set_option maxRecDepth 100000 in
/-- One turn of the loop when the byte at `pc` is `op`. -/
theorem step_at (w : Sys) (op : Nat) (h : w.cpu.ram w.cpu.pc = op) :
    step w =
      if (execute { w.cpu with pc := incw w.cpu.pc } op).2 = 0 then
        .exited ⟨(execute { w.cpu with pc := incw w.cpu.pc } op).1, w.host⟩
      else if (execute { w.cpu with pc := incw w.cpu.pc } op).1.port = 0 then
        bdos ⟨(execute { w.cpu with pc := incw w.cpu.pc } op).1, w.host⟩
      else .running ⟨(execute { w.cpu with pc := incw w.cpu.pc } op).1, w.host⟩ := by
  have q := step_eq w
  have e : (fetch w.cpu).1 = op := h
  rw [e] at q
  exact q

set_option maxRecDepth 100000 in
theorem execute_in (s : Cpu) :
    execute s 0xdb = ({ s with pc := incw s.pc, port := (s.ram s.pc : Int) }, 1) := rfl

/-- The driver step on `IN n` with `n` not 0: only `pc` and `port` change. -/
theorem step_in_nonzero (w : Sys) (h1 : w.cpu.ram w.cpu.pc = 0xdb)
    (h2 : w.cpu.ram (incw w.cpu.pc) ≠ 0) :
    step w = .running ⟨{ w.cpu with pc := incw (incw w.cpu.pc),
                                    port := (w.cpu.ram (incw w.cpu.pc) : Int) }, w.host⟩ := by
  rw [step_at w 0xdb h1, execute_in]
  dsimp only
  rw [if_neg (by decide), if_neg (by exact_mod_cast h2)]

set_option maxRecDepth 100000 in
theorem execute_out (s : Cpu) :
    execute s 0xd3 =
      ({ s with pc := incw s.pc, port := (s.ram s.pc : Int),
                inout := fun j => if j = s.ram s.pc then s.a else s.inout j }, 1) := rfl

theorem readstr_regs : ∀ (inp : List Nat) (s : Cpu) (addr save size : Nat) (out : List Nat),
    (readstr inp s addr save size out).2.1.sp = s.sp ∧
    (readstr inp s addr save size out).2.1.pc = s.pc
  | [], _, _, _, _, _ => ⟨rfl, rfl⟩
  | x :: rest, s, addr, save, size, out => by
    unfold readstr
    dsimp only
    split_ifs <;> first | exact ⟨rfl, rfl⟩ | exact readstr_regs rest _ _ _ _ _

/-- A BDOS service that returns leaves `sp` and `pc` and sets `port` to -1. -/
theorem bdos_regs (w w3 : Sys) (h : bdos w = .running w3) :
    w3.cpu.sp = w.cpu.sp ∧ w3.cpu.pc = w.cpu.pc ∧ w3.cpu.port = -1 := by
  obtain ⟨s, ⟨inp, out, err⟩⟩ := w
  change w3.cpu.sp = s.sp ∧ w3.cpu.pc = s.pc ∧ w3.cpu.port = -1
  have key : ∀ (t : Cpu) (g : Host), Outcome.running ⟨t, g⟩ = Outcome.running w3 →
      t.sp = s.sp → t.pc = s.pc → t.port = -1 →
      w3.cpu.sp = s.sp ∧ w3.cpu.pc = s.pc ∧ w3.cpu.port = -1 := by
    intro t g e h1 h2 h3
    injection e with e
    subst e
    exact ⟨h1, h2, h3⟩
  by_cases h0 : s.c = 0
  · simp only [bdos, h0] at h; exact absurd h (by simp)
  by_cases h1 : s.c = 1
  · simp only [bdos, h1] at h
    cases inp with
    | nil => exact absurd h (by simp)
    | cons x rest => exact key _ _ h rfl rfl rfl
  by_cases h2 : s.c = 2
  · simp only [bdos, h2] at h; exact key _ _ h rfl rfl rfl
  by_cases h3 : s.c = 3
  · simp only [bdos, h3] at h; exact key _ _ h rfl rfl rfl
  by_cases h4 : s.c = 4
  · simp only [bdos, h4] at h; exact key _ _ h rfl rfl rfl
  by_cases h5 : s.c = 5
  · simp only [bdos, h5] at h; exact key _ _ h rfl rfl rfl
  by_cases h6 : s.c = 6
  · simp only [bdos, h6] at h
    cases inp with
    | nil => exact key _ _ h rfl rfl rfl
    | cons x rest => exact key _ _ h rfl rfl rfl
  by_cases h7 : s.c = 7
  · simp only [bdos, h7] at h; exact key _ _ h rfl rfl rfl
  by_cases h8 : s.c = 8
  · simp only [bdos, h8] at h; exact key _ _ h rfl rfl rfl
  by_cases h9 : s.c = 9
  · simp only [bdos, h9] at h
    generalize writestr _ _ _ _ = r at h
    cases r with
    | none => exact absurd h (by simp)
    | some o => exact key _ _ h rfl rfl rfl
  by_cases h10 : s.c = 10
  · simp only [bdos, h10] at h
    exact key _ _ h (readstr_regs inp s _ _ _ out).1 (readstr_regs inp s _ _ _ out).2 rfl
  by_cases h12 : s.c = 12
  · simp only [bdos, h12] at h; exact key _ _ h rfl rfl rfl
  by_cases h25 : s.c = 25
  · simp only [bdos, h25] at h; exact key _ _ h rfl rfl rfl
  simp only [bdos, h0, h1, h2, h3, h4, h5, h6, h7, h8, h9, h10, h12, h25] at h
  exact key _ _ h rfl rfl rfl

theorem run_three (w w1 w2 : Sys) (o : Outcome) (h1 : step w = .running w1)
    (h2 : step w1 = .running w2) (h3 : step w2 = o) :
    run 3 w = (match o with | .running w3 => .running w3 | o => o) := by
  simp only [run, h1, h2, h3]
  cases o <;> rfl

/-! ## Bootstrap -/

theorem load_ram : ∀ (image : List Nat) (i : Nat) (s : Cpu) (j : Nat),
    (load image i s).ram j =
      if i ≤ j ∧ j < 0xffff ∧ j - i < image.length then image.getD (j - i) 0 else s.ram j
  | [], _, _, _ => by simp [load]
  | x :: rest, i, s, j => by
    unfold load
    split_ifs with h1 h2 h3
    · rw [load_ram rest (i + 1) (wr s i x) j]
      by_cases e : j = i
      · subst e
        simp [wr]
      · have h4 : i + 1 ≤ j ∧ j < 0xffff ∧ j - (i + 1) < rest.length := by
          simp only [List.length_cons] at h2; omega
        rw [if_pos h4]
        have h5 : j - i = (j - (i + 1)) + 1 := by omega
        rw [h5, List.getD_cons_succ]
    · rw [load_ram rest (i + 1) (wr s i x) j]
      have h4 : ¬ (i + 1 ≤ j ∧ j < 0xffff ∧ j - (i + 1) < rest.length) := by
        simp only [List.length_cons] at h2; omega
      rw [if_neg h4]
      have : j ≠ i := by
        intro e; subst e; simp only [List.length_cons] at h2; omega
      simp [wr, this]
    · omega
    · rfl

theorem load_regs : ∀ (image : List Nat) (i : Nat) (s : Cpu),
    (load image i s).sp = s.sp ∧ (load image i s).port = s.port
  | [], _, _ => ⟨rfl, rfl⟩
  | x :: rest, i, s => by
    unfold load
    split_ifs
    · exact load_regs rest (i + 1) (wr s i x)
    · exact ⟨rfl, rfl⟩

/-! ## The string services -/

theorem writestr_spec : ∀ (n fuel : Nat) (ram : Nat → Nat) (addr : Nat) (out : List Nat),
    n < fuel → addr < 65536 →
    (∀ k, k < n → ram ((addr + k) % 65536) ≠ 0x24) → ram ((addr + n) % 65536) = 0x24 →
    writestr fuel ram addr out =
      some (out ++ (List.range n).map (fun k => ram ((addr + k) % 65536)))
  | 0, fuel + 1, ram, addr, out, _, ha, _, h2 => by
    have e : (addr + 0) % 65536 = addr := by omega
    rw [e] at h2
    simp [writestr, h2]
  | n + 1, fuel + 1, ram, addr, out, hf, ha, h1, h2 => by
    have e : (addr + 0) % 65536 = addr := by omega
    have h0 := h1 0 (by omega)
    rw [e] at h0
    have ih := writestr_spec n fuel ram (incw addr) (out ++ [ram addr]) (by omega)
      (by unfold incw; omega)
      (fun k hk => by
        have := h1 (k + 1) (by omega)
        have e2 : (incw addr + k) % 65536 = (addr + (k + 1)) % 65536 := by unfold incw; omega
        rw [e2]; exact this)
      (by
        have e2 : (incw addr + n) % 65536 = (addr + (n + 1)) % 65536 := by unfold incw; omega
        rw [e2]; exact h2)
    unfold writestr
    rw [if_pos h0, ih, List.range_succ_eq_map, List.map_cons, List.map_map]
    simp only [List.append_assoc, List.singleton_append, e, Option.some.injEq,
      List.append_cancel_left_eq, List.cons.injEq, true_and]
    apply List.map_congr_left
    intro k _
    simp only [Function.comp]
    congr 1
    unfold incw; omega

/-- The first `'$'` at or after `addr`, going round the address space: it exists when
some cell of `ram` holds `'$'`. -/
theorem dollar_exists (ram : Nat → Nat) (addr : Nat) (ha : addr < 65536)
    (h : ∃ i, i < 65536 ∧ ram i = 0x24) :
    ∃ n, n < 65536 ∧ (∀ k, k < n → ram ((addr + k) % 65536) ≠ 0x24) ∧
      ram ((addr + n) % 65536) = 0x24 := by
  obtain ⟨i, hi, hd⟩ := h
  have hex : ∃ n, ram ((addr + n) % 65536) = 0x24 := by
    refine ⟨(i + 65536 - addr) % 65536, ?_⟩
    have : (addr + (i + 65536 - addr) % 65536) % 65536 = i := by omega
    rw [this]; exact hd
  classical
  refine ⟨Nat.find hex, ?_, fun k hk => Nat.find_min hex hk, Nat.find_spec hex⟩
  by_contra hge
  have hmin := Nat.find_min hex (m := (i + 65536 - addr) % 65536) (by omega)
  apply hmin
  have : (addr + (i + 65536 - addr) % 65536) % 65536 = i := by omega
  rw [this]; exact hd

/-- The closed form of the loop of `C_READSTR` on a line of `line.length` characters,
none of them `\r` or `\n`, followed by the end of the input or by `\r` or `\n`, when `o`
characters have been read before and the buffer does not reach the end of the address
space: the unread input, the final `addr`, the output and the cells of `ram`. -/
theorem readstr_spec (save size : Nat) (tail : List Nat)
    (ht : ∀ t, tail.head? = some t → t = 0x0a ∨ t = 0x0d) :
    ∀ (line : List Nat) (s : Cpu) (o : Nat) (out : List Nat),
    (∀ x, x ∈ line → x ≠ 0x0a ∧ x ≠ 0x0d ∧ x < 256) →
    save + 2 + o + line.length < 65536 →
    (readstr (line ++ tail) s (save + 2 + o) save size out).1 = tail.drop 1 ∧
    (readstr (line ++ tail) s (save + 2 + o) save size out).2.2.1 =
      save + 2 + o + line.length ∧
    (readstr (line ++ tail) s (save + 2 + o) save size out).2.2.2 =
      out ++ (List.range line.length).map
        (fun k => if o + k + 4 < size then line.getD k 0 else s.ram (save + 2 + o + k)) ∧
    (∀ j, (readstr (line ++ tail) s (save + 2 + o) save size out).2.1.ram j =
      if save + 2 + o ≤ j ∧ j < save + 2 + o + line.length ∧ j - (save + 2) + 4 < size
      then line.getD (j - (save + 2 + o)) 0 else s.ram j)
  | [], s, o, out, _, _ => by
    cases tail with
    | nil =>
      refine ⟨rfl, rfl, by simp [readstr], fun j => ?_⟩
      rw [if_neg (by simp only [List.length_nil]; omega)]
      rfl
    | cons t rest =>
      have h := ht t rfl
      have e : (if t = 0x0a then 0x0d else t) = 0x0d := by
        rcases h with h | h <;> simp [h]
      simp only [List.nil_append, readstr, e, if_true, List.drop_one, List.tail_cons,
        List.length_nil, List.range_zero, List.map_nil, List.append_nil, Nat.add_zero,
        true_and]
      intro j
      rw [if_neg (by omega)]
  | x :: xs, s, o, out, hl, hlen => by
    obtain ⟨x1, x2, x3⟩ := hl x (List.mem_cons_self _ _)
    have hxs : ∀ y, y ∈ xs → y ≠ 0x0a ∧ y ≠ 0x0d ∧ y < 256 :=
      fun y hy => hl y (List.mem_cons_of_mem _ hy)
    simp only [List.length_cons] at hlen
    have ea : incw (save + 2 + o) = save + 2 + (o + 1) := by unfold incw; omega
    have ec : ((((save + 2 + o : Nat) : Int) - (save : Int) + 2 < (size : Int)) ↔
        o + 4 < size) := by omega
    have em : x % 256 = x := by omega
    have step : readstr ((x :: xs) ++ tail) s (save + 2 + o) save size out =
        readstr (xs ++ tail)
          (if o + 4 < size then wr s (save + 2 + o) x else s) (save + 2 + (o + 1)) save size
          (out ++ [(if o + 4 < size then wr s (save + 2 + o) x else s).ram (save + 2 + o)]) := by
      simp only [List.cons_append, readstr, x1, x2, if_false, ea, ec, em]
      rfl
    obtain ⟨i1, i2, i3, i4⟩ := readstr_spec save size tail ht xs
      (if o + 4 < size then wr s (save + 2 + o) x else s) (o + 1)
      (out ++ [(if o + 4 < size then wr s (save + 2 + o) x else s).ram (save + 2 + o)])
      hxs (by omega)
    rw [step]
    have r1 : ∀ j, j ≠ save + 2 + o →
        (if o + 4 < size then wr s (save + 2 + o) x else s).ram j = s.ram j := by
      intro j hj
      split_ifs
      · simp [wr, hj]
      · rfl
    have r2 : (if o + 4 < size then wr s (save + 2 + o) x else s).ram (save + 2 + o) =
        if o + 4 < size then x else s.ram (save + 2 + o) := by
      split_ifs
      · simp [wr]
      · rfl
    refine ⟨i1, ?_, ?_, ?_⟩
    · rw [i2, List.length_cons]; omega
    · rw [i3, r2, List.length_cons, List.range_succ_eq_map, List.map_cons, List.map_map,
        List.append_assoc, List.singleton_append]
      congr 2
      apply List.map_congr_left
      intro k _
      simp only [Function.comp, List.getD_cons_succ]
      have a1 : (o + 1 + k + 4 < size) ↔ (o + (k + 1) + 4 < size) := by omega
      have a2 : save + 2 + (o + 1) + k = save + 2 + o + (k + 1) := by omega
      rw [r1 _ (by omega), a2]
      simp only [a1, Nat.succ_eq_add_one]
    · intro j
      rw [i4 j]
      by_cases hj : j = save + 2 + o
      · subst hj
        rw [if_neg (by omega), r2]
        have : save + 2 + o - (save + 2) + 4 < size ↔ o + 4 < size := by omega
        simp only [this, List.length_cons, Nat.sub_self, List.getD_cons_zero]
        by_cases hc : o + 4 < size
        · rw [if_pos hc, if_pos ⟨Nat.le_refl _, by omega, hc⟩]
        · rw [if_neg hc, if_neg (fun h => hc h.2.2)]
      · rw [r1 j hj]
        by_cases hin : save + 2 + (o + 1) ≤ j ∧ j < save + 2 + (o + 1) + xs.length ∧
            j - (save + 2) + 4 < size
        · rw [if_pos hin, if_pos (by simp only [List.length_cons]; omega)]
          have : j - (save + 2 + o) = (j - (save + 2 + (o + 1))) + 1 := by omega
          rw [this, List.getD_cons_succ]
        · rw [if_neg hin, if_neg (by simp only [List.length_cons]; omega)]

/-- BDOS function 10 on a line of `line.length` characters followed by the end of the
input or by `\r` or `\n`, with the buffer below the end of the address space. -/
theorem bdos_readstr (s : Cpu) (hst : Host) (line tail : List Nat)
    (hc : s.c = 10) (hd : s.d < 256) (he : s.e < 256)
    (hm : s.ram (256 * s.d + s.e) < 256)
    (hin : hst.stdin = line ++ tail)
    (ht : ∀ t, tail.head? = some t → t = 0x0a ∨ t = 0x0d)
    (hl : ∀ x, x ∈ line → x ≠ 0x0a ∧ x ≠ 0x0d ∧ x < 256)
    (hlen : 256 * s.d + s.e + 2 + line.length < 65536) :
    (bdos ⟨s, hst⟩).isRunning = true ∧
    (bdos ⟨s, hst⟩).sys.host.stdin = tail.drop 1 ∧
    (bdos ⟨s, hst⟩).sys.host.stdout =
      hst.stdout ++ (List.range line.length).map
        (fun k => if k + 4 < s.ram (256 * s.d + s.e) then line.getD k 0
                  else s.ram (256 * s.d + s.e + 2 + k)) ∧
    (bdos ⟨s, hst⟩).sys.cpu.ram (256 * s.d + s.e + 1) = (line.length + 3) % 256 ∧
    (∀ k, k < line.length →
      (bdos ⟨s, hst⟩).sys.cpu.ram (256 * s.d + s.e + 2 + k) =
        if k + 4 < s.ram (256 * s.d + s.e) then line.getD k 0
        else s.ram (256 * s.d + s.e + 2 + k)) := by
  have hp : pair s.d s.e % 65536 = 256 * s.d + s.e := by
    rw [pair_eq s.d s.e he]; omega
  have hsz : s.ram (256 * s.d + s.e) % 65536 = s.ram (256 * s.d + s.e) := by omega
  have ha : incw (incw (256 * s.d + s.e)) = 256 * s.d + s.e + 2 + 0 := by
    unfold incw; omega
  obtain ⟨q1, q2, q3, q4⟩ := readstr_spec (256 * s.d + s.e) (s.ram (256 * s.d + s.e)) tail ht
    line s 0 hst.stdout hl (by omega)
  have hw : toWord (((256 * s.d + s.e + 2 + 0 + line.length : Nat) : Int) -
      ((256 * s.d + s.e : Nat) : Int) + 1) &&& 0xff = (line.length + 3) % 256 := by
    rw [and_0xff]; unfold toWord; omega
  have e : bdos ⟨s, hst⟩ =
      .running ⟨{ wr (readstr (line ++ tail) s (256 * s.d + s.e + 2 + 0) (256 * s.d + s.e)
                        (s.ram (256 * s.d + s.e)) hst.stdout).2.1
                      (256 * s.d + s.e + 1) ((line.length + 3) % 256) with port := -1 },
                { hst with stdin := tail.drop 1,
                           stdout := hst.stdout ++ (List.range line.length).map
                             (fun k => if 0 + k + 4 < s.ram (256 * s.d + s.e)
                                       then line.getD k 0
                                       else s.ram (256 * s.d + s.e + 2 + 0 + k)) }⟩ := by
    simp only [bdos, hc, hp, hsz, ha, hin]
    rw [← q1, ← q3, ← hw, ← q2]
    rfl
  rw [e]
  refine ⟨rfl, rfl, ?_, ?_, ?_⟩
  · simp only [Outcome.sys, Nat.zero_add, Nat.add_zero]
  · simp [Outcome.sys, wr]
  · intro k hk
    simp only [Outcome.sys, wr]
    rw [if_neg (by omega), q4]
    have a : 256 * s.d + s.e + 2 + k - (256 * s.d + s.e + 2) + 4 < s.ram (256 * s.d + s.e) ↔
        k + 4 < s.ram (256 * s.d + s.e) := by omega
    have b : 256 * s.d + s.e + 2 + k - (256 * s.d + s.e + 2 + 0) = k := by omega
    by_cases hs : k + 4 < s.ram (256 * s.d + s.e)
    · rw [if_pos ⟨by omega, by omega, a.2 hs⟩, if_pos hs, b]
    · rw [if_neg (fun h => hs (a.1 h.2.2)), if_neg hs]

/-! ## The last-port slot -/

theorem flags_port (s : Cpu) (x : Nat) : (flags s x).port = s.port := by
  unfold flags; dsimp only; split_ifs <;> rfl

theorem carryflag_port (s : Cpu) (a b c d : Nat) : (carryflag s a b c d).port = s.port := by
  unfold carryflag; dsimp only; split_ifs <;> rfl

theorem alu_port (s : Cpu) (x : Nat) :
    (add s x).port = s.port ∧ (adc s x).port = s.port ∧ (sub s x).port = s.port ∧
    (sbb s x).port = s.port ∧ (ana s x).port = s.port ∧ (xra s x).port = s.port ∧
    (ora s x).port = s.port ∧ (cmp s x).port = s.port ∧ (inrTail s x).port = s.port ∧
    (dcrTail s x).port = s.port := by
  refine ⟨?_, ?_, ?_, ?_, ?_, ?_, ?_, ?_, ?_, ?_⟩
  · simp only [add, flags_port, carryflag_port]
  · simp only [adc, flags_port, carryflag_port]
  · simp only [sub, flags_port, carryflag_port]
  · simp only [sbb, flags_port, carryflag_port]
  · simp only [ana, flags_port]
  · simp only [xra, flags_port]
  · simp only [ora, flags_port]
  · simp only [cmp, flags_port, carryflag_port]
  · unfold inrTail; dsimp only; rw [flags_port]; split_ifs <;> rfl
  · unfold dcrTail; dsimp only; rw [flags_port]; split_ifs <;> rfl

theorem dad_port (s : Cpu) (x y : Nat) : (dad s x y).port = s.port := by
  unfold dad; dsimp only; split_ifs <;> rfl

theorem daa_port (s : Cpu) : (daa s).port = s.port := by
  unfold daa; dsimp only; rw [flags_port]; split_ifs <;> rfl

theorem wr_port (s : Cpu) (i v : Nat) :
    (wr s i v).port = s.port ∧ (wrOr s i v).port = s.port :=
  ⟨rfl, rfl⟩

theorem call_port (s : Cpu) (t : Nat) :
    (call s).port = s.port ∧ (ret s).port = s.port ∧ (rst s t).port = s.port :=
  ⟨rfl, rfl, rfl⟩

theorem cond_port (s : Cpu) (c : Cpu → Bool) :
    (jumpIf s c).port = s.port ∧ (callIf s c).port = s.port ∧ (retIf s c).port = s.port := by
  refine ⟨?_, ?_, ?_⟩
  · unfold jumpIf fetch16 fetch; dsimp only; split_ifs <;> rfl
  · unfold callIf fetch16 fetch; dsimp only; split_ifs <;> rfl
  · unfold retIf; split_ifs <;> rfl

theorem ite_port (c : Prop) [Decidable c] (a b : Cpu) :
    (if c then a else b).port = if c then a.port else b.port := by
  split_ifs <;> rfl

set_option maxRecDepth 100000 in
set_option maxHeartbeats 4000000 in
/-- No instruction other than `OUT` (0xd3) and `IN` (0xdb) assigns `port`. -/
theorem execute_port (s : Cpu) (op : Nat) (h1 : op ≠ 0xd3) (h2 : op ≠ 0xdb) :
    (execute s op).1.port = s.port := by
  by_cases hop : op < 256
  · by_cases hp : op = 0xf5
    · subst hp; rw [execute_push_psw]
    by_cases hx : op = 0xe3
    · subst hx; rw [execute_xthl]
    interval_cases op <;>
      first
        | exact absurd rfl hp | exact absurd rfl hx | exact absurd rfl h1 | exact absurd rfl h2
        | conv => lhs; arg 1; arg 1; whnf
    all_goals first
      | rfl
      | (simp only [flags_port, carryflag_port, alu_port, dad_port, daa_port, wr_port,
          call_port, cond_port, ite_port, ite_self])
  · rw [execute_default s op (by omega)]

/-! ## The claims about the driver, the BDOS services and the bootstrap -/

set_option maxRecDepth 1000000 in
/-- C31, counterexample: in the run of `MVI C,2; MVI E,'A'; IN 0; HLT` from the bootstrap
state the machine is running after two steps with `IN 0` (bytes `DB 00`) at PC, C = 2 and
nothing written; the next driver step, which executes that `IN`, writes `A` to standard
output.  And the single step of the image `DB 00` from the bootstrap state, where C = 0,
leaves the loop. -/
theorem C31_counterexample :
    ((run 2 (launch progIn)).isRunning = true ∧
     (run 2 (launch progIn)).sys.cpu.ram (run 2 (launch progIn)).sys.cpu.pc = 0xdb ∧
     (run 2 (launch progIn)).sys.cpu.ram (incw (run 2 (launch progIn)).sys.cpu.pc) = 0 ∧
     (run 2 (launch progIn)).sys.cpu.c = 2 ∧
     (run 2 (launch progIn)).sys.host.stdout = [] ∧
     (step (run 2 (launch progIn)).sys).isRunning = true ∧
     (step (run 2 (launch progIn)).sys).sys.host.stdout = [0x41]) ∧
    ((launch [0xdb, 0x00]).cpu.ram (launch [0xdb, 0x00]).cpu.pc = 0xdb ∧
     (launch [0xdb, 0x00]).cpu.ram (incw (launch [0xdb, 0x00]).cpu.pc) = 0 ∧
     (launch [0xdb, 0x00]).cpu.c = 0 ∧
     (step (launch [0xdb, 0x00])).isRunning = false) := by
  decide

/-- C31, amended: a driver step that executes `IN n` with n not 0 only advances PC by 2
and records n in `port`: it stays running and changes no other register, no RAM, no
port cell and no host stream, whatever C holds.  A step that executes `IN 0` sets
`port` to 0 and so runs the BDOS switch on the state after the `IN` (with C = 0 the loop
is left, with C = 2 the byte in E is written to standard output), as a step that
executes `OUT 0` does after storing A in the port cell 0.  `OUT n` with n not 0 runs no
service, and no other instruction does when `port` is not 0 before the step: the host
streams are as before and the machine state is that left by `execute`. -/
theorem C31_port_zero_runs_bdos (w : Sys) :
    (w.cpu.ram w.cpu.pc = 0xdb → w.cpu.ram (incw w.cpu.pc) ≠ 0 →
      step w = .running ⟨{ w.cpu with pc := incw (incw w.cpu.pc),
                                      port := (w.cpu.ram (incw w.cpu.pc) : Int) }, w.host⟩) ∧
    (w.cpu.ram w.cpu.pc = 0xdb → w.cpu.ram (incw w.cpu.pc) = 0 →
      step w = bdos ⟨{ w.cpu with pc := incw (incw w.cpu.pc), port := 0 }, w.host⟩ ∧
      (w.cpu.c = 0 → (step w).isRunning = false) ∧
      (w.cpu.c = 2 → (step w).sys.host.stdout = w.host.stdout ++ [w.cpu.e])) ∧
    (w.cpu.ram w.cpu.pc = 0xd3 → w.cpu.ram (incw w.cpu.pc) = 0 →
      step w = bdos ⟨{ w.cpu with pc := incw (incw w.cpu.pc), port := 0,
                                  inout := fun j => if j = 0 then w.cpu.a else w.cpu.inout j },
                     w.host⟩) ∧
    (w.cpu.ram w.cpu.pc = 0xd3 → w.cpu.ram (incw w.cpu.pc) ≠ 0 →
      step w = .running ⟨{ w.cpu with pc := incw (incw w.cpu.pc),
                                      port := (w.cpu.ram (incw w.cpu.pc) : Int),
                                      inout := fun j => if j = w.cpu.ram (incw w.cpu.pc)
                                        then w.cpu.a else w.cpu.inout j }, w.host⟩) ∧
    (w.cpu.ram w.cpu.pc ≠ 0xd3 → w.cpu.ram w.cpu.pc ≠ 0xdb → w.cpu.port ≠ 0 →
      (step w).sys =
        ⟨(execute { w.cpu with pc := incw w.cpu.pc } (w.cpu.ram w.cpu.pc)).1, w.host⟩) := by
  refine ⟨step_in_nonzero w, ?_, ?_, ?_, ?_⟩
  · intro h1 h2
    have e : step w = bdos ⟨{ w.cpu with pc := incw (incw w.cpu.pc), port := 0 }, w.host⟩ := by
      rw [step_at w 0xdb h1, execute_in]
      dsimp only
      rw [if_neg (by decide), h2, if_pos (by rfl)]
      rfl
    refine ⟨e, ?_, ?_⟩
    · intro hc
      rw [e]
      simp only [bdos, hc]
      rfl
    · intro hc
      rw [e]
      simp only [bdos, hc]
      rfl
  · intro h1 h2
    rw [step_at w 0xd3 h1, execute_out]
    dsimp only
    rw [if_neg (by decide), h2, if_pos (by rfl)]
    rfl
  · intro h1 h2
    rw [step_at w 0xd3 h1, execute_out]
    dsimp only
    rw [if_neg (by decide), if_neg (by exact_mod_cast h2)]
  · intro h1 h2 h3
    have hp : (execute { w.cpu with pc := incw w.cpu.pc } (w.cpu.ram w.cpu.pc)).1.port ≠ 0 := by
      rw [execute_port _ _ h1 h2]
      exact h3
    rw [step_at w _ rfl, if_neg hp]
    split_ifs <;> rfl

set_option maxRecDepth 1000000 in
/-- C32, counterexample: two states that satisfy every condition of the claim (running,
`D3 00 C9` at 5..7, `CD 05 00` at PC, C not 0, SP = 0 so that the stack bytes are 0xffff
and 0xfffe).  In the first C = 1 and standard input is at its end: the three steps never
end, the service waits for a byte for ever.  In the second C = 10 and DE = 6: the service
stores its count 3 in the cell 7, over the `RET`, so that the third step executes `INX B`
and ends with PC = 8 and SP = 0xfffe. -/
theorem C32_counterexample :
    ((run 1 (launch progRead)).isRunning = true ∧
     (run 1 (launch progRead)).sys.cpu.port ≠ 0 ∧
     (run 1 (launch progRead)).sys.cpu.ram 5 = 0xd3 ∧
     (run 1 (launch progRead)).sys.cpu.ram 6 = 0x00 ∧
     (run 1 (launch progRead)).sys.cpu.ram 7 = 0xc9 ∧
     (run 1 (launch progRead)).sys.cpu.pc = 0x102 ∧
     (run 1 (launch progRead)).sys.cpu.ram 0x102 = 0xcd ∧
     (run 1 (launch progRead)).sys.cpu.ram 0x103 = 0x05 ∧
     (run 1 (launch progRead)).sys.cpu.ram 0x104 = 0x00 ∧
     (run 1 (launch progRead)).sys.cpu.c = 1 ∧
     (run 1 (launch progRead)).sys.cpu.sp = 0 ∧
     (run 3 (run 1 (launch progRead)).sys).isRunning = false ∧
     (run 3 (run 1 (launch progRead)).sys).isExited = false) ∧
    ((run 2 (launch progReadstr)).isRunning = true ∧
     (run 2 (launch progReadstr)).sys.cpu.port ≠ 0 ∧
     (run 2 (launch progReadstr)).sys.cpu.ram 5 = 0xd3 ∧
     (run 2 (launch progReadstr)).sys.cpu.ram 6 = 0x00 ∧
     (run 2 (launch progReadstr)).sys.cpu.ram 7 = 0xc9 ∧
     (run 2 (launch progReadstr)).sys.cpu.pc = 0x105 ∧
     (run 2 (launch progReadstr)).sys.cpu.ram 0x105 = 0xcd ∧
     (run 2 (launch progReadstr)).sys.cpu.ram 0x106 = 0x05 ∧
     (run 2 (launch progReadstr)).sys.cpu.ram 0x107 = 0x00 ∧
     (run 2 (launch progReadstr)).sys.cpu.c = 10 ∧
     (run 2 (launch progReadstr)).sys.cpu.sp = 0 ∧
     (run 3 (run 2 (launch progReadstr)).sys).isRunning = true ∧
     (run 3 (run 2 (launch progReadstr)).sys).sys.cpu.pc = 8 ∧
     (run 3 (run 2 (launch progReadstr)).sys).sys.cpu.sp = 0xfffe ∧
     (run 3 (run 2 (launch progReadstr)).sys).sys.cpu.ram 7 = 3) := by
  decide

/-- C32, amended: for every state `s` with `port` not 0 (the loop is running), `D3 00 C9`
at 5..7, `CD 05 00` at PC, SP a word and neither stack byte of the CALL in 5..7, if the
BDOS service entered after the `OUT 0` returns (with the state `w3`) and leaves the cell
7 and the two stack cells as they were, then three driver steps run that service once
and end in `w3` with PC at the instruction after the CALL and SP as before the CALL, and
`port` is -1.  (A service that returns excludes C = 0.) -/
theorem C32_call_5 (s : Cpu) (hst : Host) (w3 : Sys)
    (hport : s.port ≠ 0) (hsp : s.sp < 65536)
    (t5 : s.ram 5 = 0xd3) (t6 : s.ram 6 = 0x00) (t7 : s.ram 7 = 0xc9)
    (p0 : s.ram s.pc = 0xcd) (p1 : s.ram ((s.pc + 1) % 65536) = 0x05)
    (p2 : s.ram ((s.pc + 2) % 65536) = 0x00)
    (k1 : (s.sp + 65535) % 65536 ≠ 5 ∧ (s.sp + 65535) % 65536 ≠ 6 ∧
          (s.sp + 65535) % 65536 ≠ 7)
    (k2 : (s.sp + 65534) % 65536 ≠ 5 ∧ (s.sp + 65534) % 65536 ≠ 6 ∧
          (s.sp + 65534) % 65536 ≠ 7)
    (hb : bdos ⟨trapEntry s, hst⟩ = .running w3)
    (q7 : w3.cpu.ram 7 = (trapEntry s).ram 7)
    (qlo : w3.cpu.ram ((s.sp + 65534) % 65536) = (trapEntry s).ram ((s.sp + 65534) % 65536))
    (qhi : w3.cpu.ram ((s.sp + 65535) % 65536) =
      (trapEntry s).ram ((s.sp + 65535) % 65536)) :
    run 3 ⟨s, hst⟩ =
      .running ⟨{ w3.cpu with pc := (s.pc + 3) % 65536, sp := s.sp }, w3.host⟩ ∧
    w3.cpu.port = -1 := by
  have e1 : decw s.sp = (s.sp + 65535) % 65536 := decw_eq _
  have e2 : decw (decw s.sp) = (s.sp + 65534) % 65536 := by
    unfold decw toWord; omega
  have i1 : incw s.pc = (s.pc + 1) % 65536 := rfl
  have i2 : incw (incw s.pc) = (s.pc + 2) % 65536 := by unfold incw; omega
  have i3 : incw (incw (incw s.pc)) = (s.pc + 3) % 65536 := by unfold incw; omega
  have ne : (s.sp + 65535) % 65536 ≠ (s.sp + 65534) % 65536 := by omega
  have r7 : w3.cpu.ram 7 = 0xc9 := by
    rw [q7]
    simp only [trapEntry]
    rw [e2, e1, if_neg (Ne.symm k2.2.2), if_neg (Ne.symm k1.2.2)]; exact t7
  have rlo : w3.cpu.ram ((s.sp + 65534) % 65536) = (s.pc + 3) % 65536 % 256 := by
    rw [qlo]
    simp only [trapEntry]
    rw [e2, if_pos rfl]
  have rhi : w3.cpu.ram ((s.sp + 65535) % 65536) = (s.pc + 3) % 65536 / 256 := by
    rw [qhi]
    simp only [trapEntry]
    rw [e2, e1, if_neg ne, if_pos rfl]
  obtain ⟨b1, b2, b3⟩ := bdos_regs _ _ hb
  have s1 : step ⟨s, hst⟩ =
      .running ⟨{ trapEntry s with pc := 5, port := s.port, inout := s.inout }, hst⟩ := by
    rw [step_at ⟨s, hst⟩ 0xcd p0, execute_call]
    dsimp only
    rw [if_neg (by decide), if_neg hport]
    rw [i3, i2, i1, p1, p2]
    simp only [trapEntry, and_0xff, shr_8]
    have a1 : (s.pc + 3) % 65536 % 256 % 256 = (s.pc + 3) % 65536 % 256 := by omega
    have a2 : (s.pc + 3) % 65536 / 256 % 256 = (s.pc + 3) % 65536 / 256 := by omega
    rw [a1, a2]
    rfl
  have s2 : step ⟨{ trapEntry s with pc := 5, port := s.port, inout := s.inout }, hst⟩ =
      .running w3 := by
    have q5 : (trapEntry s).ram 5 = 0xd3 := by
      simp only [trapEntry]
      rw [e2, e1, if_neg (Ne.symm k2.1), if_neg (Ne.symm k1.1)]; exact t5
    have q6 : (trapEntry s).ram 6 = 0 := by
      simp only [trapEntry]
      rw [e2, e1, if_neg (Ne.symm k2.2.1), if_neg (Ne.symm k1.2.1)]; exact t6
    rw [step_at _ 0xd3 q5, execute_out]
    dsimp only
    have q6b : (trapEntry s).ram (incw 5) = 0 := q6
    rw [if_neg (by decide), q6b, if_pos (by rfl), ← hb]
    rfl
  have s3 : step w3 = .running ⟨{ w3.cpu with pc := (s.pc + 3) % 65536, sp := s.sp },
      w3.host⟩ := by
    have q7 : w3.cpu.ram w3.cpu.pc = 0xc9 := by rw [b2]; exact r7
    rw [step_at w3 0xc9 q7, execute_ret]
    dsimp only
    have c1 : w3.cpu.sp = (s.sp + 65534) % 65536 := by rw [b1]; exact e2
    have c2 : incw ((s.sp + 65534) % 65536) = (s.sp + 65535) % 65536 := by
      unfold incw; omega
    have c3 : incw ((s.sp + 65535) % 65536) = s.sp := by unfold incw; omega
    rw [if_neg (by decide), b3, if_neg (by decide), c1, c2, c3, rlo, rhi]
    have c4 : ((s.pc + 3) % 65536 % 256 ||| ((s.pc + 3) % 65536 / 256) <<< 8) % 65536 =
        (s.pc + 3) % 65536 := by
      rw [Nat.lor_comm]
      have := pair_eq ((s.pc + 3) % 65536 / 256) ((s.pc + 3) % 65536 % 256) (by omega)
      unfold pair at this
      rw [this]; omega
    rw [c4]
  exact ⟨run_three _ _ _ _ s1 s2 s3, b3⟩

/-- C33: with C = 9, D and E bytes and a `'$'` (0x24) somewhere in `ram[0 .. 65535]`,
the service returns; with n the distance from DE to the first `'$'` going round the
address space, it appends to standard output the n bytes at DE, DE + 1, ... (mod 65536)
in order, and changes nothing in the machine but `port`, which becomes -1. -/
theorem C33_writestr (s : Cpu) (hst : Host) (hc : s.c = 9) (hd : s.d < 256) (he : s.e < 256)
    (h : ∃ i, i < 65536 ∧ s.ram i = 0x24) :
    ∃ n, n < 65536 ∧
      (∀ k, k < n → s.ram ((256 * s.d + s.e + k) % 65536) ≠ 0x24) ∧
      s.ram ((256 * s.d + s.e + n) % 65536) = 0x24 ∧
      bdos ⟨s, hst⟩ =
        .running ⟨{ s with port := -1 },
          { hst with stdout := hst.stdout ++
              (List.range n).map (fun k => s.ram ((256 * s.d + s.e + k) % 65536)) }⟩ := by
  have hp : pair s.d s.e % 65536 = 256 * s.d + s.e := by
    rw [pair_eq s.d s.e he]; omega
  have ha : 256 * s.d + s.e < 65536 := by omega
  obtain ⟨n, hn, h1, h2⟩ := dollar_exists s.ram (256 * s.d + s.e) ha h
  refine ⟨n, hn, h1, h2, ?_⟩
  have w := writestr_spec n 0x10000 s.ram (256 * s.d + s.e) hst.stdout hn ha h1 h2
  simp only [bdos, hc, hp, w]
  rfl

/-- C34, the divergence: with C = 10, a buffer at DE whose first byte is the maximum
count m, and an input line of n characters followed by `\r`, `\n` or the end of the
input (the buffer being below the end of the address space), the service returns and
the byte it stores at DE + 1 is (n + 3) mod 256, not the number of characters stored;
character k of the line is stored at DE + 2 + k exactly when k + 4 < m. -/
theorem C34_readstr_count (s : Cpu) (hst : Host) (line tail : List Nat)
    (hc : s.c = 10) (hd : s.d < 256) (he : s.e < 256)
    (hm : s.ram (256 * s.d + s.e) < 256)
    (hin : hst.stdin = line ++ tail)
    (ht : ∀ t, tail.head? = some t → t = 0x0a ∨ t = 0x0d)
    (hl : ∀ x, x ∈ line → x ≠ 0x0a ∧ x ≠ 0x0d ∧ x < 256)
    (hlen : 256 * s.d + s.e + 2 + line.length < 65536) :
    (bdos ⟨s, hst⟩).isRunning = true ∧
    (bdos ⟨s, hst⟩).sys.cpu.ram (256 * s.d + s.e + 1) = (line.length + 3) % 256 ∧
    (∀ k, k < line.length →
      (bdos ⟨s, hst⟩).sys.cpu.ram (256 * s.d + s.e + 2 + k) =
        if k + 4 < s.ram (256 * s.d + s.e) then line.getD k 0
        else s.ram (256 * s.d + s.e + 2 + k)) :=
  ⟨(bdos_readstr s hst line tail hc hd he hm hin ht hl hlen).1,
   (bdos_readstr s hst line tail hc hd he hm hin ht hl hlen).2.2.2.1,
   (bdos_readstr s hst line tail hc hd he hm hin ht hl hlen).2.2.2.2⟩

/-- C35, the divergence: under the conditions of C34 the service writes one byte to
standard output per character of the line, but the byte is `ram[addr]`, not the
character: it is character k only when that character was stored (k + 4 < m), and
otherwise the byte the buffer cell DE + 2 + k already held. -/
theorem C35_readstr_echo (s : Cpu) (hst : Host) (line tail : List Nat)
    (hc : s.c = 10) (hd : s.d < 256) (he : s.e < 256)
    (hm : s.ram (256 * s.d + s.e) < 256)
    (hin : hst.stdin = line ++ tail)
    (ht : ∀ t, tail.head? = some t → t = 0x0a ∨ t = 0x0d)
    (hl : ∀ x, x ∈ line → x ≠ 0x0a ∧ x ≠ 0x0d ∧ x < 256)
    (hlen : 256 * s.d + s.e + 2 + line.length < 65536) :
    (bdos ⟨s, hst⟩).sys.host.stdin = tail.drop 1 ∧
    (bdos ⟨s, hst⟩).sys.host.stdout =
      hst.stdout ++ (List.range line.length).map
        (fun k => if k + 4 < s.ram (256 * s.d + s.e) then line.getD k 0
                  else s.ram (256 * s.d + s.e + 2 + k)) :=
  ⟨(bdos_readstr s hst line tail hc hd he hm hin ht hl hlen).2.1,
   (bdos_readstr s hst line tail hc hd he hm hin ht hl hlen).2.2.1⟩

/-- C36, counterexample: for the image of 0xff00 bytes 0xff, byte 0xfeff of the image
belongs at 0x100 + 0xfeff = 0xffff, which is not beyond 0xffff, and is 0xff; after the
bootstrap the cell 0xffff holds 0. -/
theorem C36_counterexample :
    0xfeff < (List.replicate 0xff00 0xff).length ∧ 0x100 + 0xfeff ≤ 0xffff ∧
    (List.replicate 0xff00 0xff).getD 0xfeff 0 = 0xff ∧
    (boot (List.replicate 0xff00 0xff)).ram (0x100 + 0xfeff) = 0 := by
  have r : ∀ image : List Nat, (boot image).ram 0xffff = 0 := by
    intro image
    have q : (boot image).ram 0xffff =
        if 0x100 ≤ 0xffff ∧ 0xffff < 0xffff ∧ 0xffff - 0x100 < image.length
        then image.getD (0xffff - 0x100) 0
        else (cpm (reset start)).ram 0xffff := load_ram image 0x100 _ 0xffff
    rw [q, if_neg (by omega)]
    rfl
  have e : 0x100 + 0xfeff = 0xffff := by norm_num
  refine ⟨?_, by norm_num, ?_, ?_⟩
  · rw [List.length_replicate]; norm_num
  · rw [List.getD_eq_getElem?_getD, List.getElem?_replicate, if_pos (by norm_num)]
    rfl
  · rw [e]; exact r _

set_option maxRecDepth 100000 in
/-- C36, amended: for every image the bootstrap leaves 0x76 in cell 0, `D3 00 C9` in
5..7, byte k of the image in 0x100 + k while 0x100 + k < 0xffff, and 0 in every other
cell, the cell 0xffff included: the loop of `main` stops at index 0xfffe and keeps the
last cell free; PC = 0x0100 and SP = 0. -/
theorem C36_boot_leaves_0xffff (image : List Nat) :
    (boot image).ram 0xffff = 0 ∧
    (boot image).ram 0 = 0x76 ∧ (boot image).ram 5 = 0xd3 ∧ (boot image).ram 6 = 0x00 ∧
    (boot image).ram 7 = 0xc9 ∧
    (∀ k, k < image.length → 0x100 + k < 0xffff →
      (boot image).ram (0x100 + k) = image.getD k 0) ∧
    (∀ j, j ≠ 0 → j ≠ 5 → j ≠ 6 → j ≠ 7 →
      ¬ (0x100 ≤ j ∧ j < 0xffff ∧ j - 0x100 < image.length) → (boot image).ram j = 0) ∧
    (boot image).pc = 0x100 ∧ (boot image).sp = 0 := by
  have r : ∀ j, (boot image).ram j =
      if 0x100 ≤ j ∧ j < 0xffff ∧ j - 0x100 < image.length then image.getD (j - 0x100) 0
      else (cpm (reset start)).ram j := fun j => load_ram image 0x100 _ j
  refine ⟨?_, ?_, ?_, ?_, ?_, ?_, ?_, rfl, (load_regs image 0x100 _).1⟩
  · rw [r, if_neg (by omega)]; rfl
  · rw [r, if_neg (by omega)]; rfl
  · rw [r, if_neg (by omega)]; rfl
  · rw [r, if_neg (by omega)]; rfl
  · rw [r, if_neg (by omega)]; rfl
  · intro k h1 h2
    rw [r, if_pos (by omega)]
    congr 1
    omega
  · intro j h0 h5 h6 h7 h
    rw [r, if_neg h]
    simp [cpm, wr, reset, start, h0, h5, h6, h7]

set_option maxRecDepth 1000000 in
/-- C37: the run from the bootstrap state loaded with `3E 2A C9` is still running after
142 steps, with PC = 0 and the `HLT` 0x76 in cell 0, and the step 143, which executes
that `HLT`, ends the loop with A = 0x2a.  (The `RET` finds SP = 0 and pops 0x0076, the
bytes of cells 0 and 1; the run goes through the zeros up to 0x0100, and the second `RET`
pops 0x0000.) -/
theorem C37_ret_reaches_hlt :
    (run 142 (launch progRet)).isRunning = true ∧
    (run 142 (launch progRet)).sys.cpu.pc = 0 ∧
    (run 142 (launch progRet)).sys.cpu.ram 0 = 0x76 ∧
    (run 143 (launch progRet)).isExited = true ∧
    (run 143 (launch progRet)).sys.cpu.a = 0x2a ∧
    (run 2 (launch progRet)).sys.cpu.pc = 0x0076 := by
  decide

set_option maxRecDepth 100000 in
set_option maxHeartbeats 4000000 in
/-- C40: for every opcode that is not a control transfer and every state whose PC is a
word, `execute` leaves PC at (PC + n) mod 65536, where n is the operand length of the
opcode: 2 for LXI, SHLD, LHLD, STA, LDA; 1 for MVI, ADI, ACI, SUI, SBI, ANI, XRI, ORI, CPI,
IN, OUT; 0 for every other such opcode, HLT included. -/
theorem C40_pc_advance (s : Cpu) (hpc : s.pc < 65536) (op : Nat) (hop : op < 256)
    (ht : isTransfer op = false) :
    (execute s op).1.pc = (s.pc + operandLen op) % 65536 := by
  have e0 : s.pc = (s.pc + 0) % 65536 := by omega
  have e1 : incw s.pc = (s.pc + 1) % 65536 := rfl
  have e2 : incw (incw s.pc) = (s.pc + 2) % 65536 := by unfold incw; omega
  by_cases hp : op = 0xf5
  · subst hp; rw [execute_push_psw]; exact e0
  interval_cases op <;>
    first | exact absurd ht (by decide) | exact absurd rfl hp | conv => lhs; arg 1; arg 1; whnf
  all_goals first
    | exact e0
    | exact e1
    | exact e2
    | (simp only [flags_pc, carryflag_pc, alu_pc, dad_pc, daa_pc, wr_pc, ite_pc, ite_self]
       first | exact e0 | exact e1)

/-! ## Instances of the claims about the driver -/

set_option maxRecDepth 1000000 in
/-- C31 in the run of `MVI C,2; MVI E,'A'; IN 0; HLT` from the bootstrap state: the step
that executes `IN 0` writes `A`; the first step, which executes `MVI C,2`, runs no
service. -/
theorem C31_port_zero_runs_bdos_witness :
    (run 2 (launch progIn)).sys.cpu.ram (run 2 (launch progIn)).sys.cpu.pc = 0xdb ∧
    (run 2 (launch progIn)).sys.cpu.ram (incw (run 2 (launch progIn)).sys.cpu.pc) = 0 ∧
    (run 2 (launch progIn)).sys.cpu.c = 2 ∧
    (step (run 2 (launch progIn)).sys).sys.host.stdout = [0x41] ∧
    (step (launch progIn)).sys.host = (launch progIn).host :=
  ⟨by decide, by decide, by decide,
   (((C31_port_zero_runs_bdos (run 2 (launch progIn)).sys).2.1 (by decide) (by decide)).2.2
     (by decide)).trans (by decide),
   by rw [(C31_port_zero_runs_bdos (launch progIn)).2.2.2.2 (by decide) (by decide)
     (by decide)]⟩

set_option maxRecDepth 1000000 in
/-- C32 in the run of `MVI C,2; MVI E,'A'; CALL 0x0005; MVI C,0; CALL 0x0005` from the
bootstrap state: after the two `MVI` the three steps of the first CALL end with
PC = 0x0107 and SP = 0 and have written `A`; the whole run writes exactly `A` and
leaves the loop at the eighth step. -/
theorem C32_call_5_witness :
    (run 2 (launch progHello)).sys.cpu.port ≠ 0 ∧
    (run 2 (launch progHello)).sys.cpu.sp < 65536 ∧
    (run 3 (run 2 (launch progHello)).sys).isRunning = true ∧
    (run 3 (run 2 (launch progHello)).sys).sys.cpu.pc = 0x107 ∧
    (run 3 (run 2 (launch progHello)).sys).sys.cpu.sp = 0 ∧
    (run 3 (run 2 (launch progHello)).sys).sys.host.stdout = [0x41] ∧
    (run 7 (launch progHello)).isRunning = true ∧
    (run 8 (launch progHello)).isExited = true ∧
    (run 8 (launch progHello)).sys.host.stdout = [0x41] :=
  ⟨by decide, by decide,
   (congrArg Outcome.isRunning
     (C32_call_5 (run 2 (launch progHello)).sys.cpu (run 2 (launch progHello)).sys.host
       (bdos ⟨trapEntry (run 2 (launch progHello)).sys.cpu,
         (run 2 (launch progHello)).sys.host⟩).sys
       (by decide) (by decide) (by decide) (by decide) (by decide) (by decide) (by decide)
       (by decide) (by decide) (by decide) rfl rfl rfl rfl).1).trans rfl,
   by decide, by decide, by decide, by decide, by decide, by decide⟩

set_option maxRecDepth 1000000 in
/-- C33 at DE = 0x2000 with `Hi$` there: the service returns and writes `Hi`. -/
theorem C33_writestr_witness :
    (strAt 9 0x2000 [0x48, 0x69, 0x24]).c = 9 ∧
    (∃ i, i < 65536 ∧ (strAt 9 0x2000 [0x48, 0x69, 0x24]).ram i = 0x24) ∧
    (bdos ⟨strAt 9 0x2000 [0x48, 0x69, 0x24], ⟨[], [], []⟩⟩).isRunning = true ∧
    (bdos ⟨strAt 9 0x2000 [0x48, 0x69, 0x24], ⟨[], [], []⟩⟩).sys.host.stdout = [0x48, 0x69] :=
  ⟨rfl, ⟨0x2002, by decide, by decide⟩,
   (C33_writestr (strAt 9 0x2000 [0x48, 0x69, 0x24]) ⟨[], [], []⟩ rfl (by decide) (by decide)
     ⟨0x2002, by decide, by decide⟩).elim
     (fun _ h => (congrArg Outcome.isRunning h.2.2.2).trans rfl),
   by decide⟩

set_option maxRecDepth 1000000 in
/-- C34 at DE = 0x2000 with maximum count 10 and the input `AB\r`: two characters are
stored, at 0x2002 and 0x2003, and the count byte at 0x2001 is 5. -/
theorem C34_readstr_count_witness :
    (bdos ⟨strAt 10 0x2000 [10], ⟨[0x41, 0x42, 0x0d], [], []⟩⟩).sys.cpu.ram 0x2001 = 5 ∧
    (bdos ⟨strAt 10 0x2000 [10], ⟨[0x41, 0x42, 0x0d], [], []⟩⟩).sys.cpu.ram 0x2002 = 0x41 ∧
    (bdos ⟨strAt 10 0x2000 [10], ⟨[0x41, 0x42, 0x0d], [], []⟩⟩).sys.cpu.ram 0x2003 = 0x42 ∧
    (bdos ⟨strAt 10 0x2000 [10], ⟨[0x41, 0x42, 0x0d], [], []⟩⟩).sys.cpu.ram 0x2004 = 0 :=
  ⟨(C34_readstr_count (strAt 10 0x2000 [10]) ⟨[0x41, 0x42, 0x0d], [], []⟩ [0x41, 0x42] [0x0d]
      rfl (by decide) (by decide) (by decide) rfl
      (fun t h => Or.inr (Option.some.inj h).symm) (by decide) (by decide)).2.1,
   by decide, by decide, by decide⟩

set_option maxRecDepth 1000000 in
/-- C35 at DE = 0x2000 with maximum count 5 and the input `AB\r`: the output is `A`
followed by the byte 0 that the cell 0x2003 held, not `AB`. -/
theorem C35_readstr_echo_witness :
    (bdos ⟨strAt 10 0x2000 [5], ⟨[0x41, 0x42, 0x0d], [], []⟩⟩).sys.host.stdout = [0x41, 0] ∧
    (bdos ⟨strAt 10 0x2000 [5], ⟨[0x41, 0x42, 0x0d], [], []⟩⟩).sys.host.stdin = [] :=
  ⟨((C35_readstr_echo (strAt 10 0x2000 [5]) ⟨[0x41, 0x42, 0x0d], [], []⟩ [0x41, 0x42] [0x0d]
      rfl (by decide) (by decide) (by decide) rfl
      (fun t h => Or.inr (Option.some.inj h).symm) (by decide) (by decide)).2).trans
      (by decide),
   by decide⟩

/-- C36 at the image `3E 2A C9`: the three bytes are at 0x0100..0x0102 and the cell
0xffff holds 0. -/
theorem C36_boot_leaves_0xffff_witness :
    (boot progRet).ram 0xffff = 0 ∧ (boot progRet).ram (0x100 + 1) = 0x2a :=
  ⟨(C36_boot_leaves_0xffff progRet).1,
   (C36_boot_leaves_0xffff progRet).2.2.2.2.2.1 1 (by decide) (by decide)⟩

set_option maxRecDepth 100000 in
/-- C40 at `LXI H` (0x21), `MVI M` (0x36) and `HLT` (0x76) with PC = 0xffff: the PC
after them is 1, 0 and 0xffff. -/
theorem C40_pc_advance_witness :
    (operands 0xffff 0 0 0 0).pc < 65536 ∧ isTransfer 0x21 = false ∧
    (execute (operands 0xffff 0 0 0 0) 0x21).1.pc = 1 ∧
    (execute (operands 0xffff 0 0 0 0) 0x36).1.pc = 0 ∧
    (execute (operands 0xffff 0 0 0 0) 0x76).1.pc = 0xffff :=
  ⟨by decide, by decide,
   (C40_pc_advance (operands 0xffff 0 0 0 0) (by decide) 0x21 (by decide) (by decide)).trans
     (by decide),
   (C40_pc_advance (operands 0xffff 0 0 0 0) (by decide) 0x36 (by decide) (by decide)).trans
     (by decide),
   (C40_pc_advance (operands 0xffff 0 0 0 0) (by decide) 0x76 (by decide) (by decide)).trans
     (by decide)⟩

end I80

namespace Z80

open I80 (toByte toWord cnot lnot incb decb incw decw AC_ADD AC_SUB pair parity)

/-! ## The Z80 build: the exchange opcodes and the size of `ram` -/

theorem wf_banks (a fs fcy bc de hl sp ap fsp fcyp bcp dep hlp : Nat)
    (h1 : a < 256) (h2 : fs < 256) (h3 : fcy < 256) (h4 : bc < 65536) (h5 : de < 65536)
    (h6 : hl < 65536) (h7 : sp < 65536) (h8 : ap < 256) (h9 : fsp < 256) (h10 : fcyp < 256)
    (h11 : bcp < 65536) (h12 : dep < 65536) (h13 : hlp < 65536) :
    WF (banks a fs fcy bc de hl sp ap fsp fcyp bcp dep hlp) := by
  constructor <;> simp [banks, start] <;> omega

theorem pair_bytes (hi lo : Nat) (h1 : hi < 256) (h2 : lo < 256) :
    ((pair hi lo % 65536) >>> 8) &&& 0xff = hi ∧ (pair hi lo % 65536) &&& 0xff = lo := by
  rw [I80.pair_eq hi lo h2, I80.and_0xff, I80.and_0xff, I80.shr_8]
  omega

theorem exafaf_eq (s : Cpu) :
    exafaf s = { s with a := s.ap, ap := s.a, fs := s.fsp, fsp := s.fs, fz := s.fzp,
                        fzp := s.fz, fac := s.facp, facp := s.fac, fp := s.fpp, fpp := s.fp,
                        fcy := s.fcyp, fcyp := s.fcy } := rfl

theorem exx_eq (s : Cpu) (h : WF s) :
    exx s = { s with b := s.bp, bp := s.b, c := s.cp, cp := s.c, d := s.dp, dp := s.d,
                     e := s.ep, ep := s.e, h := s.hp, hp := s.h, l := s.lp, lp := s.l } := by
  obtain ⟨a1, a2⟩ := pair_bytes s.b s.c h.b h.c
  obtain ⟨a3, a4⟩ := pair_bytes s.d s.e h.d h.e
  obtain ⟨a5, a6⟩ := pair_bytes s.h s.l h.h h.l
  unfold exx
  dsimp only
  rw [a1, a2, a3, a4, a5, a6]

set_option maxRecDepth 100000 in
/-- C26, the divergence: the array `ram` of the Z80 build has 65535 elements, so 0xffff
is not an index of it; with SP = 0, PUSH B stores B and CALL stores the high byte of the
return address in the cell 0xffff, and `reset` does not clear that cell. -/
theorem C26_ram_has_65535_bytes (s : Cpu) (hsp : s.sp = 0) :
    ramSize = 65535 ∧ ¬ (0xffff < ramSize) ∧
    (execute s 0xc5).1.ram 0xffff = s.b ∧
    (execute s 0xcd).1.ram 0xffff = (incw (incw s.pc) >>> 8) % 256 ∧
    (reset s).ram 0xffff = s.ram 0xffff := by
  have p : (execute s 0xc5).1.ram 0xffff =
      (if 0xffff = decw (decw s.sp) then s.c
       else if 0xffff = decw s.sp then s.b else s.ram 0xffff) := rfl
  have c : (execute s 0xcd).1.ram 0xffff =
      (if 0xffff = decw (decw s.sp) then (incw (incw s.pc) &&& 0xff) % 256
       else if 0xffff = decw s.sp then (incw (incw s.pc) >>> 8) % 256 else s.ram 0xffff) := rfl
  have d1 : decw 0 = 0xffff := rfl
  have d2 : decw 0xffff = 0xfffe := rfl
  rw [p, c, hsp, d1, d2]
  exact ⟨rfl, by decide, rfl, rfl, rfl⟩

set_option maxRecDepth 100000 in
/-- C29: in the Z80 build opcode 0x08 exchanges A, S, Z, AC, P, CY with their shadow
copies and opcode 0xd9 exchanges B, C, D, E, H, L with theirs; every other member of the
state (PC, SP, `ram`, the reserved slots and their shadows) is unchanged, and executing
either opcode twice gives back the state. -/
theorem C29_exchanges (s : Cpu) (h : WF s) :
    execute s 0x08 =
      ({ s with a := s.ap, ap := s.a, fs := s.fsp, fsp := s.fs, fz := s.fzp, fzp := s.fz,
                fac := s.facp, facp := s.fac, fp := s.fpp, fpp := s.fp,
                fcy := s.fcyp, fcyp := s.fcy }, 1) ∧
    execute s 0xd9 =
      ({ s with b := s.bp, bp := s.b, c := s.cp, cp := s.c, d := s.dp, dp := s.d,
                e := s.ep, ep := s.e, h := s.hp, hp := s.h, l := s.lp, lp := s.l }, 1) ∧
    (execute (execute s 0x08).1 0x08).1 = s ∧
    (execute (execute s 0xd9).1 0xd9).1 = s := by
  have x1 : ∀ t, execute t 0x08 = (exafaf t, 1) := fun _ => rfl
  have x2 : ∀ t, execute t 0xd9 = (exx t, 1) := fun _ => rfl
  have w : WF (exx s) := by
    rw [exx_eq s h]; cases h; constructor <;> assumption
  refine ⟨by rw [x1, exafaf_eq], by rw [x2, exx_eq s h], by rw [x1, x1]; rfl, ?_⟩
  rw [x2, x2]
  dsimp only
  rw [exx_eq _ w, exx_eq s h]

/-- C26 at the state `start`, whose SP is 0, with B = 0x12: PUSH B stores 0x12 in the
cell 0xffff, which is not below `ramSize`. -/
theorem C26_ram_has_65535_bytes_witness :
    (banks 0 0 0 0x1234 0 0 0 0 0 0 0 0 0).sp = 0 ∧ ¬ (0xffff < ramSize) ∧
    (execute (banks 0 0 0 0x1234 0 0 0 0 0 0 0 0 0) 0xc5).1.ram 0xffff = 0x12 :=
  ⟨rfl,
   (C26_ram_has_65535_bytes (banks 0 0 0 0x1234 0 0 0 0 0 0 0 0 0) rfl).2.1,
   (C26_ram_has_65535_bytes (banks 0 0 0 0x1234 0 0 0 0 0 0 0 0 0) rfl).2.2.1.trans
     (by decide)⟩

/-- C29 at A = 0x11, S = 1, CY = 0, BC = 0x2233, DE = 0x4455, HL = 0x6677 with the
shadows 0x88, 0, 1, 0x99aa, 0xbbcc, 0xddee: 0x08 gives A = 0x88 and shadow A = 0x11,
0xd9 gives B = 0x99 and shadow C = 0x33, and each opcode twice gives back the state. -/
theorem C29_exchanges_witness :
    WF (banks 0x11 1 0 0x2233 0x4455 0x6677 0x1000 0x88 0 1 0x99aa 0xbbcc 0xddee) ∧
    (execute (banks 0x11 1 0 0x2233 0x4455 0x6677 0x1000 0x88 0 1 0x99aa 0xbbcc 0xddee)
      0x08).1.a = 0x88 ∧
    (execute (banks 0x11 1 0 0x2233 0x4455 0x6677 0x1000 0x88 0 1 0x99aa 0xbbcc 0xddee)
      0x08).1.ap = 0x11 ∧
    (execute (banks 0x11 1 0 0x2233 0x4455 0x6677 0x1000 0x88 0 1 0x99aa 0xbbcc 0xddee)
      0xd9).1.b = 0x99 ∧
    (execute (banks 0x11 1 0 0x2233 0x4455 0x6677 0x1000 0x88 0 1 0x99aa 0xbbcc 0xddee)
      0xd9).1.cp = 0x33 ∧
    (execute (execute
      (banks 0x11 1 0 0x2233 0x4455 0x6677 0x1000 0x88 0 1 0x99aa 0xbbcc 0xddee) 0xd9).1
      0xd9).1 = banks 0x11 1 0 0x2233 0x4455 0x6677 0x1000 0x88 0 1 0x99aa 0xbbcc 0xddee :=
  ⟨wf_banks 0x11 1 0 0x2233 0x4455 0x6677 0x1000 0x88 0 1 0x99aa 0xbbcc 0xddee
     (by decide) (by decide) (by decide) (by decide) (by decide) (by decide) (by decide)
     (by decide) (by decide) (by decide) (by decide) (by decide) (by decide),
   by decide, by decide, by decide, by decide,
   (C29_exchanges (banks 0x11 1 0 0x2233 0x4455 0x6677 0x1000 0x88 0 1 0x99aa 0xbbcc 0xddee)
     (wf_banks 0x11 1 0 0x2233 0x4455 0x6677 0x1000 0x88 0 1 0x99aa 0xbbcc 0xddee
       (by decide) (by decide) (by decide) (by decide) (by decide) (by decide) (by decide)
       (by decide) (by decide) (by decide) (by decide) (by decide) (by decide))).2.2.2⟩

theorem ofI80_proj (s : I80.Cpu) (z0 : Cpu) :
    (ofI80 s z0).a = s.a ∧ (ofI80 s z0).b = s.b ∧ (ofI80 s z0).c = s.c ∧
    (ofI80 s z0).d = s.d ∧ (ofI80 s z0).e = s.e ∧ (ofI80 s z0).h = s.h ∧
    (ofI80 s z0).l = s.l ∧ (ofI80 s z0).fs = s.fs ∧ (ofI80 s z0).fz = s.fz ∧
    (ofI80 s z0).fzero = s.fzero ∧ (ofI80 s z0).fac = s.fac ∧
    (ofI80 s z0).fzerox = s.fzerox ∧ (ofI80 s z0).fp = s.fp ∧ (ofI80 s z0).fone = s.fone ∧
    (ofI80 s z0).fcy = s.fcy ∧ (ofI80 s z0).sp = s.sp ∧ (ofI80 s z0).pc = s.pc ∧
    (ofI80 s z0).inte = s.inte ∧ (ofI80 s z0).ram = s.ram ∧ (ofI80 s z0).inout = s.inout ∧
    (ofI80 s z0).port = s.port ∧
    (ofI80 s z0).ap = z0.ap ∧ (ofI80 s z0).bp = z0.bp ∧ (ofI80 s z0).cp = z0.cp ∧
    (ofI80 s z0).dp = z0.dp ∧ (ofI80 s z0).ep = z0.ep ∧ (ofI80 s z0).hp = z0.hp ∧
    (ofI80 s z0).lp = z0.lp ∧ (ofI80 s z0).fsp = z0.fsp ∧ (ofI80 s z0).fzp = z0.fzp ∧
    (ofI80 s z0).fzerop = z0.fzerop ∧ (ofI80 s z0).facp = z0.facp ∧
    (ofI80 s z0).fzeroxp = z0.fzeroxp ∧ (ofI80 s z0).fpp = z0.fpp ∧
    (ofI80 s z0).fonep = z0.fonep ∧ (ofI80 s z0).fcyp = z0.fcyp :=
  ⟨rfl, rfl, rfl, rfl, rfl, rfl, rfl, rfl, rfl, rfl, rfl, rfl, rfl, rfl, rfl, rfl, rfl, rfl,
   rfl, rfl, rfl, rfl, rfl, rfl, rfl, rfl, rfl, rfl, rfl, rfl, rfl, rfl, rfl, rfl, rfl, rfl⟩

theorem ofI80_mk (s : I80.Cpu) (z0 : Cpu)
    (a b c d e h l fs fz fzero fac fzerox fp fone fcy sp pc inte : Nat)
    (ram inout : Nat → Nat) (port : Int) :
    Cpu.mk a z0.ap b z0.bp c z0.cp d z0.dp e z0.ep h z0.hp l z0.lp fs z0.fsp fz z0.fzp
      fzero z0.fzerop fac z0.facp fzerox z0.fzeroxp fp z0.fpp fone z0.fonep fcy z0.fcyp
      sp pc inte ram inout port =
    ofI80 (I80.Cpu.mk a b c d e h l s.f fs fz fzero fac fzerox fp fone fcy sp pc inte
      ram inout port) z0 := rfl

theorem ofI80_ite (c : Prop) [Decidable c] (a b : I80.Cpu) (z0 : Cpu) :
    (if c then ofI80 a z0 else ofI80 b z0) = ofI80 (if c then a else b) z0 := by
  split_ifs <;> rfl

theorem ofI80_hl (s : I80.Cpu) (z0 : Cpu) : hl (ofI80 s z0) = I80.hl s := rfl

theorem ofI80_wr (s : I80.Cpu) (z0 : Cpu) (i v : Nat) :
    wr (ofI80 s z0) i v = ofI80 (I80.wr s i v) z0 ∧
    wrOr (ofI80 s z0) i v = ofI80 (I80.wrOr s i v) z0 := ⟨rfl, rfl⟩

theorem ofI80_call (s : I80.Cpu) (z0 : Cpu) :
    call (ofI80 s z0) = ofI80 (I80.call s) z0 ∧ ret (ofI80 s z0) = ofI80 (I80.ret s) z0 :=
  ⟨rfl, rfl⟩

theorem ofI80_rst (s : I80.Cpu) (z0 : Cpu) (t : Nat) :
    rst (ofI80 s z0) t = ofI80 (I80.rst s t) z0 := rfl

theorem ofI80_flags (s : I80.Cpu) (z0 : Cpu) (x : Nat) :
    flags (ofI80 s z0) x = ofI80 (I80.flags s x) z0 := by
  unfold flags I80.flags; dsimp only [ofI80]; split_ifs <;> rfl

theorem ofI80_carryflag (s : I80.Cpu) (z0 : Cpu) (a b c d : Nat) :
    carryflag (ofI80 s z0) a b c d = ofI80 (I80.carryflag s a b c d) z0 := by
  unfold carryflag I80.carryflag; dsimp only [ofI80]; split_ifs <;> rfl

theorem ofI80_alu (s : I80.Cpu) (z0 : Cpu) (x : Nat) :
    add (ofI80 s z0) x = ofI80 (I80.add s x) z0 ∧ adc (ofI80 s z0) x = ofI80 (I80.adc s x) z0 ∧
    sub (ofI80 s z0) x = ofI80 (I80.sub s x) z0 ∧ sbb (ofI80 s z0) x = ofI80 (I80.sbb s x) z0 ∧
    ana (ofI80 s z0) x = ofI80 (I80.ana s x) z0 ∧ xra (ofI80 s z0) x = ofI80 (I80.xra s x) z0 ∧
    ora (ofI80 s z0) x = ofI80 (I80.ora s x) z0 ∧ cmp (ofI80 s z0) x = ofI80 (I80.cmp s x) z0 ∧
    inrTail (ofI80 s z0) x = ofI80 (I80.inrTail s x) z0 ∧
    dcrTail (ofI80 s z0) x = ofI80 (I80.dcrTail s x) z0 := by
  refine ⟨?_, ?_, ?_, ?_, ?_, ?_, ?_, ?_, ?_, ?_⟩
  · simp only [add, I80.add, ofI80_proj, ofI80_carryflag, ofI80_flags, ofI80_mk s z0,
      I80.carryflag_f, I80.flags_f]
  · simp only [adc, I80.adc, ofI80_proj, ofI80_carryflag, ofI80_flags, ofI80_mk s z0,
      I80.carryflag_f, I80.flags_f]
  · simp only [sub, I80.sub, ofI80_proj, ofI80_carryflag, ofI80_flags, ofI80_mk s z0,
      I80.carryflag_f, I80.flags_f]
  · simp only [sbb, I80.sbb, ofI80_proj, ofI80_carryflag, ofI80_flags, ofI80_mk s z0,
      I80.carryflag_f, I80.flags_f]
  · simp only [ana, I80.ana, ofI80_proj, ofI80_flags, ofI80_mk s z0, I80.flags_f]
  · simp only [xra, I80.xra, ofI80_proj, ofI80_flags, ofI80_mk s z0, I80.flags_f]
  · simp only [ora, I80.ora, ofI80_proj, ofI80_flags, ofI80_mk s z0, I80.flags_f]
  · simp only [cmp, I80.cmp, ofI80_proj, ofI80_carryflag, ofI80_flags, ofI80_mk s z0,
      I80.carryflag_f, I80.flags_f]
  · simp only [inrTail, I80.inrTail, ofI80_proj, ofI80_flags, ofI80_mk s z0, ofI80_ite]
  · simp only [dcrTail, I80.dcrTail, ofI80_proj, ofI80_flags, ofI80_mk s z0, ofI80_ite]

theorem ofI80_dad (s : I80.Cpu) (z0 : Cpu) (x y : Nat) :
    dad (ofI80 s z0) x y = ofI80 (I80.dad s x y) z0 := by
  simp only [dad, I80.dad, ofI80_proj, ofI80_mk s z0, ofI80_ite, I80.ite_f, ite_self]

theorem ofI80_daa (s : I80.Cpu) (z0 : Cpu) : daa (ofI80 s z0) = ofI80 (I80.daa s) z0 := by
  simp only [daa, I80.daa, ofI80_proj, ofI80_mk s z0, ofI80_ite, ofI80_flags, I80.ite_f,
    ite_self]

theorem ofI80_cond (s : I80.Cpu) (z0 : Cpu) (n : Nat) :
    (jumpIf (ofI80 s z0) (fun s => decide (s.fz = n)) =
      ofI80 (I80.jumpIf s (fun s => decide (s.fz = n))) z0 ∧
     jumpIf (ofI80 s z0) (fun s => decide (s.fcy = n)) =
      ofI80 (I80.jumpIf s (fun s => decide (s.fcy = n))) z0 ∧
     jumpIf (ofI80 s z0) (fun s => decide (s.fp = n)) =
      ofI80 (I80.jumpIf s (fun s => decide (s.fp = n))) z0 ∧
     jumpIf (ofI80 s z0) (fun s => decide (s.fs = n)) =
      ofI80 (I80.jumpIf s (fun s => decide (s.fs = n))) z0) ∧
    (callIf (ofI80 s z0) (fun s => decide (s.fz = n)) =
      ofI80 (I80.callIf s (fun s => decide (s.fz = n))) z0 ∧
     callIf (ofI80 s z0) (fun s => decide (s.fcy = n)) =
      ofI80 (I80.callIf s (fun s => decide (s.fcy = n))) z0 ∧
     callIf (ofI80 s z0) (fun s => decide (s.fp = n)) =
      ofI80 (I80.callIf s (fun s => decide (s.fp = n))) z0 ∧
     callIf (ofI80 s z0) (fun s => decide (s.fs = n)) =
      ofI80 (I80.callIf s (fun s => decide (s.fs = n))) z0) ∧
    (retIf (ofI80 s z0) (fun s => decide (s.fz = n)) =
      ofI80 (I80.retIf s (fun s => decide (s.fz = n))) z0 ∧
     retIf (ofI80 s z0) (fun s => decide (s.fcy = n)) =
      ofI80 (I80.retIf s (fun s => decide (s.fcy = n))) z0 ∧
     retIf (ofI80 s z0) (fun s => decide (s.fp = n)) =
      ofI80 (I80.retIf s (fun s => decide (s.fp = n))) z0 ∧
     retIf (ofI80 s z0) (fun s => decide (s.fs = n)) =
      ofI80 (I80.retIf s (fun s => decide (s.fs = n))) z0) := by
  refine ⟨⟨?_, ?_, ?_, ?_⟩, ⟨?_, ?_, ?_, ?_⟩, ⟨?_, ?_, ?_, ?_⟩⟩ <;>
    first
    | (unfold jumpIf I80.jumpIf fetch16 I80.fetch16 fetch I80.fetch
       dsimp only [ofI80]; split_ifs <;> rfl)
    | (unfold callIf I80.callIf fetch16 I80.fetch16 fetch I80.fetch
       dsimp only [ofI80]; split_ifs <;> rfl)
    | (unfold retIf I80.retIf
       dsimp only [ofI80]; split_ifs <;> rfl)


set_option maxRecDepth 100000 in
set_option maxHeartbeats 4000000 in
theorem execute_ofI80_fst (s : I80.Cpu) (z0 : Cpu) (op : Nat) (hop : op < 256)
    (h8 : op ≠ 0x08) (hd9 : op ≠ 0xd9) :
    (execute (ofI80 s z0) op).1 = ofI80 (I80.execute s op).1 z0 := by
  interval_cases op <;>
    first | exact absurd rfl h8 | exact absurd rfl hd9 | rfl
          | (conv => lhs; arg 1; whnf
             conv => rhs; arg 1; arg 1; whnf)
  all_goals first
    | rfl
    | (simp only [ofI80_proj, ofI80_hl, ofI80_mk s z0, ofI80_ite, ofI80_wr, ofI80_call,
        ofI80_rst, ofI80_flags, ofI80_carryflag, ofI80_alu, ofI80_dad, ofI80_daa, ofI80_cond,
        I80.flags_f, I80.carryflag_f, I80.ite_f, ite_self])

set_option maxRecDepth 100000 in
/-- The value returned by `execute`, for each of the 256 values of a `byte`. -/
theorem execute_ret_val_z80 (s : Cpu) (op : Nat) (h : op < 256) :
    (execute s op).2 = if op = 0x76 then 0 else 1 := by
  interval_cases op <;> rfl

theorem execute_snd (s : I80.Cpu) (z0 : Cpu) (op : Nat) (hop : op < 256) :
    (execute (ofI80 s z0) op).2 = (I80.execute s op).2 :=
  (execute_ret_val_z80 _ op hop).trans (I80.execute_ret_val s op hop).symm

/-- On every opcode but `0x08` and `0xd9` the `execute` of `z80.c` does to the primary
members what the `execute` of `i80.c` does, and keeps the shadow members. -/
theorem execute_ofI80 (s : I80.Cpu) (z0 : Cpu) (op : Nat) (hop : op < 256)
    (h8 : op ≠ 0x08) (hd9 : op ≠ 0xd9) :
    execute (ofI80 s z0) op = (ofI80 (I80.execute s op).1 z0, (I80.execute s op).2) :=
  Prod.ext (execute_ofI80_fst s z0 op hop h8 hd9) (execute_snd s z0 op hop)

set_option maxRecDepth 100000 in
set_option maxHeartbeats 4000000 in
theorem execute_default_z80 (s : Cpu) (op : Nat) (hop : 256 ≤ op) : execute s op = (s, 1) := by
  unfold execute
  simp (disch := omega) only [if_neg]

theorem flagsOf_inv_z80 (s t : Cpu) (h : flagsOf t = flagsOf s) : FlagInv t ↔ FlagInv s := by
  unfold flagsOf at h
  simp only [List.cons.injEq, and_true] at h
  obtain ⟨a1, a2, a3, a4, a5, a6, a7, a8, a9, a10, a11, a12, a13⟩ := h
  unfold FlagInv
  rw [a1, a2, a3, a4, a5, a6, a7, a8, a9, a10, a11, a12, a13]

theorem inv_ofI80 (s : I80.Cpu) (z0 : Cpu) (h : I80.FlagInv s)
    (hs : z0.fsp ≤ 1 ∧ z0.fzp ≤ 1 ∧ z0.facp ≤ 1 ∧ z0.fpp ≤ 1 ∧ z0.fcyp ≤ 1) :
    FlagInv (ofI80 s z0) := ⟨h.1, h.2, hs⟩

set_option maxRecDepth 100000 in
theorem inv_execute_z80 (z : Cpu) (h : FlagInv z) (op : Nat) : FlagInv (execute z op).1 := by
  by_cases hop : op < 256
  · by_cases h8 : op = 0x08
    · subst h8
      obtain ⟨⟨h1, h2, h3, h4, h5⟩, hr, ⟨g1, g2, g3, g4, g5⟩⟩ := h
      exact ⟨⟨g1, g2, g3, g4, g5⟩, hr, ⟨h1, h2, h3, h4, h5⟩⟩
    by_cases hd9 : op = 0xd9
    · subst hd9
      exact h
    have hz : z = ofI80 (toI80 z 0) z := rfl
    rw [hz, execute_ofI80 _ z op hop h8 hd9]
    exact inv_ofI80 _ _ (I80.inv_execute (toI80 z 0) ⟨h.1, h.2.1⟩ op) h.2.2
  · rw [execute_default_z80 z op (by omega)]; exact h

theorem readstr_flags_z80 : ∀ (inp : List Nat) (s : Cpu) (addr save size : Nat) (out : List Nat),
    flagsOf (readstr inp s addr save size out).2.1 = flagsOf s
  | [], _, _, _, _, _ => rfl
  | x :: rest, s, addr, save, size, out => by
    unfold readstr
    dsimp only
    split_ifs <;> first | rfl | exact readstr_flags_z80 rest _ _ _ _ _

theorem inv_reset (s : Cpu) : FlagInv (reset s) := by
  unfold FlagInv reset; simp

theorem inv_bdos (w : Sys) (h : FlagInv w.cpu) : FlagInv (bdos w).sys.cpu := by
  obtain ⟨s, ⟨inp, out, err⟩⟩ := w
  change FlagInv s at h
  by_cases h0 : s.c = 0
  · simp only [bdos, h0]; exact inv_reset s
  by_cases h1 : s.c = 1
  · simp only [bdos, h1]; cases inp <;> exact h
  by_cases h2 : s.c = 2
  · simp only [bdos, h2]; exact h
  by_cases h3 : s.c = 3
  · simp only [bdos, h3]; exact h
  by_cases h4 : s.c = 4
  · simp only [bdos, h4]; exact h
  by_cases h5 : s.c = 5
  · simp only [bdos, h5]; exact h
  by_cases h6 : s.c = 6
  · simp only [bdos, h6]; cases inp <;> exact h
  by_cases h7 : s.c = 7
  · simp only [bdos, h7]; exact h
  by_cases h8 : s.c = 8
  · simp only [bdos, h8]; exact h
  by_cases h9 : s.c = 9
  · simp only [bdos, h9]
    generalize I80.writestr _ _ _ _ = r
    cases r <;> exact h
  by_cases h10 : s.c = 10
  · simp only [bdos, h10]
    exact (flagsOf_inv_z80 _ _ (readstr_flags_z80 inp s _ _ _ out)).2 h
  by_cases h12 : s.c = 12
  · simp only [bdos, h12]; exact h
  by_cases h25 : s.c = 25
  · simp only [bdos, h25]; exact h
  simp only [bdos, h0, h1, h2, h3, h4, h5, h6, h7, h8, h9, h10, h12, h25]; exact h

set_option maxRecDepth 100000 in
/-- One turn of the loop, with the result of `execute` named by its projections. -/
theorem step_eq_z80 (w : Sys) :
    step w =
      if (execute (fetch w.cpu).2 (fetch w.cpu).1).2 = 0 then
        .exited ⟨(execute (fetch w.cpu).2 (fetch w.cpu).1).1, w.host⟩
      else if (execute (fetch w.cpu).2 (fetch w.cpu).1).1.port = 0 then
        bdos ⟨(execute (fetch w.cpu).2 (fetch w.cpu).1).1, w.host⟩
      else .running ⟨(execute (fetch w.cpu).2 (fetch w.cpu).1).1, w.host⟩ := rfl

theorem inv_after_z80 (x : Cpu × Nat) (hst : I80.Host) (e : FlagInv x.1) :
    FlagInv (if x.2 = 0 then Outcome.exited ⟨x.1, hst⟩
             else if x.1.port = 0 then bdos ⟨x.1, hst⟩
             else Outcome.running ⟨x.1, hst⟩).sys.cpu := by
  split_ifs
  · exact e
  · exact inv_bdos _ e
  · exact e

set_option maxRecDepth 100000 in
theorem inv_step_z80 (w : Sys) (h : FlagInv w.cpu) : FlagInv (step w).sys.cpu := by
  have hf : FlagInv (fetch w.cpu).2 := h
  have e := inv_execute_z80 (fetch w.cpu).2 hf (fetch w.cpu).1
  have k := inv_after_z80 (execute (fetch w.cpu).2 (fetch w.cpu).1) w.host e
  have q := step_eq_z80 w
  exact q.symm ▸ k

theorem inv_run_z80 : ∀ (n : Nat) (w : Sys), FlagInv w.cpu → FlagInv (run n w).sys.cpu
  | 0, _, h => h
  | n + 1, w, h => by
    have e := inv_step_z80 w h
    unfold run
    split
    · rename_i w1 hw
      rw [hw] at e
      exact inv_run_z80 n w1 e
    · rename_i o hne
      exact e

theorem load_flags_z80 : ∀ (image : List Nat) (i : Nat) (s : Cpu),
    flagsOf (load image i s) = flagsOf s
  | [], _, _ => rfl
  | x :: rest, i, s => by
    unfold load
    split_ifs
    · exact load_flags_z80 rest _ _
    · rfl

theorem inv_boot_z80 (image : List Nat) : FlagInv (boot image) := by
  have e : flagsOf (boot image) = flagsOf (reset start) := load_flags_z80 image 0x100 _
  rw [flagsOf_inv_z80 _ _ e]
  exact inv_reset _

/-! ## The two builds side by side -/

/-- C38: in both builds, in the state reached from the bootstrap state of any image by
any number of driver steps on any input, the flag slots S, Z, AC, P, CY hold 0 or 1 and
the reserved slots hold 0, 0 and 1; in the Z80 build the shadow flag slots hold 0 or 1
as well. -/
theorem C38_flag_slots (image stdin : List Nat) (n : Nat) :
    (I80.FlagBits (I80.run n ⟨I80.boot image, ⟨stdin, [], []⟩⟩).sys.cpu ∧
     I80.Reserved (I80.run n ⟨I80.boot image, ⟨stdin, [], []⟩⟩).sys.cpu) ∧
    FlagInv (run n ⟨boot image, ⟨stdin, [], []⟩⟩).sys.cpu :=
  ⟨I80.inv_run n _ (I80.inv_boot image), inv_run_z80 n _ (inv_boot_z80 image)⟩

/-- C39: for every opcode other than 0x08 and 0xd9, from a Z80 state and an 8080 state
that agree on the primary registers, flags, SP, PC, `inte`, `ram`, `inout` and `port`,
the two `execute` return the same value and end in states that agree again, and the
shadow members of the Z80 state are unchanged. -/
theorem C39_z80_agrees_with_i80 (z : Cpu) (s : I80.Cpu) (op : Nat) (hop : op < 256)
    (h8 : op ≠ 0x08) (hd9 : op ≠ 0xd9) (h : agrees z s) :
    (execute z op).2 = (I80.execute s op).2 ∧
    agrees (execute z op).1 (I80.execute s op).1 ∧
    shadows (execute z op).1 = shadows z := by
  have hz : z = ofI80 s z := by
    unfold agrees at h
    rw [← h]
    rfl
  rw [hz, execute_ofI80 s z op hop h8 hd9]
  exact ⟨rfl, rfl, rfl⟩

set_option maxRecDepth 100000 in
/-- C39 at `ADD B` (0x80) with A = 0x11, B = 0x22 and shadows 0x88, 0x99aa: both builds
give A = 0x33 and the shadows stay. -/
theorem C39_z80_agrees_with_i80_witness :
    agrees (banks 0x11 1 0 0x2233 0x4455 0x6677 0x1000 0x88 0 1 0x99aa 0xbbcc 0xddee)
      (toI80 (banks 0x11 1 0 0x2233 0x4455 0x6677 0x1000 0x88 0 1 0x99aa 0xbbcc 0xddee) 0) ∧
    (execute (banks 0x11 1 0 0x2233 0x4455 0x6677 0x1000 0x88 0 1 0x99aa 0xbbcc 0xddee)
      0x80).1.a = 0x33 ∧
    (I80.execute
      (toI80 (banks 0x11 1 0 0x2233 0x4455 0x6677 0x1000 0x88 0 1 0x99aa 0xbbcc 0xddee) 0)
      0x80).1.a = 0x33 ∧
    shadows (execute (banks 0x11 1 0 0x2233 0x4455 0x6677 0x1000 0x88 0 1 0x99aa 0xbbcc 0xddee)
      0x80).1 =
      shadows (banks 0x11 1 0 0x2233 0x4455 0x6677 0x1000 0x88 0 1 0x99aa 0xbbcc 0xddee) :=
  ⟨rfl, by decide, by decide,
   (C39_z80_agrees_with_i80
     (banks 0x11 1 0 0x2233 0x4455 0x6677 0x1000 0x88 0 1 0x99aa 0xbbcc 0xddee)
     (toI80 (banks 0x11 1 0 0x2233 0x4455 0x6677 0x1000 0x88 0 1 0x99aa 0xbbcc 0xddee) 0)
     0x80 (by decide) (by decide) (by decide) rfl).2.2⟩

end Z80
